import Mathlib

/-!
# fcube: the trigram voxel viewer

A shallow embedding of the voxel loader (`loadTrigrams`) and of the frame loop
(`drawFrame`, `recordCommandBuffer`, `mainLoop`) of `src/main.cpp`, followed by the
properties proved about them.

Conventions of the embedding.

* A C++ `float` is an IEEE-754 binary32 number.  Every finite binary32 number is a rational, so
  a `float` value is a `ℚ`, and an operation is the exact rational operation followed by
  `f32round` (round to nearest, ties to even, 24 significant bits).  `f32round` has no
  exponent bounds: it agrees with binary32 on the normal range `2^-126 ≤ |q| < 2^128`, which is
  the only range the loader reaches (operands are converted 32-bit integers, the divisor is at
  least one).
* The Vulkan driver is an environment: the `VkResult` every call of one frame returns is read
  from a `FrameEnv`, and the calls a function makes are collected, in program order, in a trace
  of `Call`s.  Per-frame arrays (`inFlightFences`, `commandBuffers`, ...) are indexed by a slot
  number, and a `Call` records the slot number the source indexes the array with.
* A C++ exception is `Except.error` carrying the text of `what()`.
-/

namespace FCube

/-! ## binary32 arithmetic -/

/-- Nearest integer of a rational, a tie going to the even neighbour. -/
def roundHalfEven (q : ℚ) : ℤ :=
  if q - ⌊q⌋ < 1 / 2 then ⌊q⌋
  else if 1 / 2 < q - ⌊q⌋ then ⌊q⌋ + 1
  else if ⌊q⌋ % 2 = 0 then ⌊q⌋ else ⌊q⌋ + 1

/-- Rounding of a rational to binary32: with `e = ⌊log₂ |q|⌋` the unit in the last place is
`2 ^ (e - 23)` and `q` goes to the nearest multiple of it, ties to even. -/
def f32round (q : ℚ) : ℚ :=
  if q = 0 then 0
  else roundHalfEven (q / 2 ^ (Int.log 2 |q| - 23)) * 2 ^ (Int.log 2 |q| - 23)

/-- Conversion `static_cast<float>(n)` of an integer. -/
def f32ofInt (n : Int) : ℚ := f32round n

/-- Division `a / b` of two `float`s (for `b ≠ 0`). -/
def f32div (a b : ℚ) : ℚ := f32round (a / b)

/-! ## Constants and data (`main.cpp`, lines 42-44 and 67-131) -/

/-- Constant `WINDOW_WIDTH`. -/
def WINDOW_WIDTH : Nat := 800

/-- Constant `WINDOW_HEIGHT`. -/
def WINDOW_HEIGHT : Nat := 600

/-- Constant `MAX_FRAMES_IN_FLIGHT`. -/
def MAX_FRAMES_IN_FLIGHT : Nat := 2

/-- Constant `UINT64_MAX`, the timeout given to the fence wait and to the image acquire. -/
def UINT64_MAX : Nat := 2 ^ 64 - 1

/-- The `struct Voxel`: four `int` fields.  The loader does no integer arithmetic on them
(only `std::max` and the conversion to `float`), so nothing can wrap and the fields are plain
integers. -/
structure Voxel where
  x : Int
  y : Int
  z : Int
  count : Int
  deriving DecidableEq, Repr

/-- A `glm::vec3`: three `float`s. -/
structure Vec3 where
  x : ℚ
  y : ℚ
  z : ℚ
  deriving DecidableEq, Repr

/-- The `struct InstanceData`: a `float` offset vector and a `float` intensity. -/
structure InstanceData where
  offset : Vec3
  intensity : ℚ
  deriving DecidableEq, Repr

/-- A `VkExtent2D`. -/
structure Extent2D where
  width : Nat
  height : Nat
  deriving DecidableEq, Repr

/-- The fields of `vulkan_trigram_viewer` that the loader and the frame loop read or write. -/
structure Viewer where
  currentFrame : Nat
  voxels : List Voxel
  instanceData : List InstanceData
  swapChainExtent : Extent2D
  deriving DecidableEq, Repr

/-- The viewer as its member initialisers leave it (`uint32_t currentFrame = 0`, empty
vectors); the extent is the one `chooseSwapExtent` returns. -/
def Viewer.initial : Viewer :=
  { currentFrame := 0, voxels := [], instanceData := [],
    swapChainExtent := { width := WINDOW_WIDTH, height := WINDOW_HEIGHT } }

/-! ## `loadTrigrams` (`main.cpp`, lines 293-331) -/

/-- The second loop of `loadTrigrams`: `maxCount` starts at `1` and takes `std::max` with
every count. -/
def maxCount (voxels : List Voxel) : Int :=
  voxels.foldl (fun m voxel => max m voxel.count) 1

/-- Body of the third loop of `loadTrigrams`: the instance record of one voxel. -/
def mkInstance (maxCount : Int) (voxel : Voxel) : InstanceData :=
  { offset := { x := f32ofInt voxel.x, y := f32ofInt voxel.y, z := f32ofInt voxel.z },
    intensity := f32div (f32ofInt voxel.count) (f32ofInt maxCount) }

/-- The function `loadTrigrams`.  `file` is what opening and parsing `filename` gives: `none`
when the file cannot be opened, else the records of the JSON array, each already converted to
the four `int`s of a `Voxel`. -/
def loadTrigrams (filename : String) (file : Option (List Voxel)) (s : Viewer) :
    Except String Viewer :=
  match file with
  | none => .error ("Failed to open " ++ filename)
  | some j =>
    let voxels := j.foldl (fun acc item => acc ++ [item]) []
    let maxCount := maxCount voxels
    let instanceData := voxels.foldl (fun acc voxel => acc ++ [mkInstance maxCount voxel]) []
    .ok { s with voxels := voxels, instanceData := instanceData }

/-! ## The frame loop (`main.cpp`, lines 333-342, 863-932 and 1443-1501) -/

/-- The `VkResult` codes a call of the frame loop can return. -/
inductive VkResult where
  | VK_SUCCESS
  | VK_NOT_READY
  | VK_TIMEOUT
  | VK_SUBOPTIMAL_KHR
  | VK_ERROR_OUT_OF_HOST_MEMORY
  | VK_ERROR_OUT_OF_DEVICE_MEMORY
  | VK_ERROR_DEVICE_LOST
  | VK_ERROR_OUT_OF_DATE_KHR
  | VK_ERROR_SURFACE_LOST_KHR
  deriving DecidableEq, Repr

/-- The buffers bound by `recordCommandBuffer`. -/
inductive Buffer where
  | vertexBuffer
  | instanceBuffer
  | indexBuffer
  deriving DecidableEq, Repr

/-- A command recorded into a command buffer by `recordCommandBuffer`, with the arguments the
source passes. -/
inductive Cmd where
  | beginRenderPass (framebuffer : Nat) (renderArea : Extent2D) (clearColor : List ℚ)
      (clearDepth : ℚ) (clearStencil : Nat)
  | bindPipeline
  | setViewport (x y width height minDepth maxDepth : ℚ)
  | setScissor (offsetX offsetY : Int) (extent : Extent2D)
  | bindVertexBuffers (firstBinding : Nat) (buffers : List Buffer) (offsets : List Nat)
  | bindIndexBuffer (buffer : Buffer) (offset : Nat)
  | bindDescriptorSets (firstSet : Nat) (descriptorSet : Nat)
  | drawIndexed (indexCount instanceCount firstIndex : Nat) (vertexOffset : Int)
      (firstInstance : Nat)
  | endRenderPass
  deriving DecidableEq, Repr

/-- A call of the frame loop as the driver sees it.  A slot argument is the index the source
gives to the per-frame array; `result` is what the call returned. -/
inductive Call where
  | pollEvents
  | waitForFences (fence : Nat) (waitAll : Bool) (timeout : Nat) (result : VkResult)
  | acquireNextImage (timeout : Nat) (semaphore : Nat) (result : VkResult)
  | resetFences (fence : Nat) (result : VkResult)
  | resetCommandBuffer (commandBuffer : Nat) (result : VkResult)
  | beginCommandBuffer (commandBuffer : Nat) (result : VkResult)
  | cmd (commandBuffer : Nat) (c : Cmd)
  | endCommandBuffer (commandBuffer : Nat) (result : VkResult)
  | writeUniform (uniformBuffer : Nat)
  | queueSubmit (waitSemaphore commandBuffer signalSemaphore fence : Nat) (result : VkResult)
  | queuePresent (waitSemaphore imageIndex : Nat) (result : VkResult)
  | deviceWaitIdle
  deriving DecidableEq, Repr

/-- What the driver answers during one `drawFrame`: the result of every call that has one, and
the value found in `imageIndex` after `vkAcquireNextImageKHR`. -/
structure FrameEnv where
  waitForFences : VkResult
  acquireNextImage : VkResult
  imageIndex : Nat
  resetFences : VkResult
  resetCommandBuffer : VkResult
  beginCommandBuffer : VkResult
  endCommandBuffer : VkResult
  queueSubmit : VkResult
  queuePresent : VkResult
  deriving DecidableEq, Repr

/-- The member `cubeIndices`: 36 indices, two triangles per face. -/
def cubeIndices : List Nat :=
  [0, 1, 2, 2, 3, 0,
   4, 5, 6, 6, 7, 4,
   0, 1, 5, 5, 4, 0,
   2, 3, 7, 7, 6, 2,
   1, 2, 6, 6, 5, 1,
   3, 0, 4, 4, 7, 3]

/-- The commands `recordCommandBuffer` records between `vkBeginCommandBuffer` and
`vkEndCommandBuffer`.  The two counts of the draw are `static_cast<uint32_t>` of a size. -/
def recordedCommands (s : Viewer) (imageIndex : Nat) : List Cmd :=
  [ .beginRenderPass imageIndex s.swapChainExtent [0, 0, 0, 1] 1 0,
    .bindPipeline,
    .setViewport 0 0 (f32ofInt s.swapChainExtent.width) (f32ofInt s.swapChainExtent.height) 0 1,
    .setScissor 0 0 s.swapChainExtent,
    .bindVertexBuffers 0 [.vertexBuffer, .instanceBuffer] [0, 0],
    .bindIndexBuffer .indexBuffer 0,
    .bindDescriptorSets 0 s.currentFrame,
    .drawIndexed (cubeIndices.length % 2 ^ 32) (s.instanceData.length % 2 ^ 32) 0 0 0,
    .endRenderPass ]

/-- The function `recordCommandBuffer`: the calls it makes and whether it throws. -/
def recordCommandBuffer (env : FrameEnv) (s : Viewer) (commandBuffer imageIndex : Nat) :
    List Call × Except String Unit :=
  if env.beginCommandBuffer ≠ .VK_SUCCESS then
    ([.beginCommandBuffer commandBuffer env.beginCommandBuffer],
      .error "failed to begin recording command buffer!")
  else
    let calls := [Call.beginCommandBuffer commandBuffer env.beginCommandBuffer]
      ++ (recordedCommands s imageIndex).map (Call.cmd commandBuffer)
      ++ [Call.endCommandBuffer commandBuffer env.endCommandBuffer]
    if env.endCommandBuffer ≠ .VK_SUCCESS then
      (calls, .error "failed to record command buffer!")
    else
      (calls, .ok ())

/-- The function `updateUniformBuffer`: one `memcpy` into the mapped uniform memory of slot
`currentImage`.  The matrix written depends on the clock only and is not modelled. -/
def updateUniformBuffer (currentImage : Nat) : List Call :=
  [.writeUniform currentImage]

/-- The function `drawFrame`: the calls it makes, in program order, and either the viewer it
leaves or the exception it throws. -/
def drawFrame (env : FrameEnv) (s : Viewer) : List Call × Except String Viewer :=
  let head : List Call :=
    [ .waitForFences s.currentFrame true UINT64_MAX env.waitForFences,
      .acquireNextImage UINT64_MAX s.currentFrame env.acquireNextImage,
      .resetFences s.currentFrame env.resetFences,
      .resetCommandBuffer s.currentFrame env.resetCommandBuffer ]
  match recordCommandBuffer env s s.currentFrame env.imageIndex with
  | (rec, .error e) => (head ++ rec, .error e)
  | (rec, .ok ()) =>
    let submit : List Call := head ++ rec ++ updateUniformBuffer s.currentFrame
      ++ [.queueSubmit s.currentFrame s.currentFrame s.currentFrame s.currentFrame
            env.queueSubmit]
    if env.queueSubmit ≠ .VK_SUCCESS then
      (submit, .error "failed to submit draw command buffer!")
    else
      (submit ++ [.queuePresent s.currentFrame env.imageIndex env.queuePresent],
        .ok { s with currentFrame := (s.currentFrame + 1) % 2 ^ 32 % MAX_FRAMES_IN_FLIGHT })

/-- The members of the viewer when `drawFrame` is left, by a return or by an exception.  The
only member `drawFrame` writes is `currentFrame`, in its last statement, which a `throw` of
`recordCommandBuffer` or of the check of `vkQueueSubmit` skips. -/
def drawFrameMembers (env : FrameEnv) (s : Viewer) : Viewer :=
  match recordCommandBuffer env s s.currentFrame env.imageIndex with
  | (_, .error _) => s
  | (_, .ok ()) =>
    if env.queueSubmit ≠ .VK_SUCCESS then
      s
    else
      { s with currentFrame := (s.currentFrame + 1) % 2 ^ 32 % MAX_FRAMES_IN_FLIGHT }

/-- The function `mainLoop`.  The list holds one `FrameEnv` for every iteration entered, that
is for every time `glfwWindowShouldClose` answered false; when the list is used up the window
reports closing, the loop is left and `vkDeviceWaitIdle` is called. -/
def mainLoop : List FrameEnv → Viewer → List Call × Except String Viewer
  | [], s => ([.deviceWaitIdle], .ok s)
  | env :: rest, s =>
    match drawFrame env s with
    | (calls, .error e) => (.pollEvents :: calls, .error e)
    | (calls, .ok s') =>
      let (later, r) := mainLoop rest s'
      (.pollEvents :: calls ++ later, r)

/-- The per-frame slot indices a call carries: which fence, semaphore, command buffer, uniform
buffer or descriptor set of the per-frame arrays it touches. -/
def Call.slots : Call → List Nat
  | .pollEvents => []
  | .waitForFences fence _ _ _ => [fence]
  | .acquireNextImage _ semaphore _ => [semaphore]
  | .resetFences fence _ => [fence]
  | .resetCommandBuffer commandBuffer _ => [commandBuffer]
  | .beginCommandBuffer commandBuffer _ => [commandBuffer]
  | .cmd commandBuffer (.bindDescriptorSets _ descriptorSet) => [commandBuffer, descriptorSet]
  | .cmd commandBuffer _ => [commandBuffer]
  | .endCommandBuffer commandBuffer _ => [commandBuffer]
  | .writeUniform uniformBuffer => [uniformBuffer]
  | .queueSubmit waitSemaphore commandBuffer signalSemaphore fence _ =>
    [waitSemaphore, commandBuffer, signalSemaphore, fence]
  | .queuePresent waitSemaphore _ _ => [waitSemaphore]
  | .deviceWaitIdle => []

/-- An environment in which every call of the frame succeeds and image `imageIndex` is
acquired. -/
def FrameEnv.allSuccess (imageIndex : Nat) : FrameEnv :=
  { waitForFences := .VK_SUCCESS, acquireNextImage := .VK_SUCCESS, imageIndex := imageIndex,
    resetFences := .VK_SUCCESS, resetCommandBuffer := .VK_SUCCESS,
    beginCommandBuffer := .VK_SUCCESS, endCommandBuffer := .VK_SUCCESS,
    queueSubmit := .VK_SUCCESS, queuePresent := .VK_SUCCESS }

/-- The steps of the frame protocol (section 4.6 of the specification); the fence reset, which
the specification does not name, is a step of its own. -/
inductive Step where
  | wait
  | acquire
  | resetFence
  | record
  | uniform
  | submit
  | present
  deriving DecidableEq, Repr

/-- The protocol step a call belongs to; resetting, beginning, filling and ending the command
buffer all belong to the step that resets and re-records it. -/
def Call.step : Call → Option Step
  | .pollEvents => none
  | .waitForFences _ _ _ _ => some .wait
  | .acquireNextImage _ _ _ => some .acquire
  | .resetFences _ _ => some .resetFence
  | .resetCommandBuffer _ _ => some .record
  | .beginCommandBuffer _ _ => some .record
  | .cmd _ _ => some .record
  | .endCommandBuffer _ _ => some .record
  | .writeUniform _ => some .uniform
  | .queueSubmit _ _ _ _ _ => some .submit
  | .queuePresent _ _ _ => some .present
  | .deviceWaitIdle => none

/-- The steps a trace goes through: the step of every call, a run of calls of one step counted
once. -/
def steps (calls : List Call) : List Step :=
  (calls.filterMap Call.step).destutter (fun a b => a ≠ b)

/-- The frame protocol of the specification (section 4.6) as the calls of one frame on slot
`s.currentFrame`: wait for the fence, acquire an image, reset the fence, reset and re-record
the command buffer for the acquired image, update the uniform, submit, present.  It is what
the trace of `drawFrame` is compared with. -/
def frameProtocol (env : FrameEnv) (s : Viewer) : List Call :=
  [ Call.waitForFences s.currentFrame true UINT64_MAX env.waitForFences,
    Call.acquireNextImage UINT64_MAX s.currentFrame env.acquireNextImage,
    Call.resetFences s.currentFrame env.resetFences,
    Call.resetCommandBuffer s.currentFrame env.resetCommandBuffer,
    Call.beginCommandBuffer s.currentFrame env.beginCommandBuffer ]
  ++ (recordedCommands s env.imageIndex).map (Call.cmd s.currentFrame)
  ++ [ Call.endCommandBuffer s.currentFrame env.endCommandBuffer,
    Call.writeUniform s.currentFrame,
    Call.queueSubmit s.currentFrame s.currentFrame s.currentFrame s.currentFrame
      env.queueSubmit,
    Call.queuePresent s.currentFrame env.imageIndex env.queuePresent ]

/-- A frame in which the fence wait fails with `VK_ERROR_DEVICE_LOST` and every other call
succeeds. -/
def FrameEnv.waitFails : FrameEnv :=
  { FrameEnv.allSuccess 0 with waitForFences := .VK_ERROR_DEVICE_LOST }

/-- A frame in which `vkQueueSubmit` fails with `VK_ERROR_DEVICE_LOST` and every other call
succeeds. -/
def FrameEnv.submitFails : FrameEnv :=
  { FrameEnv.allSuccess 0 with queueSubmit := .VK_ERROR_DEVICE_LOST }

/-- A frame in which `vkQueuePresentKHR` fails with `VK_ERROR_OUT_OF_DATE_KHR` and every other
call succeeds. -/
def FrameEnv.presentFails : FrameEnv :=
  { FrameEnv.allSuccess 0 with queuePresent := .VK_ERROR_OUT_OF_DATE_KHR }

/-! ## Device selection (`main.cpp`, lines 133-141, 486-512 and 982-999) -/

/-- A queue family of a physical device: whether it supports graphics commands and whether it
can present to the window surface. -/
structure QueueFamily where
  graphics : Bool
  present : Bool
  deriving DecidableEq, Repr

/-- A physical device as `vkEnumeratePhysicalDevices` returns it: a non-null handle and the
queue families the device exposes. -/
structure PhysicalDevice where
  handle : Nat
  queueFamilies : List QueueFamily
  deriving DecidableEq, Repr

/-- The `struct QueueFamilyIndices`: two `std::optional<uint32_t>`. -/
structure QueueFamilyIndices where
  graphicsFamily : Option Nat
  presentFamily : Option Nat
  deriving DecidableEq, Repr

/-- The method `QueueFamilyIndices::isComplete`. -/
def QueueFamilyIndices.isComplete (indices : QueueFamilyIndices) : Bool :=
  indices.graphicsFamily.isSome && indices.presentFamily.isSome

/-- The function `findQueueFamilies` ("Simplified implementation"): it does not query the
device and reports family 0 for graphics and for presentation.  The argument is a device
handle, `none` for `VK_NULL_HANDLE`. -/
def findQueueFamilies (_device : Option PhysicalDevice) : QueueFamilyIndices :=
  { graphicsFamily := some 0, presentFamily := some 0 }

/-- The function `isDeviceSuitable`; the argument is a device handle, `none` for
`VK_NULL_HANDLE`. -/
def isDeviceSuitable (device : Option PhysicalDevice) : Bool :=
  (findQueueFamilies device).isComplete

/-- The loop of `pickPhysicalDevice`: the first handle found suitable is stored in
`physicalDevice`, null or not, and the loop is left. -/
def pickPhysicalDeviceLoop :
    List (Option PhysicalDevice) → Option PhysicalDevice → Option PhysicalDevice
  | [], physicalDevice => physicalDevice
  | device :: rest, physicalDevice =>
    if isDeviceSuitable device then device else pickPhysicalDeviceLoop rest physicalDevice

/-- The function `pickPhysicalDevice`.  `devices` is the vector `devices(deviceCount)` after
the second call of `vkEnumeratePhysicalDevices`, whose result is not checked: it has
`deviceCount` entries, and an entry the call did not fill is still `VK_NULL_HANDLE`, here
`none`.  The member `physicalDevice` is `none` for `VK_NULL_HANDLE`; the function returns its
new value. -/
def pickPhysicalDevice (devices : List (Option PhysicalDevice))
    (physicalDevice : Option PhysicalDevice) : Except String (Option PhysicalDevice) :=
  if devices.length = 0 then
    .error "failed to find GPUs with Vulkan support!"
  else
    match pickPhysicalDeviceLoop devices physicalDevice with
    | none => .error "failed to find a suitable GPU!"
    | some device => .ok (some device)

/-- What the specification asks of a selected device: it exposes a queue family that supports
both graphics and presentation. -/
def PhysicalDevice.hasGraphicsPresentFamily (device : PhysicalDevice) : Bool :=
  device.queueFamilies.any fun family => family.graphics && family.present

/-- A device whose only queue family does transfers: neither graphics nor presentation. -/
def PhysicalDevice.computeOnly : PhysicalDevice :=
  { handle := 1, queueFamilies := [{ graphics := false, present := false }] }

/-- A device with one queue family that supports both graphics and presentation. -/
def PhysicalDevice.gpu : PhysicalDevice :=
  { handle := 2, queueFamilies := [{ graphics := true, present := true }] }

/-! ## Swapchain image count (`main.cpp`, lines 562-616) -/

/-- The two fields of `VkSurfaceCapabilitiesKHR` that `createSwapChain` reads, both
`uint32_t`.  A `maxImageCount` of `0` means that the surface sets no upper limit. -/
structure SurfaceCapabilities where
  minImageCount : Nat
  maxImageCount : Nat
  deriving DecidableEq, Repr

/-- The image count `createSwapChain` computes and passes as `createInfo.minImageCount`:
`minImageCount + 1` in `uint32_t` arithmetic, replaced by `maxImageCount` when that is positive
and exceeded. -/
def imageCount (capabilities : SurfaceCapabilities) : Nat :=
  let imageCount := (capabilities.minImageCount + 1) % 2 ^ 32
  if capabilities.maxImageCount > 0 ∧ imageCount > capabilities.maxImageCount then
    capabilities.maxImageCount
  else
    imageCount

/-! ## Memory types and depth formats (`main.cpp`, lines 1077-1091 and 1206-1232) -/

/-- The loop of `findMemoryType` from index `i` on; the list holds the `propertyFlags` of the
memory types `i`, `i + 1`, ... up to `memoryTypeCount`. -/
def findMemoryTypeFrom (typeFilter properties : Nat) : List Nat → Nat → Option Nat
  | [], _ => none
  | propertyFlags :: rest, i =>
    if (typeFilter &&& (1 <<< i)) ≠ 0 ∧ (propertyFlags &&& properties) = properties then some i
    else findMemoryTypeFrom typeFilter properties rest (i + 1)

/-- The function `findMemoryType`.  `memoryTypes` holds the `propertyFlags` of the
`memoryTypeCount` memory types that `vkGetPhysicalDeviceMemoryProperties` reports (at most
`VK_MAX_MEMORY_TYPES = 32`, so that `1 << i` is a shift by less than the width). -/
def findMemoryType (memoryTypes : List Nat) (typeFilter properties : Nat) : Except String Nat :=
  match findMemoryTypeFrom typeFilter properties memoryTypes 0 with
  | some i => .ok i
  | none => .error "failed to find suitable memory type!"

/-- The `VkFormat` values the viewer names. -/
inductive VkFormat where
  | VK_FORMAT_R32_SFLOAT
  | VK_FORMAT_R32G32B32_SFLOAT
  | VK_FORMAT_D32_SFLOAT
  | VK_FORMAT_D24_UNORM_S8_UINT
  | VK_FORMAT_D32_SFLOAT_S8_UINT
  | other (code : Nat)
  deriving DecidableEq, Repr

/-- The enumeration `VkImageTiling`. -/
inductive VkImageTiling where
  | VK_IMAGE_TILING_OPTIMAL
  | VK_IMAGE_TILING_LINEAR
  deriving DecidableEq, Repr

/-- The `struct VkFormatProperties`: three feature bitmasks. -/
structure VkFormatProperties where
  linearTilingFeatures : Nat
  optimalTilingFeatures : Nat
  bufferFeatures : Nat
  deriving DecidableEq, Repr

/-- The Vulkan constant `VK_FORMAT_FEATURE_DEPTH_STENCIL_ATTACHMENT_BIT`, bit 9. -/
def VK_FORMAT_FEATURE_DEPTH_STENCIL_ATTACHMENT_BIT : Nat := 0x200

/-- The function `findSupportedFormat`; `formatProperties` is what
`vkGetPhysicalDeviceFormatProperties` reports for each format. -/
def findSupportedFormat (formatProperties : VkFormat → VkFormatProperties) :
    List VkFormat → VkImageTiling → Nat → Except String VkFormat
  | [], _, _ => .error "failed to find supported format!"
  | format :: rest, tiling, features =>
    if tiling = .VK_IMAGE_TILING_LINEAR ∧
        ((formatProperties format).linearTilingFeatures &&& features) = features then
      .ok format
    else if tiling = .VK_IMAGE_TILING_OPTIMAL ∧
        ((formatProperties format).optimalTilingFeatures &&& features) = features then
      .ok format
    else
      findSupportedFormat formatProperties rest tiling features

/-- Whether the optimal-tiling features a device reports for `format` include the
depth-stencil-attachment feature (bit 9 of the mask). -/
def depthSupported (formatProperties : VkFormat → VkFormatProperties) (format : VkFormat) : Bool :=
  (formatProperties format).optimalTilingFeatures.testBit 9

/-- The function `findDepthFormat`. -/
def findDepthFormat (formatProperties : VkFormat → VkFormatProperties) : Except String VkFormat :=
  findSupportedFormat formatProperties
    [.VK_FORMAT_D32_SFLOAT, .VK_FORMAT_D32_SFLOAT_S8_UINT, .VK_FORMAT_D24_UNORM_S8_UINT]
    .VK_IMAGE_TILING_OPTIMAL VK_FORMAT_FEATURE_DEPTH_STENCIL_ATTACHMENT_BIT

/-! ## The option parser (`arg.hpp`) -/

/-- The `struct option` of `arg_parser`. -/
structure ArgParser.option where
  description : String
  value : String
  has_value : Bool
  required : Bool
  deriving DecidableEq, Repr

/-- The class `arg_parser`.  The `std::unordered_map` `options_` is a list of entries; the
order of the list is the order in which the map is iterated, which the standard leaves
unspecified, so a property is stated for every order. -/
structure ArgParser where
  options_ : List (String × ArgParser.option)
  positional_args_ : List String
  deriving DecidableEq, Repr

/-- A default-constructed `arg_parser`. -/
def ArgParser.empty : ArgParser :=
  { options_ := [], positional_args_ := [] }

/-- The map lookup `options_.find(name)`: `none` stands for `options_.end()`. -/
def ArgParser.find (p : ArgParser) (name : String) : Option ArgParser.option :=
  p.options_.lookup name

/-- The map assignment `options_[name] = o`: the entry of `name` is replaced, or a new entry
is added when there is none. -/
def ArgParser.assign (p : ArgParser) (name : String) (o : ArgParser.option) : ArgParser :=
  if (p.options_.lookup name).isSome then
    { p with options_ := p.options_.map fun e => if e.1 = name then (name, o) else e }
  else
    { p with options_ := p.options_ ++ [(name, o)] }

/-- The method `add_option(name, description, required)`. -/
def ArgParser.add_option (p : ArgParser) (name description : String) (required : Bool) :
    ArgParser :=
  p.assign name
    { description := description, value := "", has_value := false, required := required }

/-- The method `add_option(name, description, default_value, required)`; `default_value` is
the text that `oss << default_value` produces. -/
def ArgParser.add_option_default (p : ArgParser) (name description default_value : String)
    (required : Bool) : ArgParser :=
  p.assign name
    { description := description, value := default_value, has_value := true,
      required := required }

/-- The first loop of `parse`, over the tokens `argv[i]`, `argv[i + 1]`, ... that are left.
A `std::string` is a `String` read through its characters: `arg.substr(0, 2) == "--"` compares
the first two, `argv[i + 1][0]` is the first character of the next token (the terminating
`NUL` for an empty token). -/
def ArgParser.parseArgs : List String → ArgParser → Except String ArgParser
  | [], p => .ok p
  | arg :: rest, p =>
    if arg.toList.take 2 = ['-', '-'] then
      match p.find arg with
      | some o =>
        match rest with
        | next :: rest' =>
          if next.toList.head? ≠ some '-' then
            ArgParser.parseArgs rest' (p.assign arg { o with value := next, has_value := true })
          else
            .error ("Option " ++ arg ++ " expects a value")
        | [] => .error ("Option " ++ arg ++ " expects a value")
      | none => .error ("Unknown option: " ++ arg)
    else if arg.toList.head? = some '-' ∧ arg.length > 1 then
      .error ("Short options not supported: " ++ arg)
    else
      ArgParser.parseArgs rest { p with positional_args_ := p.positional_args_ ++ [arg] }

/-- The second loop of `parse`, over the entries of `options_`. -/
def ArgParser.checkRequired : List (String × ArgParser.option) → Except String Unit
  | [] => .ok ()
  | (name, o) :: rest =>
    if o.required ∧ ¬ o.has_value then .error ("Required option missing: " ++ name)
    else ArgParser.checkRequired rest

/-- The method `parse(argc, argv)`; `argv` has `argc` entries, the first being the program
name.  A parser whose `parse` throws is not used again, so the state it leaves is not
modelled. -/
def ArgParser.parse (argv : List String) (p : ArgParser) : Except String ArgParser :=
  match ArgParser.parseArgs (argv.drop 1) p with
  | .error e => .error e
  | .ok p' =>
    match ArgParser.checkRequired p'.options_ with
    | .error e => .error e
    | .ok () => .ok p'

/-- An option is supplied on the command line when its name is one of the tokens after the
program name and can be recognised as an option, that is begins with two dashes. -/
def ArgParser.supplied (name : String) (argv : List String) : Prop :=
  name ∈ argv.drop 1 ∧ name.toList.take 2 = ['-', '-']

/-- The method `get<T>(name)`; `convert_value` is the specialisation of `convert_value<T>`. -/
def ArgParser.get {α : Type} (convert_value : String → Except String α) (p : ArgParser)
    (name : String) : Except String α :=
  match p.find name with
  | none => .error ("Unknown option: " ++ name)
  | some o =>
    if ¬ o.has_value then .error ("Option " ++ name ++ " has no value")
    else convert_value o.value

/-- The specialisation `convert_value<std::string>`: the stored text itself. -/
def convert_value_string (value : String) : Except String String :=
  .ok value

/-! ## Set-up and tear-down (`main.cpp`, lines 166-172, 250-291, 344-862, 1064-1438 and
1502-1559) -/

/-- The two shader stages of the pipeline. -/
inductive ShaderStage where
  | vert
  | frag
  deriving DecidableEq, Repr

/-- The GLFW and Vulkan objects the viewer creates, named after the member (or local) that
holds the handle; an index is the position in the member vector. -/
inductive Resource where
  | glfw
  | window
  | vkInstance
  | debugMessenger
  | surface
  | device
  | swapChain
  | swapChainImageView (i : Nat)
  | renderPass
  | descriptorSetLayout
  | shaderModule (stage : ShaderStage)
  | pipelineLayout
  | graphicsPipeline
  | depthImage
  | depthImageMemory
  | depthImageView
  | swapChainFramebuffer (i : Nat)
  | commandPool
  | stagingBuffer (target : Buffer)
  | stagingBufferMemory (target : Buffer)
  | copyCommandBuffer (target : Buffer)
  | buffer (b : Buffer)
  | bufferMemory (b : Buffer)
  | uniformBuffer (i : Nat)
  | uniformBufferMemory (i : Nat)
  | descriptorPool
  | descriptorSets
  | commandBuffers
  | imageAvailableSemaphore (i : Nat)
  | renderFinishedSemaphore (i : Nat)
  | inFlightFence (i : Nat)
  deriving DecidableEq, Repr

/-- A call seen from outside the viewer: a creation (or allocation) call for a resource with
what it returned, the creation call of the swapchain with the image count and extent it asks
for, a destruction (or free) call, or a call of the frame loop. -/
inductive Op where
  | create (r : Resource) (result : VkResult)
  | createSwapchain (minImageCount : Nat) (imageExtent : Extent2D) (result : VkResult)
  | destroy (r : Resource)
  | frame (c : Call)
  deriving DecidableEq, Repr

/-- What the platform answers during set-up.  `enableValidationLayers` is the compile-time
constant of that name (false under `NDEBUG`); `files` is the content of the input file of a
given name, if it can be opened; `result` is what the creation call of a resource returns
(for `glfwInit` and `glfwCreateWindow`: whether they succeed); `devices` is the vector of
handles that `pickPhysicalDevice` enumerates, `none` standing for `VK_NULL_HANDLE`. -/
structure InitEnv where
  enableValidationLayers : Bool
  files : String → Option (List Voxel)
  result : Resource → VkResult
  devices : List (Option PhysicalDevice)
  capabilities : SurfaceCapabilities
  formats : List VkFormat
  swapChainImages : Nat
  formatProperties : VkFormat → VkFormatProperties
  memoryTypes : List Nat
  memoryTypeBits : Resource → Nat
  shaderFiles : ShaderStage → Bool

/-- The members of `vulkan_trigram_viewer` that set-up writes and later code reads.  A member
vector of handles is kept as its size. -/
structure App where
  args_ : ArgParser
  viewer : Viewer
  physicalDevice : Option PhysicalDevice
  swapChainImages : Nat
  swapChainImageFormat : Option VkFormat
  swapChainImageViews : Nat
  swapChainFramebuffers : Nat
  deriving DecidableEq, Repr

/-- A default-constructed `vulkan_trigram_viewer`. -/
def App.initial : App :=
  { args_ := ArgParser.empty, viewer := Viewer.initial, physicalDevice := none,
    swapChainImages := 0, swapChainImageFormat := none, swapChainImageViews := 0,
    swapChainFramebuffers := 0 }

/-- A piece of program: the calls it makes, in order, and its value or the exception it
throws. -/
def Script (α : Type) : Type := List Op × Except String α

/-- A piece of program that makes no call and returns `a`. -/
def Script.pure {α : Type} (a : α) : Script α := ([], .ok a)

/-- Sequencing: `f` runs after `m` unless `m` throws. -/
def Script.bind {α β : Type} (m : Script α) (f : α → Script β) : Script β :=
  match m with
  | (calls, .error e) => (calls, .error e)
  | (calls, .ok a) => (calls ++ (f a).1, (f a).2)

instance : Monad Script where
  pure := Script.pure
  bind := Script.bind

/-- A statement that makes no call: it returns or throws. -/
def Script.lift {α : Type} (x : Except String α) : Script α := ([], x)

/-- A call whose result is not checked: it is made and the program goes on. -/
def Script.call (op : Op) : Script Unit := ([op], .ok ())

/-- A run of calls whose results are not checked. -/
def Script.calls (ops : List Op) : Script Unit := (ops, .ok ())

/-- The pattern `if (vkCreate...(...) != VK_SUCCESS) throw std::runtime_error(message)`. -/
def Script.create (env : InitEnv) (r : Resource) (message : String) : Script Unit :=
  ([.create r (env.result r)],
    if env.result r ≠ .VK_SUCCESS then .error message else .ok ())

/-- A loop `for (i = start; i < start + count; i++)` whose body is `body i`. -/
def Script.loop (body : Nat → Script Unit) : Nat → Nat → Script Unit
  | 0, _ => Script.pure ()
  | count + 1, start => Script.bind (body start) fun _ => Script.loop body count (start + 1)

/-- The numeric value of a `VkResult`. -/
def VkResult.toInt : VkResult → Int
  | .VK_SUCCESS => 0
  | .VK_NOT_READY => 1
  | .VK_TIMEOUT => 2
  | .VK_SUBOPTIMAL_KHR => 1000001003
  | .VK_ERROR_OUT_OF_HOST_MEMORY => -1
  | .VK_ERROR_OUT_OF_DEVICE_MEMORY => -2
  | .VK_ERROR_DEVICE_LOST => -4
  | .VK_ERROR_OUT_OF_DATE_KHR => -1000001004
  | .VK_ERROR_SURFACE_LOST_KHR => -1000000000

/-- The Vulkan constant `VK_MEMORY_PROPERTY_DEVICE_LOCAL_BIT`. -/
def VK_MEMORY_PROPERTY_DEVICE_LOCAL_BIT : Nat := 0x1

/-- The Vulkan constant `VK_MEMORY_PROPERTY_HOST_VISIBLE_BIT`. -/
def VK_MEMORY_PROPERTY_HOST_VISIBLE_BIT : Nat := 0x2

/-- The Vulkan constant `VK_MEMORY_PROPERTY_HOST_COHERENT_BIT`. -/
def VK_MEMORY_PROPERTY_HOST_COHERENT_BIT : Nat := 0x4

/-- The function `initWindow`: `glfwInit` and `glfwCreateWindow`, neither checked. -/
def initWindow (env : InitEnv) (app : App) : Script App := do
  Script.call (.create .glfw (env.result .glfw))
  Script.call (.create .window (env.result .window))
  pure app

/-- The function `checkValidationLayerSupport`. -/
def checkValidationLayerSupport : Bool := true

/-- The function `createInstance`. -/
def createInstance (env : InitEnv) (app : App) : Script App := do
  if env.enableValidationLayers && !checkValidationLayerSupport then
    Script.lift (.error "validation layers requested, but not available!")
  Script.create env .vkInstance "failed to create instance!"
  pure app

/-- The function `setupDebugMessenger`. -/
def setupDebugMessenger (env : InitEnv) (app : App) : Script App := do
  if !env.enableValidationLayers then
    pure app
  else
    Script.create env .debugMessenger "failed to set up debug messenger!"
    pure app

/-- The function `createSurface`. -/
def createSurface (env : InitEnv) (app : App) : Script App := do
  Script.create env .surface "failed to create window surface!"
  pure app

/-- The step `pickPhysicalDevice` of set-up: the member `physicalDevice` is updated. -/
def App.pickPhysicalDevice (env : InitEnv) (app : App) : Script App := do
  let physicalDevice ← Script.lift (FCube.pickPhysicalDevice env.devices app.physicalDevice)
  pure { app with physicalDevice := physicalDevice }

/-- The function `createLogicalDevice`. -/
def createLogicalDevice (env : InitEnv) (app : App) : Script App := do
  Script.create env .device "failed to create logical device!"
  pure app

/-- The function `chooseSwapExtent`. -/
def chooseSwapExtent (_capabilities : SurfaceCapabilities) : Extent2D :=
  { width := WINDOW_WIDTH, height := WINDOW_HEIGHT }

/-- The function `chooseSwapSurfaceFormat`: element 0 of the vector; `none` stands for the
undefined read from an empty vector. -/
def chooseSwapSurfaceFormat (availableFormats : List VkFormat) : Option VkFormat :=
  availableFormats.head?

/-- The function `createSwapChain`. -/
def createSwapChain (env : InitEnv) (app : App) : Script App := do
  let surfaceFormat := chooseSwapSurfaceFormat env.formats
  let extent := chooseSwapExtent env.capabilities
  Script.call (.createSwapchain (imageCount env.capabilities) extent (env.result .swapChain))
  if env.result .swapChain ≠ .VK_SUCCESS then
    Script.lift (.error "failed to create swap chain!")
  pure { app with
    swapChainImages := env.swapChainImages
    swapChainImageFormat := surfaceFormat
    viewer := { app.viewer with swapChainExtent := extent } }

/-- The function `createImageViews`. -/
def createImageViews (env : InitEnv) (app : App) : Script App := do
  Script.loop
    (fun i => Script.create env (.swapChainImageView i) "failed to create texture image view!")
    app.swapChainImages 0
  pure { app with swapChainImageViews := app.swapChainImages }

/-- The function `createRenderPass`: the depth format is looked up while the attachment
descriptions are filled in, before `vkCreateRenderPass` is called. -/
def createRenderPass (env : InitEnv) (app : App) : Script App := do
  let _depthFormat ← Script.lift (findDepthFormat env.formatProperties)
  Script.create env .renderPass "failed to create render pass!"
  pure app

/-- The function `createDescriptorSetLayout`. -/
def createDescriptorSetLayout (env : InitEnv) (app : App) : Script App := do
  Script.create env .descriptorSetLayout "failed to create descriptor set layout!"
  pure app

/-- The function `readFile` on the binary of a shader stage. -/
def readFile (env : InitEnv) (stage : ShaderStage) : Script Unit :=
  if env.shaderFiles stage then Script.pure () else Script.lift (.error "failed to open file!")

/-- The function `createShaderModule`. -/
def createShaderModule (env : InitEnv) (stage : ShaderStage) : Script Unit :=
  Script.create env (.shaderModule stage) "failed to create shader module!"

/-- The function `createGraphicsPipeline`. -/
def createGraphicsPipeline (env : InitEnv) (app : App) : Script App := do
  readFile env .vert
  readFile env .frag
  createShaderModule env .vert
  createShaderModule env .frag
  Script.create env .pipelineLayout "failed to create pipeline layout!"
  Script.create env .graphicsPipeline "failed to create graphics pipeline!"
  Script.call (.destroy (.shaderModule .frag))
  Script.call (.destroy (.shaderModule .vert))
  pure app

/-- The function `createImage`, called for the depth image only. -/
def createImage (env : InitEnv) (properties : Nat) : Script Unit := do
  Script.create env .depthImage "failed to create image!"
  let _memoryTypeIndex ← Script.lift
    (findMemoryType env.memoryTypes (env.memoryTypeBits .depthImage) properties)
  Script.create env .depthImageMemory "failed to allocate image memory!"

/-- The function `createDepthResources`. -/
def createDepthResources (env : InitEnv) (app : App) : Script App := do
  let _depthFormat ← Script.lift (findDepthFormat env.formatProperties)
  createImage env VK_MEMORY_PROPERTY_DEVICE_LOCAL_BIT
  Script.create env .depthImageView "failed to create texture image view!"
  pure app

/-- The function `createFramebuffers`. -/
def createFramebuffers (env : InitEnv) (app : App) : Script App := do
  Script.loop
    (fun i => Script.create env (.swapChainFramebuffer i) "failed to create framebuffer!")
    app.swapChainImageViews 0
  pure { app with swapChainFramebuffers := app.swapChainImageViews }

/-- The function `createCommandPool`. -/
def createCommandPool (env : InitEnv) (app : App) : Script App := do
  if !(findQueueFamilies app.physicalDevice).graphicsFamily.isSome then
    Script.lift (.error "Graphics queue family not found!")
  Script.create env .commandPool
    ("failed to create command pool! Error code: " ++ toString (env.result .commandPool).toInt)
  pure app

/-- The function `createBuffer` for the buffer `buffer` with memory `bufferMemory`. -/
def createBuffer (env : InitEnv) (properties : Nat) (buffer bufferMemory : Resource) :
    Script Unit := do
  Script.create env buffer "failed to create buffer!"
  let _memoryTypeIndex ← Script.lift
    (findMemoryType env.memoryTypes (env.memoryTypeBits buffer) properties)
  Script.create env bufferMemory "failed to allocate buffer memory!"

/-- The function `copyBuffer`: a command buffer is allocated, used and freed, none of the
calls being checked. -/
def copyBuffer (env : InitEnv) (target : Buffer) : Script Unit := do
  Script.call (.create (.copyCommandBuffer target) (env.result (.copyCommandBuffer target)))
  Script.call (.destroy (.copyCommandBuffer target))

/-- The functions `createVertexBuffer` and `createIndexBuffer`, which differ in the target
buffer only: a staging buffer is filled, the device-local buffer is created, the content is
copied and the staging buffer is destroyed. -/
def createStagedBuffer (env : InitEnv) (target : Buffer) : Script Unit := do
  createBuffer env (VK_MEMORY_PROPERTY_HOST_VISIBLE_BIT ||| VK_MEMORY_PROPERTY_HOST_COHERENT_BIT)
    (.stagingBuffer target) (.stagingBufferMemory target)
  createBuffer env VK_MEMORY_PROPERTY_DEVICE_LOCAL_BIT (.buffer target) (.bufferMemory target)
  copyBuffer env target
  Script.call (.destroy (.stagingBuffer target))
  Script.call (.destroy (.stagingBufferMemory target))

/-- The function `createVertexBuffer`. -/
def createVertexBuffer (env : InitEnv) (app : App) : Script App := do
  createStagedBuffer env .vertexBuffer
  pure app

/-- The function `createIndexBuffer`. -/
def createIndexBuffer (env : InitEnv) (app : App) : Script App := do
  createStagedBuffer env .indexBuffer
  pure app

/-- The function `createInstanceBuffer`. -/
def createInstanceBuffer (env : InitEnv) (app : App) : Script App := do
  createBuffer env (VK_MEMORY_PROPERTY_HOST_VISIBLE_BIT ||| VK_MEMORY_PROPERTY_HOST_COHERENT_BIT)
    (.buffer .instanceBuffer) (.bufferMemory .instanceBuffer)
  pure app

/-- The function `createUniformBuffers`. -/
def createUniformBuffers (env : InitEnv) (app : App) : Script App := do
  Script.loop
    (fun i => createBuffer env
      (VK_MEMORY_PROPERTY_HOST_VISIBLE_BIT ||| VK_MEMORY_PROPERTY_HOST_COHERENT_BIT)
      (.uniformBuffer i) (.uniformBufferMemory i))
    MAX_FRAMES_IN_FLIGHT 0
  pure app

/-- The function `createDescriptorPool`. -/
def createDescriptorPool (env : InitEnv) (app : App) : Script App := do
  Script.create env .descriptorPool "failed to create descriptor pool!"
  pure app

/-- The function `createDescriptorSets`. -/
def createDescriptorSets (env : InitEnv) (app : App) : Script App := do
  Script.create env .descriptorSets "failed to allocate descriptor sets!"
  pure app

/-- The function `createCommandBuffers`. -/
def createCommandBuffers (env : InitEnv) (app : App) : Script App := do
  Script.create env .commandBuffers "failed to allocate command buffers!"
  pure app

/-- The function `createSyncObjects`: the three creations of a slot are joined by `||`, so a
failed one skips those after it. -/
def createSyncObjects (env : InitEnv) (app : App) : Script App := do
  Script.loop
    (fun i => do
      Script.create env (.imageAvailableSemaphore i) "failed to create sync objects for a frame!"
      Script.create env (.renderFinishedSemaphore i) "failed to create sync objects for a frame!"
      Script.create env (.inFlightFence i) "failed to create sync objects for a frame!")
    MAX_FRAMES_IN_FLIGHT 0
  pure app

/-- The step `loadTrigrams` of set-up: the file named by the option `--inputfile` is loaded
into the viewer. -/
def App.loadTrigrams (env : InitEnv) (app : App) : Script App := do
  let ifile ← Script.lift (app.args_.get convert_value_string "--inputfile")
  let viewer ← Script.lift (FCube.loadTrigrams ifile (env.files ifile) app.viewer)
  pure { app with viewer := viewer }

/-- The function `initVulkan`. -/
def initVulkan (env : InitEnv) (app : App) : Script App := do
  let app ← app.loadTrigrams env
  let app ← createInstance env app
  let app ← setupDebugMessenger env app
  let app ← createSurface env app
  let app ← app.pickPhysicalDevice env
  let app ← createLogicalDevice env app
  let app ← createSwapChain env app
  let app ← createImageViews env app
  let app ← createRenderPass env app
  let app ← createDescriptorSetLayout env app
  let app ← createGraphicsPipeline env app
  let app ← createDepthResources env app
  let app ← createFramebuffers env app
  let app ← createCommandPool env app
  let app ← createVertexBuffer env app
  let app ← createIndexBuffer env app
  let app ← createInstanceBuffer env app
  let app ← createUniformBuffers env app
  let app ← createDescriptorPool env app
  let app ← createDescriptorSets env app
  let app ← createCommandBuffers env app
  createSyncObjects env app

/-- The step `mainLoop` of `run`: the frame loop on the viewer, its calls seen as `Op`s. -/
def App.mainLoop (frames : List FrameEnv) (app : App) : Script App :=
  match FCube.mainLoop frames app.viewer with
  | (calls, .error e) => (calls.map Op.frame, .error e)
  | (calls, .ok viewer) => (calls.map Op.frame, .ok { app with viewer := viewer })

/-- The function `cleanup`. -/
def cleanup (env : InitEnv) (app : App) : List Op :=
  ((List.range MAX_FRAMES_IN_FLIGHT).map fun i =>
      [Op.destroy (.renderFinishedSemaphore i), Op.destroy (.imageAvailableSemaphore i),
        Op.destroy (.inFlightFence i)]).flatten
  ++ [Op.destroy .commandPool]
  ++ (List.range app.swapChainFramebuffers).map (fun i => Op.destroy (.swapChainFramebuffer i))
  ++ [Op.destroy .graphicsPipeline, Op.destroy .pipelineLayout, Op.destroy .renderPass]
  ++ (List.range app.swapChainImageViews).map (fun i => Op.destroy (.swapChainImageView i))
  ++ [Op.destroy .swapChain]
  ++ ((List.range MAX_FRAMES_IN_FLIGHT).map fun i =>
      [Op.destroy (.uniformBuffer i), Op.destroy (.uniformBufferMemory i)]).flatten
  ++ [Op.destroy .descriptorPool, Op.destroy .descriptorSetLayout,
      Op.destroy (.buffer .instanceBuffer), Op.destroy (.bufferMemory .instanceBuffer),
      Op.destroy (.buffer .indexBuffer), Op.destroy (.bufferMemory .indexBuffer),
      Op.destroy (.buffer .vertexBuffer), Op.destroy (.bufferMemory .vertexBuffer),
      Op.destroy .depthImageView, Op.destroy .depthImage, Op.destroy .depthImageMemory,
      Op.destroy .device]
  ++ (if env.enableValidationLayers then [Op.destroy .debugMessenger] else [])
  ++ [Op.destroy .surface, Op.destroy .vkInstance, Op.destroy .window, Op.destroy .glfw]

/-- The function `run`: the four steps in a row, with no handler, so that an exception of
one step skips those after it. -/
def run (env : InitEnv) (frames : List FrameEnv) (app : App) : Script App := do
  let app ← initWindow env app
  let app ← initVulkan env app
  let app ← app.mainLoop frames
  Script.calls (cleanup env app)
  pure app

/-- How the process ends: `main` returns a status after writing lines to `std::cerr`, or an
exception leaves `main`, which calls `std::terminate`. -/
inductive Outcome where
  | exit (status : Nat) (cerr : List String)
  | uncaught (what : String)
  deriving DecidableEq, Repr

/-- The constant `EXIT_SUCCESS`. -/
def EXIT_SUCCESS : Nat := 0

/-- The constant `EXIT_FAILURE`. -/
def EXIT_FAILURE : Nat := 1

/-- The function `main`: the option is registered and the command line parsed outside the
`try` block, `run` inside it. -/
def main (env : InitEnv) (frames : List FrameEnv) (argv : List String) : List Op × Outcome :=
  let args_ := ArgParser.empty.add_option "--inputfile" "JSON file with trigram data" true
  match args_.parse argv with
  | .error e => ([], .uncaught e)
  | .ok args_ =>
    match run env frames { App.initial with args_ := args_ } with
    | (ops, .error e) => (ops, .exit EXIT_FAILURE [e])
    | (ops, .ok _) => (ops, .exit EXIT_SUCCESS [])

/-- A platform on which set-up succeeds: every creation call returns `VK_SUCCESS`, one
suitable GPU is enumerated, the swapchain has `images` images, `D32_SFLOAT` is supported as
a depth attachment, memory type 0 is device-local and memory type 1 host-visible and
host-coherent, both shader binaries are readable and every input file holds `records`. -/
def InitEnv.allSuccess (enableValidationLayers : Bool) (images : Nat) (records : List Voxel) :
    InitEnv :=
  { enableValidationLayers := enableValidationLayers
    files := fun _ => some records
    result := fun _ => .VK_SUCCESS
    devices := [some PhysicalDevice.gpu]
    capabilities := { minImageCount := 2, maxImageCount := 3 }
    formats := [.other 44]
    swapChainImages := images
    formatProperties := fun format =>
      if format = .VK_FORMAT_D32_SFLOAT then ⟨0, 0x200, 0⟩ else ⟨0, 0, 0⟩
    memoryTypes := [0x1, 0x6]
    memoryTypeBits := fun _ => 0x3
    shaderFiles := fun _ => true }

/-- The set-up phase of `run`: `initWindow` followed by `initVulkan`. -/
def setup (env : InitEnv) (app : App) : Script App := do
  let app ← initWindow env app
  initVulkan env app

/-- The resource a call creates: the one named by a creation call that returned
`VK_SUCCESS`. -/
def Op.created : Op → Option Resource
  | .create r .VK_SUCCESS => some r
  | .createSwapchain _ _ .VK_SUCCESS => some .swapChain
  | _ => none

/-- The resource a call destroys. -/
def Op.destroyed : Op → Option Resource
  | .destroy r => some r
  | _ => none

/-- The resources created by a run of calls, in the order of creation. -/
def created (ops : List Op) : List Resource := ops.filterMap Op.created

/-- The resources destroyed by a run of calls, in the order of destruction. -/
def destroyed (ops : List Op) : List Resource := ops.filterMap Op.destroyed

/-- The resources a run of calls leaves alive: those created and not destroyed, in the order
of creation. -/
def live (ops : List Op) : List Resource :=
  (created ops).filter fun r => r ∉ destroyed ops

/-- The resources that are allocated from a pool and released together with the pool, not
by a call of their own. -/
def Resource.poolAllocated : Resource → Bool
  | .descriptorSets => true
  | .commandBuffers => true
  | _ => false

/-- The kind of a resource: the resource with the position in its vector forgotten. -/
def Resource.kind : Resource → Resource
  | .swapChainImageView _ => .swapChainImageView 0
  | .swapChainFramebuffer _ => .swapChainFramebuffer 0
  | .uniformBuffer _ => .uniformBuffer 0
  | .uniformBufferMemory _ => .uniformBufferMemory 0
  | .imageAvailableSemaphore _ => .imageAvailableSemaphore 0
  | .renderFinishedSemaphore _ => .renderFinishedSemaphore 0
  | .inFlightFence _ => .inFlightFence 0
  | r => r

/-- The sequence of resource kinds of a sequence of resources: a run of resources of one kind
counts once. -/
def kinds (resources : List Resource) : List Resource :=
  (resources.map Resource.kind).destutter (fun a b => a ≠ b)

/-- The calls of a set-up in which nothing fails, for `images` swapchain images and a
requested image count of `count`. -/
def setupOps (enableValidationLayers : Bool) (count images : Nat) : List Op :=
  [Op.create .glfw .VK_SUCCESS, Op.create .window .VK_SUCCESS,
    Op.create .vkInstance .VK_SUCCESS]
  ++ (if enableValidationLayers then [Op.create .debugMessenger .VK_SUCCESS] else [])
  ++ [Op.create .surface .VK_SUCCESS, Op.create .device .VK_SUCCESS,
      Op.createSwapchain count { width := WINDOW_WIDTH, height := WINDOW_HEIGHT } .VK_SUCCESS]
  ++ (List.range images).map (fun i => Op.create (.swapChainImageView i) .VK_SUCCESS)
  ++ [Op.create .renderPass .VK_SUCCESS, Op.create .descriptorSetLayout .VK_SUCCESS,
      Op.create (.shaderModule .vert) .VK_SUCCESS, Op.create (.shaderModule .frag) .VK_SUCCESS,
      Op.create .pipelineLayout .VK_SUCCESS, Op.create .graphicsPipeline .VK_SUCCESS,
      Op.destroy (.shaderModule .frag), Op.destroy (.shaderModule .vert),
      Op.create .depthImage .VK_SUCCESS, Op.create .depthImageMemory .VK_SUCCESS,
      Op.create .depthImageView .VK_SUCCESS]
  ++ (List.range images).map (fun i => Op.create (.swapChainFramebuffer i) .VK_SUCCESS)
  ++ [Op.create .commandPool .VK_SUCCESS,
      Op.create (.stagingBuffer .vertexBuffer) .VK_SUCCESS,
      Op.create (.stagingBufferMemory .vertexBuffer) .VK_SUCCESS,
      Op.create (.buffer .vertexBuffer) .VK_SUCCESS,
      Op.create (.bufferMemory .vertexBuffer) .VK_SUCCESS,
      Op.create (.copyCommandBuffer .vertexBuffer) .VK_SUCCESS,
      Op.destroy (.copyCommandBuffer .vertexBuffer),
      Op.destroy (.stagingBuffer .vertexBuffer),
      Op.destroy (.stagingBufferMemory .vertexBuffer),
      Op.create (.stagingBuffer .indexBuffer) .VK_SUCCESS,
      Op.create (.stagingBufferMemory .indexBuffer) .VK_SUCCESS,
      Op.create (.buffer .indexBuffer) .VK_SUCCESS,
      Op.create (.bufferMemory .indexBuffer) .VK_SUCCESS,
      Op.create (.copyCommandBuffer .indexBuffer) .VK_SUCCESS,
      Op.destroy (.copyCommandBuffer .indexBuffer),
      Op.destroy (.stagingBuffer .indexBuffer),
      Op.destroy (.stagingBufferMemory .indexBuffer),
      Op.create (.buffer .instanceBuffer) .VK_SUCCESS,
      Op.create (.bufferMemory .instanceBuffer) .VK_SUCCESS,
      Op.create (.uniformBuffer 0) .VK_SUCCESS, Op.create (.uniformBufferMemory 0) .VK_SUCCESS,
      Op.create (.uniformBuffer 1) .VK_SUCCESS, Op.create (.uniformBufferMemory 1) .VK_SUCCESS,
      Op.create .descriptorPool .VK_SUCCESS, Op.create .descriptorSets .VK_SUCCESS,
      Op.create .commandBuffers .VK_SUCCESS,
      Op.create (.imageAvailableSemaphore 0) .VK_SUCCESS,
      Op.create (.renderFinishedSemaphore 0) .VK_SUCCESS,
      Op.create (.inFlightFence 0) .VK_SUCCESS,
      Op.create (.imageAvailableSemaphore 1) .VK_SUCCESS,
      Op.create (.renderFinishedSemaphore 1) .VK_SUCCESS,
      Op.create (.inFlightFence 1) .VK_SUCCESS]

/-- The viewer of `main` after a command line naming the input file `file` has been parsed:
the option `--inputfile` is registered and holds `file`. -/
def App.parsed (file : String) : App :=
  { App.initial with
    args_ :=
      { options_ := [("--inputfile",
          { description := "JSON file with trigram data", value := file, has_value := true,
            required := true })]
        positional_args_ := [] } }

/-- The calls of `vkCreateRenderPass`, whatever they return. -/
def Op.createsRenderPass : Op → Bool
  | .create .renderPass _ => true
  | _ => false

/-- Every call made by a piece of program satisfies `P`. -/
def Script.All {α : Type} (P : Op → Prop) (m : Script α) : Prop := ∀ op ∈ m.1, P op

/-- A platform like `InitEnv.allSuccess` except that no format is supported as a
depth-stencil attachment. -/
def InitEnv.noDepthFormat : InitEnv :=
  { InitEnv.allSuccess false 2 [] with formatProperties := fun _ => ⟨0, 0, 0⟩ }

/-- The resources a set-up in which nothing fails leaves alive, in the order of creation, for
`images` swapchain images. -/
def liveResources (enableValidationLayers : Bool) (images : Nat) : List Resource :=
  [.glfw, .window, .vkInstance] ++ (if enableValidationLayers then [.debugMessenger] else [])
  ++ [.surface, .device, .swapChain]
  ++ (List.range images).map Resource.swapChainImageView
  ++ [.renderPass, .descriptorSetLayout, .pipelineLayout, .graphicsPipeline, .depthImage,
      .depthImageMemory, .depthImageView]
  ++ (List.range images).map Resource.swapChainFramebuffer
  ++ [.commandPool, .buffer .vertexBuffer, .bufferMemory .vertexBuffer, .buffer .indexBuffer,
      .bufferMemory .indexBuffer, .buffer .instanceBuffer, .bufferMemory .instanceBuffer,
      .uniformBuffer 0, .uniformBufferMemory 0, .uniformBuffer 1, .uniformBufferMemory 1,
      .descriptorPool, .descriptorSets, .commandBuffers,
      .imageAvailableSemaphore 0, .renderFinishedSemaphore 0, .inFlightFence 0,
      .imageAvailableSemaphore 1, .renderFinishedSemaphore 1, .inFlightFence 1]

/-- The viewer after a set-up on the platform `InitEnv.allSuccess` with `images` swapchain
images, the input file being `file`. -/
def App.afterSetup (file : String) (images : Nat) : App :=
  { App.parsed file with
    physicalDevice := some PhysicalDevice.gpu
    swapChainImages := images
    swapChainImageFormat := some (.other 44)
    swapChainImageViews := images
    swapChainFramebuffers := images }

/-! ## The option parser: queries and conversions (`arg.hpp`, lines 95-131 and 156-194) -/

/-- The method `has(name)`. -/
def ArgParser.has (p : ArgParser) (name : String) : Bool :=
  match p.find name with
  | none => false
  | some o => o.has_value

/-- The method `get_or<T>(name, default_value)`; `convert_value` is the specialisation of
`convert_value<T>`. -/
def ArgParser.get_or {α : Type} (convert_value : String → Except String α) (p : ArgParser)
    (name : String) (default_value : α) : Except String α :=
  if p.has name then p.get convert_value name else .ok default_value

/-- The method `positional()`. -/
def ArgParser.positional (p : ArgParser) : List String :=
  p.positional_args_

/-- The invariant of `std::unordered_map`: no two entries of `options_` have the same key. -/
def ArgParser.distinct (p : ArgParser) : Prop :=
  (p.options_.map Prod.fst).Nodup

/-- The function `::tolower` in the "C" locale: the letters `A` to `Z` are mapped to `a` to
`z`, every other character to itself. -/
def tolower (c : Char) : Char :=
  if 'A' ≤ c ∧ c ≤ 'Z' then Char.ofNat (c.toNat + 32) else c

/-- The specialisation `convert_value<bool>`. -/
def convert_value_bool (value : String) : Except String Bool :=
  let lower_value : String := String.mk (value.toList.map tolower)
  if lower_value = "true" ∨ lower_value = "1" ∨ lower_value = "yes" then
    .ok true
  else if lower_value = "false" ∨ lower_value = "0" ∨ lower_value = "no" then
    .ok false
  else
    .error ("Cannot convert '" ++ value ++ "' to bool")

/-- The function `isspace` in the "C" locale: space, `\t`, `\n`, `\v`, `\f` and `\r`. -/
def isspace (c : Char) : Bool :=
  c = ' ' ∨ c = '\t' ∨ c = '\n' ∨ c = Char.ofNat 11 ∨ c = Char.ofNat 12 ∨ c = '\r'

/-- The function `isdigit`. -/
def isdigit (c : Char) : Bool :=
  '0' ≤ c ∧ c ≤ '9'

/-- The constant `INT_MIN` of a 32-bit `int`. -/
def INT_MIN : Int := -2 ^ 31

/-- The constant `INT_MAX` of a 32-bit `int`. -/
def INT_MAX : Int := 2 ^ 31 - 1

/-- The state of an input stream after `iss >> result` for an `int` result: the value
stored, and the bits `failbit` and `eofbit`. -/
structure Extraction where
  result : Int
  fail : Bool
  eof : Bool
  deriving DecidableEq, Repr

/-- The extraction `iss >> result` of the standard library for an `int` result, on a stream
over `input` with the default flags (`skipws`, `dec`) in the "C" locale: leading white space
is skipped, an optional sign and the longest run of decimal digits are read; `failbit` is set
when there is no digit or the number does not fit an `int` (the result is then `0` or the
nearest bound), `eofbit` when the end of the input was reached while reading. -/
def extractInt (input : List Char) : Extraction :=
  let input := input.dropWhile isspace
  let negative := input.head? = some '-'
  let input := if input.head? = some '-' ∨ input.head? = some '+' then input.drop 1 else input
  let digits := input.takeWhile isdigit
  let rest := input.dropWhile isdigit
  let magnitude : Nat := digits.foldl (fun value c => 10 * value + (c.toNat - 48)) 0
  let value : Int := if negative then -(magnitude : Int) else magnitude
  if digits = [] then
    { result := 0, fail := true, eof := rest = [] }
  else if value < INT_MIN then
    { result := INT_MIN, fail := true, eof := rest = [] }
  else if INT_MAX < value then
    { result := INT_MAX, fail := true, eof := rest = [] }
  else
    { result := value, fail := false, eof := rest = [] }

/-- The primary template `convert_value<T>` for `T = int`. -/
def convert_value_int (value : String) : Except String Int :=
  let iss := extractInt value.toList
  if iss.fail ∨ ¬ iss.eof then
    .error ("Cannot convert '" ++ value ++ "' to requested type")
  else
    .ok iss.result

/-- The tokens that begin with `-` followed by another character. -/
def dashed (token : String) : Bool :=
  token.toList.head? = some '-' ∧ token.length > 1

/-- The tokens that begin with `--`. -/
def doubleDashed (token : String) : Bool :=
  token.toList.take 2 = ['-', '-']

/-- The tokens of a command line (without the program name) that neither begin with `-`
followed by another character nor come right after a token that begins with `--`, in
command-line order.  `afterOption` tells whether the first token comes after such a token. -/
def positionalTokens (afterOption : Bool) (tokens : List String) : List String :=
  ((tokens.zip (afterOption :: tokens.map doubleDashed)).filter
    fun e => !e.2 && !dashed e.1).map Prod.fst

/-! ## Lemmas on binary32 rounding -/

theorem roundHalfEven_intCast (n : ℤ) : roundHalfEven (n : ℚ) = n := by
  simp [roundHalfEven]

theorem floor_le_roundHalfEven (q : ℚ) : ⌊q⌋ ≤ roundHalfEven q := by
  unfold roundHalfEven
  split_ifs <;> omega

theorem roundHalfEven_le_floor_succ (q : ℚ) : roundHalfEven q ≤ ⌊q⌋ + 1 := by
  unfold roundHalfEven
  split_ifs <;> omega

theorem roundHalfEven_mono {x y : ℚ} (h : x ≤ y) : roundHalfEven x ≤ roundHalfEven y := by
  have hf : ⌊x⌋ ≤ ⌊y⌋ := Int.floor_mono h
  rcases hf.lt_or_eq with hlt | heq
  · calc roundHalfEven x ≤ ⌊x⌋ + 1 := roundHalfEven_le_floor_succ x
      _ ≤ ⌊y⌋ := hlt
      _ ≤ roundHalfEven y := floor_le_roundHalfEven y
  · unfold roundHalfEven
    rw [heq]
    have hxy : x - ⌊y⌋ ≤ y - ⌊y⌋ := by linarith
    split_ifs <;> first | omega | (exfalso; linarith)


theorem f32round_zero : f32round 0 = 0 := by simp [f32round]

theorem binade_eq {q : ℚ} {e : ℤ} (hq : 0 < q) (h1 : (2 : ℚ) ^ e ≤ q) (h2 : q < (2 : ℚ) ^ (e + 1)) :
    Int.log 2 q = e := by
  have a : e ≤ Int.log 2 q := by
    have := (Int.zpow_le_iff_le_log (b := 2) (by norm_num) (x := e) hq).1 (by exact_mod_cast h1)
    exact this
  have b : Int.log 2 q < e + 1 := by
    have := (Int.lt_zpow_iff_log_lt (b := 2) (by norm_num) (x := e + 1) hq).1 (by exact_mod_cast h2)
    exact this
  omega

theorem binade_le {q : ℚ} (hq : 0 < q) : (2 : ℚ) ^ Int.log 2 q ≤ q := by
  have := Int.zpow_log_le_self (b := 2) (by norm_num) hq
  exact_mod_cast this

theorem lt_binade_succ (q : ℚ) : q < (2 : ℚ) ^ (Int.log 2 q + 1) := by
  have := Int.lt_zpow_succ_log_self (b := 2) (by norm_num) q
  exact_mod_cast this

theorem scale23 (e : ℤ) : ((2 ^ 23 : ℤ) : ℚ) * 2 ^ (e - 23) = 2 ^ e := by
  have h : ((2 ^ 23 : ℤ) : ℚ) = (2 : ℚ) ^ (23 : ℤ) := by norm_num
  rw [h, ← zpow_add₀ (by norm_num : (2 : ℚ) ≠ 0)]
  congr 1; ring

theorem scale24 (e : ℤ) : ((2 ^ 24 : ℤ) : ℚ) * 2 ^ (e - 23) = 2 ^ (e + 1) := by
  have h : ((2 ^ 24 : ℤ) : ℚ) = (2 : ℚ) ^ (24 : ℤ) := by norm_num
  rw [h, ← zpow_add₀ (by norm_num : (2 : ℚ) ≠ 0)]
  congr 1; ring

theorem f32round_of_pos {q : ℚ} (hq : 0 < q) :
    f32round q = roundHalfEven (q / 2 ^ (Int.log 2 q - 23)) * 2 ^ (Int.log 2 q - 23) := by
  simp [f32round, hq.ne', abs_of_pos hq]

theorem f32round_pos_bounds {q : ℚ} (hq : 0 < q) :
    (2 : ℚ) ^ Int.log 2 q ≤ f32round q ∧ f32round q ≤ (2 : ℚ) ^ (Int.log 2 q + 1) := by
  have hu : (0 : ℚ) < 2 ^ (Int.log 2 q - 23) := by positivity
  have h1 : ((2 ^ 23 : ℤ) : ℚ) ≤ q / 2 ^ (Int.log 2 q - 23) := by
    rw [le_div_iff₀ hu, scale23]; exact binade_le hq
  have h2 : q / 2 ^ (Int.log 2 q - 23) ≤ ((2 ^ 24 : ℤ) : ℚ) := by
    rw [div_le_iff₀ hu, scale24]; exact (lt_binade_succ q).le
  have r1 := roundHalfEven_mono h1
  have r2 := roundHalfEven_mono h2
  rw [roundHalfEven_intCast] at r1 r2
  rw [f32round_of_pos hq]
  constructor
  · rw [← scale23]
    exact mul_le_mul_of_nonneg_right (by exact_mod_cast r1) hu.le
  · rw [← scale24]
    exact mul_le_mul_of_nonneg_right (by exact_mod_cast r2) hu.le

theorem f32round_mono_nonneg {x y : ℚ} (hx : 0 ≤ x) (h : x ≤ y) : f32round x ≤ f32round y := by
  rcases hx.lt_or_eq with hpos | hzero
  · have hy : 0 < y := lt_of_lt_of_le hpos h
    have hl : Int.log 2 x ≤ Int.log 2 y := Int.log_mono_right hpos h
    rcases hl.lt_or_eq with hlt | heq
    · calc f32round x ≤ (2 : ℚ) ^ (Int.log 2 x + 1) := (f32round_pos_bounds hpos).2
        _ ≤ (2 : ℚ) ^ Int.log 2 y := zpow_le_zpow_right₀ (by norm_num) (by omega)
        _ ≤ f32round y := (f32round_pos_bounds hy).1
    · rw [f32round_of_pos hpos, f32round_of_pos hy, heq]
      have hu : (0 : ℚ) < 2 ^ (Int.log 2 y - 23) := by positivity
      apply mul_le_mul_of_nonneg_right _ hu.le
      exact_mod_cast roundHalfEven_mono (div_le_div_of_nonneg_right h hu.le)
  · rw [← hzero, f32round_zero]
    rcases (hzero ▸ h : (0 : ℚ) ≤ y).lt_or_eq with hy | hy
    · exact le_trans (by positivity) (f32round_pos_bounds hy).1
    · rw [← hy, f32round_zero]


theorem f32round_exact (m k : ℤ) (hm : |m| < 2 ^ 24) :
    f32round ((m : ℚ) * 2 ^ k) = (m : ℚ) * 2 ^ k := by
  by_cases h0 : m = 0
  · simp [h0, f32round_zero]
  have hk : (0 : ℚ) < 2 ^ k := by positivity
  have hmq : (0 : ℚ) < |(m : ℚ)| := abs_pos.2 (by exact_mod_cast h0)
  have habs : |(m : ℚ) * 2 ^ k| = |(m : ℚ)| * 2 ^ k := by rw [abs_mul, abs_of_pos hk]
  have hlo : (0 : ℤ) ≤ Int.log 2 |(m : ℚ)| := by
    apply (Int.zpow_le_iff_le_log (b := 2) (by norm_num) hmq).1
    have : (1 : ℤ) ≤ |m| := Int.one_le_abs h0
    have : (1 : ℚ) ≤ |(m : ℚ)| := by exact_mod_cast this
    simpa using this
  have hhi : Int.log 2 |(m : ℚ)| < 24 := by
    apply (Int.lt_zpow_iff_log_lt (b := 2) (by norm_num) hmq).1
    have h24 : |(m : ℚ)| < 2 ^ 24 := by exact_mod_cast hm
    have e24 : ((2 : ℕ) : ℚ) ^ (24 : ℤ) = 2 ^ 24 := by norm_num
    rw [e24]; exact h24
  have hlog : Int.log 2 |(m : ℚ) * 2 ^ k| = Int.log 2 |(m : ℚ)| + k := by
    rw [habs]
    apply binade_eq (by positivity)
    · rw [zpow_add₀ (by norm_num)]
      exact mul_le_mul_of_nonneg_right (binade_le hmq) hk.le
    · rw [show Int.log 2 |(m : ℚ)| + k + 1 = (Int.log 2 |(m : ℚ)| + 1) + k by ring,
        zpow_add₀ (by norm_num)]
      exact mul_lt_mul_of_pos_right (lt_binade_succ _) hk
  have hne : (m : ℚ) * 2 ^ k ≠ 0 := mul_ne_zero (by exact_mod_cast h0) hk.ne'
  obtain ⟨n, hn⟩ : ∃ n : ℕ, (n : ℤ) = 23 - Int.log 2 |(m : ℚ)| := ⟨(23 - Int.log 2 |(m : ℚ)|).toNat, by omega⟩
  have hdiv : (m : ℚ) * 2 ^ k / 2 ^ (Int.log 2 |(m : ℚ)| + k - 23) = ((m * 2 ^ n : ℤ) : ℚ) := by
    rw [div_eq_iff (by positivity)]
    push_cast
    rw [mul_assoc, ← zpow_natCast (2 : ℚ) n, ← zpow_add₀ (by norm_num : (2 : ℚ) ≠ 0), hn]
    congr 2; ring
  unfold f32round
  rw [if_neg hne, hlog, hdiv, roundHalfEven_intCast, ← hdiv]
  field_simp

theorem f32round_one : f32round 1 = 1 := by
  simpa using f32round_exact 1 0 (by norm_num)

theorem f32round_nonneg {q : ℚ} (hq : 0 ≤ q) : 0 ≤ f32round q := by
  have h := f32round_mono_nonneg le_rfl hq
  rwa [f32round_zero] at h

theorem f32round_le_one {q : ℚ} (h0 : 0 ≤ q) (h1 : q ≤ 1) : f32round q ≤ 1 := by
  have h := f32round_mono_nonneg h0 h1
  rwa [f32round_one] at h

theorem f32ofInt_exact (n : ℤ) (hn : |n| ≤ 2 ^ 24) : f32ofInt n = n := by
  unfold f32ofInt
  rcases hn.lt_or_eq with hlt | heq
  · simpa using f32round_exact n 0 hlt
  · rcases abs_eq (by norm_num : (0 : ℤ) ≤ 2 ^ 24) |>.1 heq with h | h
    · have e := f32round_exact 1 24 (by norm_num)
      have c : ((1 : ℤ) : ℚ) * 2 ^ (24 : ℤ) = ((n : ℤ) : ℚ) := by rw [h]; norm_num
      rwa [c] at e
    · have e := f32round_exact (-1) 24 (by norm_num)
      have c : ((-1 : ℤ) : ℚ) * 2 ^ (24 : ℤ) = ((n : ℤ) : ℚ) := by rw [h]; norm_num
      rwa [c] at e

theorem f32ofInt_mono_nonneg {a b : ℤ} (ha : 0 ≤ a) (h : a ≤ b) : f32ofInt a ≤ f32ofInt b :=
  f32round_mono_nonneg (by exact_mod_cast ha) (by exact_mod_cast h)

theorem one_le_f32ofInt {n : ℤ} (hn : 1 ≤ n) : 1 ≤ f32ofInt n := by
  have h := f32ofInt_mono_nonneg (by norm_num : (0 : ℤ) ≤ 1) hn
  rwa [f32ofInt_exact 1 (by norm_num), Int.cast_one] at h

theorem f32div_self {a : ℚ} (ha : a ≠ 0) : f32div a a = 1 := by
  rw [f32div, div_self ha, f32round_one]

/-! ## Lemmas on the loops of the loader -/

theorem foldl_push_map {α β : Type} (f : α → β) (l : List α) (acc : List β) :
    l.foldl (fun acc item => acc ++ [f item]) acc = acc ++ l.map f := by
  induction l generalizing acc with
  | nil => simp
  | cons a l ih => simp [ih]

theorem foldl_push (l : List Voxel) :
    l.foldl (fun acc item => acc ++ [item]) [] = l := by
  simpa using foldl_push_map (fun v : Voxel => v) l []

theorem foldl_max_spec (l : List Voxel) (m : ℤ) :
    m ≤ l.foldl (fun m voxel => max m voxel.count) m ∧
    (∀ v ∈ l, v.count ≤ l.foldl (fun m voxel => max m voxel.count) m) ∧
    (l.foldl (fun m voxel => max m voxel.count) m = m ∨
      ∃ v ∈ l, v.count = l.foldl (fun m voxel => max m voxel.count) m) := by
  induction l generalizing m with
  | nil => simp
  | cons a l ih =>
    obtain ⟨h1, h2, h3⟩ := ih (max m a.count)
    simp only [List.foldl_cons, List.mem_cons, forall_eq_or_imp, exists_eq_or_imp]
    refine ⟨le_trans (le_max_left _ _) h1, ⟨le_trans (le_max_right _ _) h1, h2⟩, ?_⟩
    rcases h3 with h | ⟨v, hv, hc⟩
    · rcases max_choice m a.count with hm | hm
      · left; rw [h, hm]
      · right; left; rw [h, hm]
    · right; right; exact ⟨v, hv, hc⟩

theorem one_le_maxCount (l : List Voxel) : 1 ≤ maxCount l := (foldl_max_spec l 1).1

theorem count_le_maxCount {l : List Voxel} {v : Voxel} (hv : v ∈ l) : v.count ≤ maxCount l :=
  (foldl_max_spec l 1).2.1 v hv

theorem maxCount_attained (l : List Voxel) : maxCount l = 1 ∨ ∃ v ∈ l, v.count = maxCount l :=
  (foldl_max_spec l 1).2.2

theorem maxCount_isGreatest (l : List Voxel) :
    IsGreatest (insert 1 {c : ℤ | ∃ v ∈ l, v.count = c}) (maxCount l) := by
  constructor
  · rcases maxCount_attained l with h | ⟨v, hv, hc⟩
    · left; exact h
    · right; exact ⟨v, hv, hc⟩
  · rintro c (rfl | ⟨v, hv, rfl⟩)
    · exact one_le_maxCount l
    · exact count_le_maxCount hv

theorem loadTrigrams_some (filename : String) (j : List Voxel) (s : Viewer) :
    loadTrigrams filename (some j) s =
      .ok { s with voxels := j, instanceData := j.map (mkInstance (maxCount j)) } := by
  simp [loadTrigrams, foldl_push, foldl_push_map]

theorem f32ofInt_maxCount_ne_zero (l : List Voxel) : f32ofInt (maxCount l) ≠ 0 := by
  have := one_le_f32ofInt (one_le_maxCount l)
  intro h; rw [h] at this; norm_num at this

/-! ## The voxel loader: claims C1 to C5 -/

/-- C1: for every list of voxel records `loadTrigrams` succeeds and leaves an instance sequence
of the same length and in the same order, the instance of a record `v` having the offset
`(v.x, v.y, v.z)` converted to `float` and the intensity `float(v.count) / float(maxCount)`,
where `maxCount` is the greatest element of the counts together with `1`.  An integer of
magnitude at most `2 ^ 24` is converted exactly, and when the count and `maxCount` are such
integers the intensity is the exact quotient `count / maxCount` rounded once.  The records
`(0,0,0,5)` and `(1,0,0,10)` give the offsets `(0,0,0)` and `(1,0,0)` with the intensities
`0.5` and `1.0`. -/
theorem loadTrigrams_instances (filename : String) (j : List Voxel) (s : Viewer) :
    (∃ r, loadTrigrams filename (some j) s = .ok r ∧ r.voxels = j ∧
      r.instanceData.length = j.length ∧
      r.instanceData = j.map (fun v =>
        { offset := { x := f32ofInt v.x, y := f32ofInt v.y, z := f32ofInt v.z },
          intensity := f32div (f32ofInt v.count) (f32ofInt (maxCount j)) })) ∧
    IsGreatest (insert 1 {c : ℤ | ∃ v ∈ j, v.count = c}) (maxCount j) ∧
    (∀ n : ℤ, |n| ≤ 2 ^ 24 → f32ofInt n = n) ∧
    (∀ v ∈ j, |v.count| ≤ 2 ^ 24 → maxCount j ≤ 2 ^ 24 →
      f32div (f32ofInt v.count) (f32ofInt (maxCount j)) =
        f32round ((v.count : ℚ) / (maxCount j : ℚ))) ∧
    (∃ r, loadTrigrams filename (some [⟨0, 0, 0, 5⟩, ⟨1, 0, 0, 10⟩]) s = .ok r ∧
      r.instanceData = [⟨⟨0, 0, 0⟩, 1 / 2⟩, ⟨⟨1, 0, 0⟩, 1⟩]) := by
  refine ⟨⟨_, loadTrigrams_some filename j s, rfl, by simp, rfl⟩, maxCount_isGreatest j,
    f32ofInt_exact, ?_, ⟨_, loadTrigrams_some filename _ s, ?_⟩⟩
  · intro v _ hv hm
    have hm1 := one_le_maxCount j
    rw [f32ofInt_exact _ hv, f32ofInt_exact _ (by rw [abs_of_pos (by omega)]; exact hm), f32div]
  have hm : maxCount [⟨0, 0, 0, 5⟩, ⟨1, 0, 0, 10⟩] = 10 := by decide
  have h0 : f32ofInt 0 = 0 := by simpa using f32ofInt_exact 0 (by norm_num)
  have h1 : f32ofInt 1 = 1 := by simpa using f32ofInt_exact 1 (by norm_num)
  have h5 : f32ofInt 5 = 5 := by simpa using f32ofInt_exact 5 (by norm_num)
  have h10 : f32ofInt 10 = 10 := by simpa using f32ofInt_exact 10 (by norm_num)
  have hhalf : f32round (1 / 2) = 1 / 2 := by
    have e := f32round_exact 1 (-1) (by norm_num)
    have c : ((1 : ℤ) : ℚ) * 2 ^ (-1 : ℤ) = 1 / 2 := by norm_num
    rwa [c] at e
  have d1 : f32div 5 10 = 1 / 2 := by
    rw [f32div, show (5 : ℚ) / 10 = 1 / 2 by norm_num, hhalf]
  have d2 : f32div 10 10 = 1 := f32div_self (by norm_num)
  simp [mkInstance, hm, h0, h1, h5, h10, d1, d2]

/-- C2, as the claim states it, fails: the single record `(0,0,0,-5)` has `maxCount = 1` and
the intensity `-5`, which is below `0`. -/
theorem intensity_range_counterexample :
    ∃ r, loadTrigrams "trigrams.json" (some [⟨0, 0, 0, -5⟩]) Viewer.initial = .ok r ∧
      r.instanceData = [⟨⟨0, 0, 0⟩, -5⟩] ∧
      ¬ ∀ i ∈ r.instanceData, 0 ≤ i.intensity ∧ i.intensity ≤ 1 := by
  refine ⟨_, loadTrigrams_some _ _ _, ?_⟩
  have hm : maxCount [⟨0, 0, 0, -5⟩] = 1 := by decide
  have h0 : f32ofInt 0 = 0 := by simpa using f32ofInt_exact 0 (by norm_num)
  have h1 : f32ofInt 1 = 1 := by simpa using f32ofInt_exact 1 (by norm_num)
  have h5 : f32ofInt (-5) = -5 := by simpa using f32ofInt_exact (-5) (by norm_num)
  have d : f32div (-5) 1 = -5 := by
    have e := f32round_exact (-5) 0 (by norm_num)
    rw [f32div]; simpa using e
  have e : [⟨0, 0, 0, -5⟩].map (mkInstance (maxCount [⟨0, 0, 0, -5⟩])) =
      [(⟨⟨0, 0, 0⟩, -5⟩ : InstanceData)] := by
    simp [mkInstance, hm, h0, h1, h5, d]
  refine ⟨e, ?_⟩
  simp only [e]
  norm_num

/-- C2, amended: for every voxel dataset whose counts are all non-negative, `loadTrigrams`
succeeds and every instance it produces has an intensity in the closed interval `[0, 1]`. -/
theorem intensity_range (filename : String) (j : List Voxel) (s : Viewer)
    (hj : ∀ v ∈ j, 0 ≤ v.count) :
    ∃ r, loadTrigrams filename (some j) s = .ok r ∧
      ∀ i ∈ r.instanceData, 0 ≤ i.intensity ∧ i.intensity ≤ 1 := by
  refine ⟨_, loadTrigrams_some filename j s, ?_⟩
  intro i hi
  obtain ⟨v, hv, rfl⟩ := List.mem_map.1 hi
  have hc0 : 0 ≤ f32ofInt v.count := f32round_nonneg (by exact_mod_cast hj v hv)
  have hcm : f32ofInt v.count ≤ f32ofInt (maxCount j) :=
    f32ofInt_mono_nonneg (hj v hv) (count_le_maxCount hv)
  have hm : (0 : ℚ) < f32ofInt (maxCount j) :=
    lt_of_lt_of_le one_pos (one_le_f32ofInt (one_le_maxCount j))
  have q0 : 0 ≤ f32ofInt v.count / f32ofInt (maxCount j) := div_nonneg hc0 hm.le
  have q1 : f32ofInt v.count / f32ofInt (maxCount j) ≤ 1 := (div_le_one hm).2 hcm
  exact ⟨f32round_nonneg q0, f32round_le_one q0 q1⟩

/-- Witness of `intensity_range`: the dataset of the scenario has non-negative counts. -/
theorem intensity_range_witness :
    (∀ v ∈ [(⟨0, 0, 0, 5⟩ : Voxel), ⟨1, 0, 0, 10⟩], 0 ≤ v.count) ∧
    ∃ r, loadTrigrams "trigrams.json" (some [⟨0, 0, 0, 5⟩, ⟨1, 0, 0, 10⟩]) Viewer.initial = .ok r ∧
      ∀ i ∈ r.instanceData, 0 ≤ i.intensity ∧ i.intensity ≤ 1 :=
  ⟨by decide, intensity_range "trigrams.json" [⟨0, 0, 0, 5⟩, ⟨1, 0, 0, 10⟩] Viewer.initial
    (by decide)⟩

/-- C3, as the claim states it, fails: the non-empty dataset of the single record `(0,0,0,0)`
has `maxCount = 1` and its only instance has intensity `0`, so no instance reaches `1.0`. -/
theorem intensity_one_counterexample :
    ∃ r, loadTrigrams "trigrams.json" (some [⟨0, 0, 0, 0⟩]) Viewer.initial = .ok r ∧
      r.instanceData = [⟨⟨0, 0, 0⟩, 0⟩] ∧ ¬ ∃ i ∈ r.instanceData, i.intensity = 1 := by
  refine ⟨_, loadTrigrams_some _ _ _, ?_⟩
  have hm : maxCount [⟨0, 0, 0, 0⟩] = 1 := by decide
  have h0 : f32ofInt 0 = 0 := by simpa using f32ofInt_exact 0 (by norm_num)
  have e : [⟨0, 0, 0, 0⟩].map (mkInstance (maxCount [⟨0, 0, 0, 0⟩])) =
      [(⟨⟨0, 0, 0⟩, 0⟩ : InstanceData)] := by
    simp [mkInstance, hm, h0, f32div, f32round_zero]
  refine ⟨e, ?_⟩
  simp only [e]
  norm_num

/-- C3, amended: for every voxel dataset in which some count is at least `1`, `loadTrigrams`
succeeds and at least one instance has intensity exactly `1.0`: at some position the record has
the count `maxCount` and the instance at the same position has intensity `1`. -/
theorem intensity_one (filename : String) (j : List Voxel) (s : Viewer)
    (hj : ∃ v ∈ j, 1 ≤ v.count) :
    ∃ r, loadTrigrams filename (some j) s = .ok r ∧
      ∃ (n : ℕ) (v : Voxel) (i : InstanceData), j[n]? = some v ∧
        r.instanceData[n]? = some i ∧ v.count = maxCount j ∧ i.intensity = 1 := by
  refine ⟨_, loadTrigrams_some filename j s, ?_⟩
  have hmax : ∃ v ∈ j, v.count = maxCount j := by
    rcases maxCount_attained j with h | h
    · obtain ⟨v, hv, h1⟩ := hj
      exact ⟨v, hv, le_antisymm (count_le_maxCount hv) (h ▸ h1)⟩
    · exact h
  obtain ⟨v, hv, hc⟩ := hmax
  obtain ⟨n, hn⟩ := List.mem_iff_getElem?.1 hv
  refine ⟨n, v, mkInstance (maxCount j) v, hn, by simp [hn], hc, ?_⟩
  simp only [mkInstance, hc]
  exact f32div_self (f32ofInt_maxCount_ne_zero j)

/-- Witness of `intensity_one`: the dataset of the scenario has a count of at least `1`. -/
theorem intensity_one_witness :
    (∃ v ∈ [(⟨0, 0, 0, 5⟩ : Voxel), ⟨1, 0, 0, 10⟩], 1 ≤ v.count) ∧
    ∃ r, loadTrigrams "trigrams.json" (some [⟨0, 0, 0, 5⟩, ⟨1, 0, 0, 10⟩]) Viewer.initial = .ok r ∧
      ∃ (n : ℕ) (v : Voxel) (i : InstanceData), [(⟨0, 0, 0, 5⟩ : Voxel), ⟨1, 0, 0, 10⟩][n]? = some v ∧
        r.instanceData[n]? = some i ∧ v.count = maxCount [⟨0, 0, 0, 5⟩, ⟨1, 0, 0, 10⟩] ∧
        i.intensity = 1 :=
  ⟨by decide, intensity_one "trigrams.json" [⟨0, 0, 0, 5⟩, ⟨1, 0, 0, 10⟩] Viewer.initial
    (by decide)⟩

/-- C4: for every voxel dataset the `maxCount` of `loadTrigrams` is at least `1` and the
`float` divisor made of it is not zero (it is at least `1.0`); for the empty dataset `maxCount`
is `1`, the load succeeds and the instance sequence it leaves is empty. -/
theorem maxCount_ge_one (filename : String) (j : List Voxel) (s : Viewer) :
    1 ≤ maxCount j ∧ 1 ≤ f32ofInt (maxCount j) ∧ f32ofInt (maxCount j) ≠ 0 ∧
    maxCount [] = 1 ∧
    ∃ r, loadTrigrams filename (some []) s = .ok r ∧ r.voxels = [] ∧ r.instanceData = [] :=
  ⟨one_le_maxCount j, one_le_f32ofInt (one_le_maxCount j), f32ofInt_maxCount_ne_zero j, rfl,
    _, loadTrigrams_some filename [] s, rfl, rfl⟩

/-- C5: loading the same records into two viewers, whatever they held before, succeeds in both
and leaves the same voxel sequence and the same instance sequence; and loading the same records
a second time leaves the viewer produced by the first load unchanged. -/
theorem loadTrigrams_idempotent (filename : String) (j : List Voxel) (s₁ s₂ : Viewer) :
    ∃ r₁ r₂, loadTrigrams filename (some j) s₁ = .ok r₁ ∧
      loadTrigrams filename (some j) s₂ = .ok r₂ ∧
      r₁.voxels = r₂.voxels ∧ r₁.instanceData = r₂.instanceData ∧
      loadTrigrams filename (some j) r₁ = .ok r₁ :=
  ⟨_, _, loadTrigrams_some filename j s₁, loadTrigrams_some filename j s₂, rfl, rfl,
    loadTrigrams_some filename j _⟩

/-! ## Lemmas on the frame loop -/

theorem drawFrame_of_success (env : FrameEnv) (s : Viewer)
    (hb : env.beginCommandBuffer = .VK_SUCCESS) (he : env.endCommandBuffer = .VK_SUCCESS)
    (hs : env.queueSubmit = .VK_SUCCESS) :
    drawFrame env s = (frameProtocol env s,
      .ok { s with currentFrame := (s.currentFrame + 1) % 2 ^ 32 % MAX_FRAMES_IN_FLIGHT }) := by
  simp [drawFrame, recordCommandBuffer, frameProtocol, updateUniformBuffer, hb, he, hs]

theorem drawFrame_ok_inv {env : FrameEnv} {s r : Viewer} (h : (drawFrame env s).2 = .ok r) :
    env.beginCommandBuffer = .VK_SUCCESS ∧ env.endCommandBuffer = .VK_SUCCESS ∧
      env.queueSubmit = .VK_SUCCESS := by
  by_cases hb : env.beginCommandBuffer = .VK_SUCCESS
  · by_cases he : env.endCommandBuffer = .VK_SUCCESS
    · by_cases hs : env.queueSubmit = .VK_SUCCESS
      · exact ⟨hb, he, hs⟩
      · simp [drawFrame, recordCommandBuffer, hb, he, hs] at h
    · simp [drawFrame, recordCommandBuffer, hb, he] at h
  · simp [drawFrame, recordCommandBuffer, hb] at h

theorem drawFrame_trace_initial (env : FrameEnv) (s : Viewer) :
    ∃ rest, (drawFrame env s).1 ++ rest = frameProtocol env s := by
  by_cases hb : env.beginCommandBuffer = .VK_SUCCESS
  · by_cases he : env.endCommandBuffer = .VK_SUCCESS
    · by_cases hs : env.queueSubmit = .VK_SUCCESS
      · exact ⟨[], by rw [drawFrame_of_success env s hb he hs]; simp⟩
      · exact ⟨[Call.queuePresent s.currentFrame env.imageIndex env.queuePresent], by
          simp [drawFrame, recordCommandBuffer, frameProtocol, updateUniformBuffer, hb, he, hs]⟩
    · exact ⟨[Call.writeUniform s.currentFrame,
          Call.queueSubmit s.currentFrame s.currentFrame s.currentFrame s.currentFrame
            env.queueSubmit,
          Call.queuePresent s.currentFrame env.imageIndex env.queuePresent], by
        simp [drawFrame, recordCommandBuffer, frameProtocol, hb, he]⟩
  · exact ⟨(recordedCommands s env.imageIndex).map (Call.cmd s.currentFrame) ++
        [Call.endCommandBuffer s.currentFrame env.endCommandBuffer,
          Call.writeUniform s.currentFrame,
          Call.queueSubmit s.currentFrame s.currentFrame s.currentFrame s.currentFrame
            env.queueSubmit,
          Call.queuePresent s.currentFrame env.imageIndex env.queuePresent], by
      simp [drawFrame, recordCommandBuffer, frameProtocol, hb]⟩

theorem frameProtocol_slots (env : FrameEnv) (s : Viewer) :
    ∀ c ∈ frameProtocol env s, ∀ i ∈ c.slots, i = s.currentFrame := by
  intro c hc i hi
  simp only [frameProtocol, recordedCommands, List.map_cons, List.map_nil, List.cons_append,
    List.nil_append, List.mem_cons, List.mem_singleton, List.not_mem_nil, or_false] at hc
  rcases hc with h | h | h | h | h | h | h | h | h | h | h | h | h | h | h | h | h | h <;>
    subst h <;> simp [Call.slots] at hi <;> omega

theorem drawFrame_slots (env : FrameEnv) (s : Viewer) :
    ∀ c ∈ (drawFrame env s).1, ∀ i ∈ c.slots, i = s.currentFrame := by
  intro c hc
  obtain ⟨rest, hrest⟩ := drawFrame_trace_initial env s
  exact frameProtocol_slots env s c (by rw [← hrest]; exact List.mem_append_left _ hc)

theorem steps_frameProtocol (env : FrameEnv) (s : Viewer) :
    steps (frameProtocol env s) =
      [.wait, .acquire, .resetFence, .record, .uniform, .submit, .present] := by
  rfl

theorem next_frame_eq (n : ℕ) : (n + 1) % 2 ^ 32 % MAX_FRAMES_IN_FLIGHT = (n + 1) % 2 := by
  unfold MAX_FRAMES_IN_FLIGHT; omega

theorem drawFrame_currentFrame {env : FrameEnv} {s r : Viewer}
    (h : (drawFrame env s).2 = .ok r) : r = { s with currentFrame := (s.currentFrame + 1) % 2 } := by
  obtain ⟨hb, he, hs⟩ := drawFrame_ok_inv h
  rw [drawFrame_of_success env s hb he hs] at h
  simp only [Except.ok.injEq] at h
  rw [← h, next_frame_eq]

theorem mainLoop_cons_ok {env : FrameEnv} {rest : List FrameEnv} {s r : Viewer}
    (h : (drawFrame env s).2 = .ok r) :
    mainLoop (env :: rest) s =
      (Call.pollEvents :: (drawFrame env s).1 ++ (mainLoop rest r).1, (mainLoop rest r).2) := by
  rw [mainLoop]
  rcases hd : drawFrame env s with ⟨calls, res⟩
  rw [hd] at h
  simp only at h
  subst h
  rfl

theorem mainLoop_cons_error {env : FrameEnv} {rest : List FrameEnv} {s : Viewer} {e : String}
    (h : (drawFrame env s).2 = .error e) :
    mainLoop (env :: rest) s = (Call.pollEvents :: (drawFrame env s).1, .error e) := by
  rw [mainLoop]
  rcases hd : drawFrame env s with ⟨calls, res⟩
  rw [hd] at h
  simp only at h
  subst h
  rfl

theorem mainLoop_currentFrame (script : List FrameEnv) (s r : Viewer)
    (h : (mainLoop script s).2 = .ok r) :
    r.currentFrame % 2 = (s.currentFrame + script.length) % 2 ∧
      (script ≠ [] → r.currentFrame < MAX_FRAMES_IN_FLIGHT) := by
  induction script generalizing s with
  | nil =>
    simp only [mainLoop, Except.ok.injEq] at h
    subst h; simp
  | cons env rest ih =>
    rcases hd : (drawFrame env s).2 with e | t
    · rw [mainLoop_cons_error hd] at h; simp at h
    · rw [mainLoop_cons_ok hd] at h
      have ht := drawFrame_currentFrame hd
      obtain ⟨h1, h2⟩ := ih t h
      have hcf : t.currentFrame = (s.currentFrame + 1) % 2 := by rw [ht]
      refine ⟨by rw [h1, hcf, List.length_cons]; omega, fun _ => ?_⟩
      by_cases hr : rest = []
      · subst hr
        simp only [mainLoop, Except.ok.injEq] at h
        rw [← h, hcf]; unfold MAX_FRAMES_IN_FLIGHT; omega
      · exact h2 hr

theorem mainLoop_slots (script : List FrameEnv) (s : Viewer)
    (hs : s.currentFrame < MAX_FRAMES_IN_FLIGHT) :
    ∀ c ∈ (mainLoop script s).1, ∀ i ∈ c.slots, i < MAX_FRAMES_IN_FLIGHT := by
  induction script generalizing s with
  | nil => intro c hc i hi; simp [mainLoop] at hc; subst hc; simp [Call.slots] at hi
  | cons env rest ih =>
    intro c hc i hi
    rcases hd : (drawFrame env s).2 with e | t
    · rw [mainLoop_cons_error hd] at hc
      rcases List.mem_cons.1 hc with h | h
      · subst h; simp [Call.slots] at hi
      · rw [drawFrame_slots env s c h i hi]; exact hs
    · rw [mainLoop_cons_ok hd] at hc
      simp only [List.cons_append, List.mem_cons, List.mem_append] at hc
      rcases hc with h | h | h
      · subst h; simp [Call.slots] at hi
      · rw [drawFrame_slots env s c h i hi]; exact hs
      · have ht := drawFrame_currentFrame hd
        refine ih t ?_ c h i hi
        rw [ht]; unfold MAX_FRAMES_IN_FLIGHT; simp only; omega

theorem mainLoop_completes (script : List FrameEnv) (s : Viewer)
    (h : ∀ env ∈ script, env.beginCommandBuffer = .VK_SUCCESS ∧
      env.endCommandBuffer = .VK_SUCCESS ∧ env.queueSubmit = .VK_SUCCESS) :
    ∃ r, (mainLoop script s).2 = .ok r := by
  induction script generalizing s with
  | nil => exact ⟨s, rfl⟩
  | cons env rest ih =>
    obtain ⟨hb, he, hq⟩ := h env (List.mem_cons_self _ _)
    have hd : (drawFrame env s).2 =
        .ok { s with currentFrame := (s.currentFrame + 1) % 2 ^ 32 % MAX_FRAMES_IN_FLIGHT } := by
      rw [drawFrame_of_success env s hb he hq]
    rw [mainLoop_cons_ok hd]
    exact ih _ (fun e he => h e (List.mem_cons_of_mem _ he))

/-! ## The frame loop: claims C6 to C10 -/

/-- C6: the frame index cycles through 0, 1, 0, 1, ...: `currentFrame` starts at `0`, every
completed `drawFrame` replaces it by `(currentFrame + 1) mod 2`, a frame loop entered with
`currentFrame = 0` that completes `n` frames leaves `currentFrame = n mod 2`, which is less than
`MAX_FRAMES_IN_FLIGHT = 2`, every slot index used by a call of the loop is less than
`MAX_FRAMES_IN_FLIGHT`, and the loop does complete its frames when recording and submission
succeed in each of them. -/
theorem currentFrame_cycles (script : List FrameEnv) (s : Viewer) (h0 : s.currentFrame = 0) :
    Viewer.initial.currentFrame = 0 ∧ MAX_FRAMES_IN_FLIGHT = 2 ∧
    (∀ (env : FrameEnv) (t r : Viewer), (drawFrame env t).2 = .ok r →
      r.currentFrame = (t.currentFrame + 1) % 2) ∧
    (∀ r, (mainLoop script s).2 = .ok r →
      r.currentFrame = script.length % 2 ∧ r.currentFrame < MAX_FRAMES_IN_FLIGHT) ∧
    (∀ c ∈ (mainLoop script s).1, ∀ i ∈ c.slots, i < MAX_FRAMES_IN_FLIGHT) ∧
    ((∀ env ∈ script, env.beginCommandBuffer = .VK_SUCCESS ∧
        env.endCommandBuffer = .VK_SUCCESS ∧ env.queueSubmit = .VK_SUCCESS) →
      ∃ r, (mainLoop script s).2 = .ok r) := by
  refine ⟨rfl, rfl, fun env t r h => by rw [drawFrame_currentFrame h], fun r h => ?_,
    mainLoop_slots script s (by rw [h0]; decide), mainLoop_completes script s⟩
  obtain ⟨h1, h2⟩ := mainLoop_currentFrame script s r h
  have hlt : r.currentFrame < MAX_FRAMES_IN_FLIGHT := by
    by_cases hn : script = []
    · subst hn
      simp only [mainLoop, Except.ok.injEq] at h
      rw [← h, h0]; decide
    · exact h2 hn
  refine ⟨?_, hlt⟩
  rw [h0] at h1
  unfold MAX_FRAMES_IN_FLIGHT at hlt
  omega

/-- Witness of `currentFrame_cycles`: three successful frames from the initial viewer leave
`currentFrame = 3 mod 2`. -/
theorem currentFrame_cycles_witness :
    Viewer.initial.currentFrame = 0 ∧
    ∃ r, (mainLoop [FrameEnv.allSuccess 0, FrameEnv.allSuccess 1, FrameEnv.allSuccess 0]
        Viewer.initial).2 = .ok r ∧
      r.currentFrame = 3 % 2 ∧ r.currentFrame < MAX_FRAMES_IN_FLIGHT := by
  have h := currentFrame_cycles
    [FrameEnv.allSuccess 0, FrameEnv.allSuccess 1, FrameEnv.allSuccess 0] Viewer.initial rfl
  obtain ⟨r, hr⟩ := h.2.2.2.2.2 (by decide)
  exact ⟨rfl, r, hr, h.2.2.2.1 r hr⟩

/-- C7: evaluation of `drawFrame` on a frame whose fence wait fails.  The wait on fence `0`
returns `VK_ERROR_DEVICE_LOST`, so it has not reported the fence signaled, and `drawFrame` all
the same resets the fence, resets and re-records command buffer `0`, writes uniform memory `0`,
and returns normally. -/
theorem drawFrame_proceeds_after_failed_wait :
    (drawFrame FrameEnv.waitFails Viewer.initial).1.take 5 =
      [ Call.waitForFences 0 true UINT64_MAX .VK_ERROR_DEVICE_LOST,
        Call.acquireNextImage UINT64_MAX 0 .VK_SUCCESS,
        Call.resetFences 0 .VK_SUCCESS,
        Call.resetCommandBuffer 0 .VK_SUCCESS,
        Call.beginCommandBuffer 0 .VK_SUCCESS ] ∧
    Call.writeUniform 0 ∈ (drawFrame FrameEnv.waitFails Viewer.initial).1 ∧
    (∀ timeout, Call.waitForFences 0 true timeout .VK_SUCCESS ∉
      (drawFrame FrameEnv.waitFails Viewer.initial).1) ∧
    (drawFrame FrameEnv.waitFails Viewer.initial).2 =
      .ok { Viewer.initial with currentFrame := 1 } := by
  have h := drawFrame_of_success FrameEnv.waitFails Viewer.initial rfl rfl rfl
  rw [h]
  refine ⟨rfl, ?_, ?_, rfl⟩
  · simp [frameProtocol, Viewer.initial]
  · intro timeout
    simp [frameProtocol, FrameEnv.waitFails, Viewer.initial]

theorem drawFrameMembers_spec (env : FrameEnv) (s : Viewer) :
    (∀ e, (drawFrame env s).2 = .error e → drawFrameMembers env s = s) ∧
    (∀ r, (drawFrame env s).2 = .ok r → drawFrameMembers env s = r) := by
  unfold drawFrame drawFrameMembers
  rcases recordCommandBuffer env s s.currentFrame env.imageIndex with ⟨calls, r⟩
  cases r with
  | error e' => exact ⟨fun _ _ => rfl, fun r h => by cases h⟩
  | ok u =>
    cases u
    by_cases hs : env.queueSubmit ≠ .VK_SUCCESS
    · refine ⟨fun e _ => ?_, fun r h => ?_⟩
      · simp only [if_pos hs]
      · simp only [if_pos hs] at h
        cases h
    · refine ⟨fun e h => ?_, fun r h => ?_⟩
      · simp only [if_neg hs] at h
        cases h
      · simp only [if_neg hs] at h ⊢
        simpa using h

/-- C8, as the claim states it, fails: in a frame whose `vkQueueSubmit` fails `drawFrame` throws
after the submit, so the present step is skipped and the slot index is not advanced. -/
theorem drawFrame_order_counterexample :
    (drawFrame FrameEnv.submitFails Viewer.initial).2 =
      .error "failed to submit draw command buffer!" ∧
    (∀ w i res, Call.queuePresent w i res ∉ (drawFrame FrameEnv.submitFails Viewer.initial).1) ∧
    (drawFrame FrameEnv.submitFails Viewer.initial).1 ≠
      frameProtocol FrameEnv.submitFails Viewer.initial := by
  have h : drawFrame FrameEnv.submitFails Viewer.initial =
      ((frameProtocol FrameEnv.submitFails Viewer.initial).dropLast,
        .error "failed to submit draw command buffer!") := by
    simp [drawFrame, recordCommandBuffer, frameProtocol, updateUniformBuffer,
      FrameEnv.submitFails, FrameEnv.allSuccess, recordedCommands, List.dropLast]
  rw [h]
  refine ⟨rfl, ?_, ?_⟩
  · intro w i res
    simp [frameProtocol, recordedCommands, List.dropLast]
  · intro hne
    have hl := congrArg List.length hne
    simp [frameProtocol, recordedCommands] at hl

/-- C8, amended: the calls of every `drawFrame` are an initial segment of the frame protocol
(wait for the slot fence, acquire an image, reset the fence, reset and re-record the slot
command buffer for the acquired image index, update the slot uniform, submit, present), in that
order; a `drawFrame` that returns has made exactly the calls of the protocol, none skipped or
reordered, so that it goes once through the steps wait, acquire, fence reset, record, uniform,
submit and present, and has then advanced the slot index; `drawFrame` returns whenever
recording and submission succeed; and a `drawFrame` that throws leaves every member of the
viewer as it was, so that the slot index is not advanced, while one that returns leaves the
viewer it returns. -/
theorem drawFrame_order (env : FrameEnv) (s : Viewer) :
    (∃ rest, (drawFrame env s).1 ++ rest = frameProtocol env s) ∧
    (∀ r, (drawFrame env s).2 = .ok r →
      (drawFrame env s).1 = frameProtocol env s ∧
      steps (drawFrame env s).1 =
        [.wait, .acquire, .resetFence, .record, .uniform, .submit, .present] ∧
      r = { s with currentFrame := (s.currentFrame + 1) % 2 }) ∧
    (env.beginCommandBuffer = .VK_SUCCESS → env.endCommandBuffer = .VK_SUCCESS →
      env.queueSubmit = .VK_SUCCESS → ∃ r, (drawFrame env s).2 = .ok r) ∧
    (∀ e, (drawFrame env s).2 = .error e →
      drawFrameMembers env s = s ∧ (drawFrameMembers env s).currentFrame = s.currentFrame) ∧
    (∀ r, (drawFrame env s).2 = .ok r → drawFrameMembers env s = r) := by
  refine ⟨drawFrame_trace_initial env s, fun r h => ?_,
    fun hb he hs => ⟨_, by rw [drawFrame_of_success env s hb he hs]⟩,
    fun e h => ?_, fun r h => (drawFrameMembers_spec env s).2 r h⟩
  · obtain ⟨hb, he, hs⟩ := drawFrame_ok_inv h
    refine ⟨by rw [drawFrame_of_success env s hb he hs], ?_, drawFrame_currentFrame h⟩
    rw [drawFrame_of_success env s hb he hs]
    exact steps_frameProtocol env s
  · have hm := (drawFrameMembers_spec env s).1 e h
    exact ⟨hm, by rw [hm]⟩

/-- Witness of `drawFrame_order`: a frame in which every call succeeds and image 2 is acquired
returns, has made the calls of the protocol and leaves `currentFrame = 1`; a frame whose
`vkQueueSubmit` fails throws and leaves the viewer as it was. -/
theorem drawFrame_order_witness :
    ∃ r, (drawFrame (FrameEnv.allSuccess 2) Viewer.initial).2 = .ok r ∧
      (drawFrame (FrameEnv.allSuccess 2) Viewer.initial).1 =
        frameProtocol (FrameEnv.allSuccess 2) Viewer.initial ∧
      steps (drawFrame (FrameEnv.allSuccess 2) Viewer.initial).1 =
        [.wait, .acquire, .resetFence, .record, .uniform, .submit, .present] ∧
      r = { Viewer.initial with currentFrame := (Viewer.initial.currentFrame + 1) % 2 } ∧
      drawFrameMembers (FrameEnv.allSuccess 2) Viewer.initial = r ∧
      drawFrameMembers FrameEnv.submitFails Viewer.initial = Viewer.initial := by
  have h := drawFrame_order (FrameEnv.allSuccess 2) Viewer.initial
  obtain ⟨r, hr⟩ := h.2.2.1 rfl rfl rfl
  obtain ⟨h1, h2, h3⟩ := h.2.1 r hr
  exact ⟨r, hr, h1, h2, h3, h.2.2.2.2 r hr,
    ((drawFrame_order FrameEnv.submitFails Viewer.initial).2.2.2.1
      "failed to submit draw command buffer!" rfl).1⟩

/-- C9: one slot is active per frame: every slot index carried by a call of `drawFrame` (fence,
semaphore, command buffer, uniform buffer, descriptor set) is `currentFrame`; and a frame that
returns has waited on fence `currentFrame`, acquired with image-available semaphore
`currentFrame`, bound descriptor set `currentFrame` in command buffer `currentFrame`, written
uniform buffer `currentFrame`, submitted command buffer `currentFrame` waiting on semaphore
`currentFrame` and signalling semaphore and fence `currentFrame`, and presented waiting on
semaphore `currentFrame`. -/
theorem drawFrame_single_slot (env : FrameEnv) (s : Viewer) :
    (∀ c ∈ (drawFrame env s).1, ∀ i ∈ c.slots, i = s.currentFrame) ∧
    (∀ r, (drawFrame env s).2 = .ok r →
      Call.waitForFences s.currentFrame true UINT64_MAX env.waitForFences ∈ (drawFrame env s).1 ∧
      Call.acquireNextImage UINT64_MAX s.currentFrame env.acquireNextImage
        ∈ (drawFrame env s).1 ∧
      Call.cmd s.currentFrame (.bindDescriptorSets 0 s.currentFrame) ∈ (drawFrame env s).1 ∧
      Call.writeUniform s.currentFrame ∈ (drawFrame env s).1 ∧
      Call.queueSubmit s.currentFrame s.currentFrame s.currentFrame s.currentFrame .VK_SUCCESS
        ∈ (drawFrame env s).1 ∧
      Call.queuePresent s.currentFrame env.imageIndex env.queuePresent
        ∈ (drawFrame env s).1) := by
  refine ⟨drawFrame_slots env s, fun r h => ?_⟩
  obtain ⟨hb, he, hs⟩ := drawFrame_ok_inv h
  rw [drawFrame_of_success env s hb he hs]
  simp [frameProtocol, recordedCommands, hs]

/-- Witness of `drawFrame_single_slot`: in a successful frame on slot 0 the submit carries slot
0 four times. -/
theorem drawFrame_single_slot_witness :
    Call.queueSubmit 0 0 0 0 .VK_SUCCESS ∈ (drawFrame (FrameEnv.allSuccess 2) Viewer.initial).1 ∧
    ∀ i ∈ (Call.queueSubmit 0 0 0 0 .VK_SUCCESS).slots, i = Viewer.initial.currentFrame := by
  have hm : Call.queueSubmit 0 0 0 0 .VK_SUCCESS ∈
      (drawFrame (FrameEnv.allSuccess 2) Viewer.initial).1 :=
    ((drawFrame_single_slot (FrameEnv.allSuccess 2) Viewer.initial).2 _
      (by rw [drawFrame_of_success (FrameEnv.allSuccess 2) Viewer.initial rfl rfl rfl])).2.2.2.2.1
  exact ⟨hm, (drawFrame_single_slot (FrameEnv.allSuccess 2) Viewer.initial).1 _ hm⟩

/-- C10: evaluation of `drawFrame` on failing device calls.  `drawFrame` raises exactly when
`vkBeginCommandBuffer`, `vkEndCommandBuffer` or `vkQueueSubmit` fails; the results of the fence
wait, of the image acquire, of the two resets and of the present are not inspected.  On a frame
whose `vkQueuePresentKHR` fails with `VK_ERROR_OUT_OF_DATE_KHR`, `drawFrame` returns normally
and the frame loop goes on to the next frame; an error that `drawFrame` does raise ends the
loop at once. -/
theorem drawFrame_ignores_present_failure :
    (∀ (env : FrameEnv) (s : Viewer), (∃ r, (drawFrame env s).2 = .ok r) ↔
      (env.beginCommandBuffer = .VK_SUCCESS ∧ env.endCommandBuffer = .VK_SUCCESS ∧
        env.queueSubmit = .VK_SUCCESS)) ∧
    Call.queuePresent 0 0 .VK_ERROR_OUT_OF_DATE_KHR ∈
      (drawFrame FrameEnv.presentFails Viewer.initial).1 ∧
    (drawFrame FrameEnv.presentFails Viewer.initial).2 =
      .ok { Viewer.initial with currentFrame := 1 } ∧
    (mainLoop [FrameEnv.presentFails, FrameEnv.allSuccess 1] Viewer.initial).2 =
      .ok Viewer.initial ∧
    Call.waitForFences 1 true UINT64_MAX .VK_SUCCESS ∈
      (mainLoop [FrameEnv.presentFails, FrameEnv.allSuccess 1] Viewer.initial).1 ∧
    (∀ (env : FrameEnv) (rest : List FrameEnv) (s : Viewer) (e : String),
      (drawFrame env s).2 = .error e →
      mainLoop (env :: rest) s = (Call.pollEvents :: (drawFrame env s).1, .error e)) := by
  have h := drawFrame_of_success FrameEnv.presentFails Viewer.initial rfl rfl rfl
  have h1 : (drawFrame FrameEnv.presentFails Viewer.initial).2 =
      .ok { Viewer.initial with currentFrame := 1 } := by rw [h]; rfl
  have h2 := drawFrame_of_success (FrameEnv.allSuccess 1)
    { Viewer.initial with currentFrame := 1 } rfl rfl rfl
  have h3 : (drawFrame (FrameEnv.allSuccess 1) { Viewer.initial with currentFrame := 1 }).2 =
      .ok Viewer.initial := by rw [h2]; rfl
  refine ⟨fun env s => ⟨fun ⟨r, hr⟩ => drawFrame_ok_inv hr,
    fun ⟨hb, he, hs⟩ => ⟨_, by rw [drawFrame_of_success env s hb he hs]⟩⟩, ?_, h1, ?_, ?_,
    fun env rest s e he => mainLoop_cons_error he⟩
  · rw [h]; simp [frameProtocol, FrameEnv.presentFails, FrameEnv.allSuccess, Viewer.initial]
  · rw [mainLoop_cons_ok h1, mainLoop_cons_ok h3]; rfl
  · rw [mainLoop_cons_ok h1, mainLoop_cons_ok h3, h2]
    simp [frameProtocol, FrameEnv.allSuccess]

/-! ## Lemmas on bit masks -/

theorem and_one_shiftLeft_ne_zero (x i : ℕ) : (x &&& (1 <<< i)) ≠ 0 ↔ x.testBit i = true := by
  rw [Nat.one_shiftLeft]
  constructor
  · intro h
    by_contra hb
    apply h
    apply Nat.eq_of_testBit_eq
    intro j
    rw [Nat.testBit_and, Nat.testBit_two_pow, Nat.zero_testBit]
    by_cases hj : i = j
    · subst hj; simp [hb]
    · simp [hj]
  · intro hb h
    have := congrArg (fun n => n.testBit i) h
    simp [Nat.testBit_and, Nat.testBit_two_pow, hb] at this

theorem and_eq_right_iff (flags properties : ℕ) :
    (flags &&& properties) = properties ↔
      ∀ b, properties.testBit b = true → flags.testBit b = true := by
  constructor
  · intro h b hb
    have := congrArg (fun n => n.testBit b) h
    simp only [Nat.testBit_and, hb, Bool.and_true] at this
    exact this
  · intro h
    apply Nat.eq_of_testBit_eq
    intro b
    rw [Nat.testBit_and]
    cases hb : properties.testBit b
    · simp
    · simp [h b hb]

theorem and_depth_bit (x : ℕ) :
    (x &&& VK_FORMAT_FEATURE_DEPTH_STENCIL_ATTACHMENT_BIT) =
      VK_FORMAT_FEATURE_DEPTH_STENCIL_ATTACHMENT_BIT ↔ x.testBit 9 = true := by
  rw [and_eq_right_iff]
  have e : VK_FORMAT_FEATURE_DEPTH_STENCIL_ATTACHMENT_BIT = 2 ^ 9 := by decide
  rw [e]
  constructor
  · intro h; exact h 9 Nat.testBit_two_pow_self
  · intro h b hb
    rw [Nat.testBit_two_pow] at hb
    have : 9 = b := by simpa using hb
    rw [← this]; exact h

/-! ## Lemmas on `findMemoryType` -/

theorem findMemoryTypeFrom_eq_some (typeFilter properties : ℕ) (l : List ℕ) (i k : ℕ) :
    findMemoryTypeFrom typeFilter properties l i = some k ↔
      ∃ n, k = i + n ∧
        (∃ flags, l[n]? = some flags ∧
          (typeFilter &&& (1 <<< (i + n))) ≠ 0 ∧ (flags &&& properties) = properties) ∧
        ∀ m < n, ∀ flags, l[m]? = some flags →
          ¬ ((typeFilter &&& (1 <<< (i + m))) ≠ 0 ∧ (flags &&& properties) = properties) := by
  induction l generalizing i with
  | nil => simp [findMemoryTypeFrom]
  | cons f rest ih =>
    rw [findMemoryTypeFrom]
    by_cases hc : (typeFilter &&& (1 <<< i)) ≠ 0 ∧ (f &&& properties) = properties
    · rw [if_pos hc]
      constructor
      · intro h
        refine ⟨0, by simpa using h.symm, ⟨f, by simp, by simpa using hc⟩, by simp⟩
      · rintro ⟨n, hk, _, hlow⟩
        rcases Nat.eq_zero_or_pos n with h0 | hpos
        · subst h0; simpa using hk.symm
        · exact absurd (by simpa using hc) (hlow 0 hpos f (by simp))
    · rw [if_neg hc, ih (i + 1)]
      constructor
      · rintro ⟨n, hk, ⟨flags, hf, hsat⟩, hlow⟩
        refine ⟨n + 1, by omega, ⟨flags, by simpa using hf, ?_⟩, ?_⟩
        · rwa [show i + (n + 1) = i + 1 + n by omega]
        · intro m hm flags hfm
          rcases Nat.eq_zero_or_pos m with h0 | hpos
          · subst h0
            simp only [List.getElem?_cons_zero, Option.some.injEq] at hfm
            subst hfm; simpa using hc
          · obtain ⟨m', rfl⟩ : ∃ m', m = m' + 1 := ⟨m - 1, by omega⟩
            rw [show i + (m' + 1) = i + 1 + m' by omega]
            exact hlow m' (by omega) flags (by simpa using hfm)
      · rintro ⟨n, hk, ⟨flags, hf, hsat⟩, hlow⟩
        rcases Nat.eq_zero_or_pos n with h0 | hpos
        · subst h0
          simp only [List.getElem?_cons_zero, Option.some.injEq] at hf
          subst hf
          exact absurd (by simpa using hsat) hc
        · obtain ⟨n', rfl⟩ : ∃ n', n = n' + 1 := ⟨n - 1, by omega⟩
          refine ⟨n', by omega, ⟨flags, by simpa using hf, ?_⟩, ?_⟩
          · rwa [show i + 1 + n' = i + (n' + 1) by omega]
          · intro m hm flags hfm
            rw [show i + 1 + m = i + (m + 1) by omega]
            exact hlow (m + 1) (by omega) flags (by simpa using hfm)

theorem findMemoryTypeFrom_eq_none (typeFilter properties : ℕ) (l : List ℕ) (i : ℕ) :
    findMemoryTypeFrom typeFilter properties l i = none ↔
      ∀ n flags, l[n]? = some flags →
        ¬ ((typeFilter &&& (1 <<< (i + n))) ≠ 0 ∧ (flags &&& properties) = properties) := by
  constructor
  · intro h n flags hf hsat
    have hex : ∃ n, ∃ flags, l[n]? = some flags ∧
        (typeFilter &&& (1 <<< (i + n))) ≠ 0 ∧ (flags &&& properties) = properties :=
      ⟨n, flags, hf, hsat⟩
    have hfind := Nat.find_spec hex
    have hmin := fun m (hm : m < Nat.find hex) => Nat.find_min hex hm
    have : findMemoryTypeFrom typeFilter properties l i = some (i + Nat.find hex) :=
      (findMemoryTypeFrom_eq_some typeFilter properties l i _).2
        ⟨_, rfl, hfind, fun m hm flags hfm hs => hmin m hm ⟨flags, hfm, hs⟩⟩
    rw [h] at this; cases this
  · intro h
    cases hr : findMemoryTypeFrom typeFilter properties l i with
    | none => rfl
    | some k =>
      obtain ⟨n, _, ⟨flags, hf, hsat⟩, _⟩ :=
        (findMemoryTypeFrom_eq_some typeFilter properties l i k).1 hr
      exact absurd hsat (h n flags hf)

/-! ## Swapchain, memory types, depth format, device selection: claims C13, C14, C15, C17 -/

/-- C13, as the claim states it, fails: for the capabilities `minImageCount = 2`,
`maxImageCount = 0` (no upper limit) `createSwapChain` requests `3` images, while
`min(maxImageCount, minImageCount + 1)` is `0`. -/
theorem imageCount_counterexample :
    imageCount { minImageCount := 2, maxImageCount := 0 } = 3 ∧
    imageCount { minImageCount := 2, maxImageCount := 0 } ≠ min 0 (2 + 1) := by
  decide

/-- C13, amended: for every pair of surface capabilities whose `minImageCount + 1` does not
overflow 32 bits, the image count `createSwapChain` requests is
`min(maxImageCount, minImageCount + 1)` when `maxImageCount` is positive, and
`minImageCount + 1` when `maxImageCount` is `0`, the value that stands for no upper limit. -/
theorem imageCount_spec (capabilities : SurfaceCapabilities)
    (h : capabilities.minImageCount + 1 < 2 ^ 32) :
    (0 < capabilities.maxImageCount →
      imageCount capabilities =
        min capabilities.maxImageCount (capabilities.minImageCount + 1)) ∧
    (capabilities.maxImageCount = 0 →
      imageCount capabilities = capabilities.minImageCount + 1) := by
  unfold imageCount
  rw [Nat.mod_eq_of_lt h]
  constructor
  · intro hmax
    by_cases hgt : capabilities.minImageCount + 1 > capabilities.maxImageCount
    · simp only [hmax, hgt, and_self, if_true]; omega
    · simp only [hgt, and_false, if_false]; omega
  · intro hmax
    simp [hmax]

/-- Witness of `imageCount_spec`: a surface asking for at least 2 and at most 3 images gets 3,
one asking for at most 2 gets 2. -/
theorem imageCount_spec_witness :
    imageCount { minImageCount := 2, maxImageCount := 3 } = min 3 (2 + 1) ∧
    imageCount { minImageCount := 2, maxImageCount := 2 } = min 2 (2 + 1) :=
  ⟨(imageCount_spec { minImageCount := 2, maxImageCount := 3 } (by decide)).1 (by decide),
    (imageCount_spec { minImageCount := 2, maxImageCount := 2 } (by decide)).1 (by decide)⟩

/-- C14: for every type bitmask, required property set and memory-type table, `findMemoryType`
returns `i` exactly when `i` is the lowest index below `memoryTypeCount` whose bit is set in
the bitmask and whose property flags contain every required property bit, and it raises
"failed to find suitable memory type!" exactly when no index satisfies both constraints; it
does nothing else. -/
theorem findMemoryType_spec (memoryTypes : List ℕ) (typeFilter properties : ℕ) :
    (∀ i, findMemoryType memoryTypes typeFilter properties = .ok i ↔
      (∃ flags, memoryTypes[i]? = some flags ∧ typeFilter.testBit i = true ∧
        ∀ b, properties.testBit b = true → flags.testBit b = true) ∧
      ∀ j < i, ∀ flags, memoryTypes[j]? = some flags →
        ¬ (typeFilter.testBit j = true ∧
          ∀ b, properties.testBit b = true → flags.testBit b = true)) ∧
    (findMemoryType memoryTypes typeFilter properties =
        .error "failed to find suitable memory type!" ↔
      ∀ j flags, memoryTypes[j]? = some flags →
        ¬ (typeFilter.testBit j = true ∧
          ∀ b, properties.testBit b = true → flags.testBit b = true)) ∧
    ((∃ i, findMemoryType memoryTypes typeFilter properties = .ok i) ∨
      findMemoryType memoryTypes typeFilter properties =
        .error "failed to find suitable memory type!") := by
  refine ⟨fun i => ?_, ?_, ?_⟩
  · have h := findMemoryTypeFrom_eq_some typeFilter properties memoryTypes 0 i
    simp only [Nat.zero_add, and_one_shiftLeft_ne_zero, and_eq_right_iff] at h
    unfold findMemoryType
    cases hr : findMemoryTypeFrom typeFilter properties memoryTypes 0 with
    | none =>
      rw [hr] at h
      simp only [false_iff, reduceCtorEq] at h ⊢
      intro hs
      exact h ⟨i, rfl, hs.1, hs.2⟩
    | some k =>
      rw [hr] at h
      simp only [Except.ok.injEq, Option.some.injEq] at h ⊢
      rw [h]
      constructor
      · rintro ⟨n, rfl, h1, h2⟩; exact ⟨h1, h2⟩
      · rintro ⟨h1, h2⟩; exact ⟨i, rfl, h1, h2⟩
  · have h := findMemoryTypeFrom_eq_none typeFilter properties memoryTypes 0
    simp only [Nat.zero_add, and_one_shiftLeft_ne_zero, and_eq_right_iff] at h
    unfold findMemoryType
    cases hr : findMemoryTypeFrom typeFilter properties memoryTypes 0 with
    | none => rw [hr] at h; simpa using h
    | some k => rw [hr] at h; simpa using h
  · unfold findMemoryType
    cases findMemoryTypeFrom typeFilter properties memoryTypes 0 with
    | none => right; rfl
    | some k => left; exact ⟨k, rfl⟩

theorem findDepthFormat_eq (formatProperties : VkFormat → VkFormatProperties) :
    findDepthFormat formatProperties =
      if depthSupported formatProperties .VK_FORMAT_D32_SFLOAT = true then
        .ok .VK_FORMAT_D32_SFLOAT
      else if depthSupported formatProperties .VK_FORMAT_D32_SFLOAT_S8_UINT = true then
        .ok .VK_FORMAT_D32_SFLOAT_S8_UINT
      else if depthSupported formatProperties .VK_FORMAT_D24_UNORM_S8_UINT = true then
        .ok .VK_FORMAT_D24_UNORM_S8_UINT
      else .error "failed to find supported format!" := by
  have key : ∀ f, ((formatProperties f).optimalTilingFeatures &&&
      VK_FORMAT_FEATURE_DEPTH_STENCIL_ATTACHMENT_BIT) =
      VK_FORMAT_FEATURE_DEPTH_STENCIL_ATTACHMENT_BIT ↔ depthSupported formatProperties f = true :=
    fun f => and_depth_bit _
  simp only [findDepthFormat, findSupportedFormat, key, reduceCtorEq, false_and, if_false,
    true_and]

/-- C15: for every format-support table `findDepthFormat` returns the first of the candidates
`D32_SFLOAT`, `D32_SFLOAT_S8_UINT`, `D24_UNORM_S8_UINT`, in this order, whose optimal-tiling
features include the depth-stencil-attachment feature: whenever it returns, the format
returned is a candidate that is supported and no candidate before it in the list is; and it
does return when some candidate is supported. -/
theorem findDepthFormat_first (formatProperties : VkFormat → VkFormatProperties) :
    (depthSupported formatProperties .VK_FORMAT_D32_SFLOAT = true →
      findDepthFormat formatProperties = .ok .VK_FORMAT_D32_SFLOAT) ∧
    (depthSupported formatProperties .VK_FORMAT_D32_SFLOAT = false →
      depthSupported formatProperties .VK_FORMAT_D32_SFLOAT_S8_UINT = true →
      findDepthFormat formatProperties = .ok .VK_FORMAT_D32_SFLOAT_S8_UINT) ∧
    (depthSupported formatProperties .VK_FORMAT_D32_SFLOAT = false →
      depthSupported formatProperties .VK_FORMAT_D32_SFLOAT_S8_UINT = false →
      depthSupported formatProperties .VK_FORMAT_D24_UNORM_S8_UINT = true →
      findDepthFormat formatProperties = .ok .VK_FORMAT_D24_UNORM_S8_UINT) ∧
    (∀ format, findDepthFormat formatProperties = .ok format →
      depthSupported formatProperties format = true ∧
      ∃ n : ℕ, [VkFormat.VK_FORMAT_D32_SFLOAT, .VK_FORMAT_D32_SFLOAT_S8_UINT,
          .VK_FORMAT_D24_UNORM_S8_UINT][n]? = some format ∧
        ∀ m : ℕ, m < n → ∀ earlier : VkFormat,
          [VkFormat.VK_FORMAT_D32_SFLOAT, .VK_FORMAT_D32_SFLOAT_S8_UINT,
            .VK_FORMAT_D24_UNORM_S8_UINT][m]? = some earlier →
          depthSupported formatProperties earlier = false) := by
  have e := findDepthFormat_eq formatProperties
  refine ⟨fun h1 => by rw [e, if_pos h1], fun h1 h2 => by rw [e, h1, if_pos h2]; simp,
    fun h1 h2 h3 => by rw [e, h1, h2, if_pos h3]; simp, fun format hf => ?_⟩
  rw [e] at hf
  cases h1 : depthSupported formatProperties .VK_FORMAT_D32_SFLOAT
  · cases h2 : depthSupported formatProperties .VK_FORMAT_D32_SFLOAT_S8_UINT
    · cases h3 : depthSupported formatProperties .VK_FORMAT_D24_UNORM_S8_UINT
      · simp [h1, h2, h3] at hf
      · simp only [h1, h2, h3, if_true, Bool.false_eq_true, if_false, Except.ok.injEq] at hf
        subst hf
        refine ⟨h3, 2, rfl, fun m hm earlier he => ?_⟩
        rcases (by omega : m = 0 ∨ m = 1) with rfl | rfl <;>
          simp only [List.getElem?_cons_zero, List.getElem?_cons_succ, Option.some.injEq] at he <;>
          subst he
        · exact h1
        · exact h2
    · simp only [h1, h2, if_true, Bool.false_eq_true, if_false, Except.ok.injEq] at hf
      subst hf
      refine ⟨h2, 1, rfl, fun m hm earlier he => ?_⟩
      obtain rfl : m = 0 := by omega
      simp only [List.getElem?_cons_zero, Option.some.injEq] at he
      subst he; exact h1
  · simp only [h1, if_true, Except.ok.injEq] at hf
    subst hf
    exact ⟨h1, 0, rfl, fun m hm => absurd hm (Nat.not_lt_zero m)⟩

/-- Witness of `findDepthFormat_first`: on a device that supports only the third candidate
for depth-stencil attachments, `D24_UNORM_S8_UINT` is returned. -/
theorem findDepthFormat_first_witness :
    findDepthFormat (fun format =>
      if format = .VK_FORMAT_D24_UNORM_S8_UINT then ⟨0, 0x200, 0⟩ else ⟨0, 0, 0⟩) =
      .ok .VK_FORMAT_D24_UNORM_S8_UINT :=
  (findDepthFormat_first (fun format =>
      if format = .VK_FORMAT_D24_UNORM_S8_UINT then ⟨0, 0x200, 0⟩ else ⟨0, 0, 0⟩)).2.2.1
    (by decide) (by decide) (by decide)

/-- C17: evaluation of `pickPhysicalDevice`.  Because `findQueueFamilies` does not look at the
device, the first enumerated handle is always found suitable: a first handle that is not null
is selected whatever queue families its device has, and a first handle that is null makes the
function throw "failed to find a suitable GPU!".  From the list of a device without a
graphics-and-present family followed by one that has such a family the first is picked, and
from the list of the unsuitable device alone it is picked too, where the no-suitable-GPU
error is asked for. -/
theorem pickPhysicalDevice_picks_first :
    (∀ (device : PhysicalDevice) (rest : List (Option PhysicalDevice))
        (physicalDevice : Option PhysicalDevice),
      pickPhysicalDevice (some device :: rest) physicalDevice = .ok (some device)) ∧
    (∀ (rest : List (Option PhysicalDevice)) (physicalDevice : Option PhysicalDevice),
      pickPhysicalDevice (none :: rest) physicalDevice =
        .error "failed to find a suitable GPU!") ∧
    (∀ physicalDevice : Option PhysicalDevice,
      pickPhysicalDevice [] physicalDevice =
        .error "failed to find GPUs with Vulkan support!") ∧
    PhysicalDevice.computeOnly.hasGraphicsPresentFamily = false ∧
    PhysicalDevice.gpu.hasGraphicsPresentFamily = true ∧
    pickPhysicalDevice [some PhysicalDevice.computeOnly, some PhysicalDevice.gpu] none =
      .ok (some PhysicalDevice.computeOnly) ∧
    pickPhysicalDevice [some PhysicalDevice.computeOnly] none =
      .ok (some PhysicalDevice.computeOnly) := by
  have hfirst : ∀ (device : Option PhysicalDevice) (rest : List (Option PhysicalDevice))
      (physicalDevice : Option PhysicalDevice),
      pickPhysicalDeviceLoop (device :: rest) physicalDevice = device := by
    intro device rest physicalDevice
    simp [pickPhysicalDeviceLoop, isDeviceSuitable, findQueueFamilies,
      QueueFamilyIndices.isComplete]
  refine ⟨fun device rest physicalDevice => ?_, fun rest physicalDevice => ?_, fun _ => rfl,
    by decide, by decide, ?_, ?_⟩ <;>
    simp [pickPhysicalDevice, hfirst]

/-! ## Lemmas on the option parser -/

theorem assign_mem_of_ne {p : ArgParser} {name n : String} {v o : ArgParser.option}
    (hmem : (n, o) ∈ p.options_) (hne : n ≠ name) : (n, o) ∈ (p.assign name v).options_ := by
  unfold ArgParser.assign
  split
  · simp only [List.mem_map]
    exact ⟨(n, o), hmem, by simp [hne]⟩
  · simp only [List.mem_append]
    exact Or.inl hmem

theorem mem_of_lookup (l : List (String × ArgParser.option)) {name : String}
    {o : ArgParser.option} (h : l.lookup name = some o) : (name, o) ∈ l := by
  induction l with
  | nil => simp at h
  | cons e rest ih =>
    obtain ⟨k, v⟩ := e
    rw [List.lookup_cons] at h
    by_cases hk : name = k
    · subst hk
      simp only [beq_self_eq_true, Option.some.injEq] at h
      subst h; exact List.mem_cons_self _ _
    · have hb : (name == k) = false := by simpa using hk
      rw [hb] at h
      exact List.mem_cons_of_mem _ (ih h)

theorem mem_of_find {p : ArgParser} {name : String} {o : ArgParser.option}
    (h : p.find name = some o) : (name, o) ∈ p.options_ :=
  mem_of_lookup p.options_ h

theorem parseArgs_keeps (tokens : List String) :
    ∀ (p p' : ArgParser) (name : String) (o : ArgParser.option),
      ArgParser.parseArgs tokens p = .ok p' → (name, o) ∈ p.options_ →
      ¬ (name ∈ tokens ∧ name.toList.take 2 = ['-', '-']) → (name, o) ∈ p'.options_ := by
  obtain ⟨n, hn⟩ : ∃ n, tokens.length = n := ⟨_, rfl⟩
  induction n using Nat.strong_induction_on generalizing tokens with
  | _ n ih =>
    intro p p' name o hscan hmem hsup
    cases tokens with
    | nil =>
      simp only [ArgParser.parseArgs, Except.ok.injEq] at hscan
      subst hscan; exact hmem
    | cons arg rest =>
      rw [ArgParser.parseArgs] at hscan
      by_cases hdash : arg.toList.take 2 = ['-', '-']
      · rw [if_pos hdash] at hscan
        cases hf : p.find arg with
        | none => rw [hf] at hscan; cases hscan
        | some opt =>
          rw [hf] at hscan
          cases rest with
          | nil => cases hscan
          | cons next rest' =>
            simp only at hscan
            by_cases hv : next.toList.head? ≠ some '-'
            · rw [if_pos hv] at hscan
              have hne : name ≠ arg := by
                rintro rfl
                exact hsup ⟨List.mem_cons_self _ _, hdash⟩
              refine ih rest'.length (by rw [← hn]; simp; omega) rest' rfl _ p' name o hscan
                (assign_mem_of_ne hmem hne) ?_
              rintro ⟨hin, hd⟩
              exact hsup ⟨List.mem_cons_of_mem _ (List.mem_cons_of_mem _ hin), hd⟩
            · rw [if_neg hv] at hscan; cases hscan
      · rw [if_neg hdash] at hscan
        by_cases hshort : arg.toList.head? = some '-' ∧ arg.length > 1
        · rw [if_pos hshort] at hscan; cases hscan
        · rw [if_neg hshort] at hscan
          refine ih rest.length (by rw [← hn]; simp) rest rfl _ p' name o hscan hmem ?_
          rintro ⟨hin, hd⟩
          exact hsup ⟨List.mem_cons_of_mem _ hin, hd⟩

theorem checkRequired_missing (l : List (String × ArgParser.option)) (name : String)
    (o : ArgParser.option) (hmem : (name, o) ∈ l) (hreq : o.required = true)
    (hval : o.has_value = false) :
    ∃ missing, ArgParser.checkRequired l = .error ("Required option missing: " ++ missing) := by
  induction l with
  | nil => cases hmem
  | cons e rest ih =>
    obtain ⟨k, v⟩ := e
    rw [ArgParser.checkRequired]
    by_cases hc : v.required = true ∧ ¬ v.has_value = true
    · exact ⟨k, by rw [if_pos hc]⟩
    · rw [if_neg hc]
      rcases List.mem_cons.1 hmem with h | h
      · cases h
        exact absurd ⟨hreq, by simp [hval]⟩ hc
      · exact ih h

/-! ## The option parser: claim C20 -/

/-- C20: for every parser state (every set of registered options) and every argument vector
whose tokens pass the scan without an error, if some option is registered as required and has
no value (no default) and is not supplied on the command line, then `parse` raises an error
whose message begins with "Required option missing". -/
theorem parse_required_missing (p p' : ArgParser) (argv : List String) (name : String)
    (o : ArgParser.option) (hscan : ArgParser.parseArgs (argv.drop 1) p = .ok p')
    (hreg : p.find name = some o) (hreq : o.required = true) (hdef : o.has_value = false)
    (hsup : ¬ ArgParser.supplied name argv) :
    ∃ missing, ArgParser.parse argv p = .error ("Required option missing: " ++ missing) := by
  have hkeep := parseArgs_keeps (argv.drop 1) p p' name o hscan (mem_of_find hreg) hsup
  obtain ⟨missing, hm⟩ := checkRequired_missing p'.options_ name o hkeep hreq hdef
  exact ⟨missing, by rw [ArgParser.parse, hscan]; simp only [hm]⟩

/-- Witness of `parse_required_missing`: the parser of `main`, which registers `--inputfile`
as required, run on a command line without options. -/
theorem parse_required_missing_witness :
    ∃ missing, ArgParser.parse ["fcube"]
        (ArgParser.empty.add_option "--inputfile" "JSON file with trigram data" true) =
      .error ("Required option missing: " ++ missing) :=
  parse_required_missing
    (ArgParser.empty.add_option "--inputfile" "JSON file with trigram data" true)
    (ArgParser.empty.add_option "--inputfile" "JSON file with trigram data" true)
    ["fcube"] "--inputfile"
    { description := "JSON file with trigram data", value := "", has_value := false,
      required := true }
    rfl rfl rfl rfl (by simp [ArgParser.supplied])

/-! ## Lemmas on sequencing -/

theorem Script.bind_eq {α β : Type} (m : Script α) (f : α → Script β) :
    (m >>= f) = Script.bind m f := rfl

theorem script_pure_eq {α : Type} (a : α) : (Pure.pure a : Script α) = Script.pure a := rfl

theorem Script.bind_ok {α β : Type} (ops : List Op) (a : α) (f : α → Script β) :
    Script.bind (ops, .ok a) f = (ops ++ (f a).1, (f a).2) := rfl

theorem Script.bind_error {α β : Type} (ops : List Op) (e : String) (f : α → Script β) :
    Script.bind (ops, .error e) f = (ops, .error e) := rfl

theorem Script.bind_ok_inv {α β : Type} {m : Script α} {f : α → Script β} {b : β}
    (h : (Script.bind m f).2 = .ok b) :
    ∃ a, m.2 = .ok a ∧ (f a).2 = .ok b ∧ (Script.bind m f).1 = m.1 ++ (f a).1 := by
  obtain ⟨ops, r⟩ := m
  cases r with
  | error e => simp [Script.bind] at h
  | ok a => exact ⟨a, rfl, h, rfl⟩

theorem Script.bind_error_inv {α β : Type} {m : Script α} {f : α → Script β} {e : String}
    (h : (Script.bind m f).2 = .error e) :
    (m.2 = .error e ∧ (Script.bind m f).1 = m.1) ∨
      ∃ a, m.2 = .ok a ∧ (f a).2 = .error e ∧ (Script.bind m f).1 = m.1 ++ (f a).1 := by
  obtain ⟨ops, r⟩ := m
  cases r with
  | error e' => left; exact ⟨by simpa [Script.bind] using h, rfl⟩
  | ok a => right; exact ⟨a, rfl, h, rfl⟩

theorem Script.bind_of_ok {α β : Type} {m : Script α} {f : α → Script β} {a : α}
    (h : m.2 = .ok a) : Script.bind m f = (m.1 ++ (f a).1, (f a).2) := by
  obtain ⟨ops, r⟩ := m
  simp only at h
  subst h; rfl

theorem Script.bind_of_error {α β : Type} {m : Script α} {f : α → Script β} {e : String}
    (h : m.2 = .error e) : Script.bind m f = (m.1, .error e) := by
  obtain ⟨ops, r⟩ := m
  simp only at h
  subst h; rfl

theorem Script.mem_bind {α β : Type} {m : Script α} {f : α → Script β} {op : Op}
    (h : op ∈ (Script.bind m f).1) : op ∈ m.1 ∨ ∃ a, m.2 = .ok a ∧ op ∈ (f a).1 := by
  obtain ⟨ops, r⟩ := m
  cases r with
  | error e => left; exact h
  | ok a =>
    rcases List.mem_append.1 h with h | h
    · left; exact h
    · right; exact ⟨a, rfl, h⟩

theorem Script.mem_loop {body : ℕ → Script Unit} {op : Op} (count start : ℕ)
    (h : op ∈ (Script.loop body count start).1) : ∃ i, op ∈ (body i).1 := by
  induction count generalizing start with
  | zero => simp [Script.loop, Script.pure] at h
  | succ n ih =>
    rw [Script.loop] at h
    rcases Script.mem_bind h with h | ⟨_, _, h⟩
    · exact ⟨start, h⟩
    · exact ih _ h

theorem Script.loop_of_ok {body : ℕ → Script Unit} (hbody : ∀ i, (body i).2 = .ok ())
    (count start : ℕ) :
    Script.loop body count start =
      (((List.range count).map fun k => (body (start + k)).1).flatten, .ok ()) := by
  induction count generalizing start with
  | zero => rfl
  | succ n ih =>
    rw [Script.loop, Script.bind_of_ok (hbody start), ih (start + 1), List.range_succ_eq_map]
    simp only [List.map_cons, List.map_map, List.flatten_cons, Nat.add_zero]
    congr 3
    apply List.map_congr_left
    intro k _
    simp only [Function.comp, Nat.succ_eq_add_one, Nat.add_assoc, Nat.add_comm 1 k]

theorem Script.loop_ok_inv {body : ℕ → Script Unit} (count start : ℕ)
    (h : (Script.loop body count start).2 = .ok ()) :
    ∀ k, k < count → (body (start + k)).2 = .ok () := by
  induction count generalizing start with
  | zero => intro k hk; omega
  | succ n ih =>
    rw [Script.loop] at h
    obtain ⟨_, h1, h2, _⟩ := Script.bind_ok_inv h
    intro k hk
    rcases Nat.eq_zero_or_pos k with h0 | hpos
    · subst h0; exact h1
    · obtain ⟨k', rfl⟩ : ∃ k', k = k' + 1 := ⟨k - 1, by omega⟩
      have := ih (start + 1) h2 k' (by omega)
      rwa [show start + 1 + k' = start + (k' + 1) by omega] at this

/-! ## Lemmas on the steps of set-up -/

theorem Script.create_of_success {env : InitEnv} {r : Resource} (message : String)
    (h : env.result r = .VK_SUCCESS) :
    Script.create env r message = ([Op.create r .VK_SUCCESS], .ok ()) := by
  simp [Script.create, h]

theorem createBuffer_of_ok {env : InitEnv} (hres : ∀ r, env.result r = .VK_SUCCESS)
    {properties : ℕ} {buffer bufferMemory : Resource}
    (h : (createBuffer env properties buffer bufferMemory).2 = .ok ()) :
    createBuffer env properties buffer bufferMemory =
      ([Op.create buffer .VK_SUCCESS, Op.create bufferMemory .VK_SUCCESS], .ok ()) := by
  unfold createBuffer at h ⊢
  simp only [Script.bind_eq, Script.create_of_success _ (hres _), Script.bind_ok,
    Script.lift] at h ⊢
  cases hf : findMemoryType env.memoryTypes (env.memoryTypeBits buffer) properties with
  | error e => rw [hf] at h; simp [Script.bind] at h
  | ok i => simp [Script.bind]

theorem createStagedBuffer_of_ok {env : InitEnv} (hres : ∀ r, env.result r = .VK_SUCCESS)
    {target : Buffer} (h : (createStagedBuffer env target).2 = .ok ()) :
    createStagedBuffer env target =
      ([Op.create (.stagingBuffer target) .VK_SUCCESS,
        Op.create (.stagingBufferMemory target) .VK_SUCCESS,
        Op.create (.buffer target) .VK_SUCCESS, Op.create (.bufferMemory target) .VK_SUCCESS,
        Op.create (.copyCommandBuffer target) .VK_SUCCESS,
        Op.destroy (.copyCommandBuffer target), Op.destroy (.stagingBuffer target),
        Op.destroy (.stagingBufferMemory target)], .ok ()) := by
  unfold createStagedBuffer at h ⊢
  simp only [Script.bind_eq] at h ⊢
  obtain ⟨_, h1, h, _⟩ := Script.bind_ok_inv h
  rw [createBuffer_of_ok hres h1, Script.bind_ok]
  obtain ⟨_, h2, h, _⟩ := Script.bind_ok_inv h
  rw [createBuffer_of_ok hres h2, Script.bind_ok]
  simp [copyBuffer, Script.bind_eq, Script.call, Script.bind, hres]
theorem initWindow_of_ok {env : InitEnv} (hres : ∀ r, env.result r = .VK_SUCCESS)
    {app app' : App} (h : (initWindow env app).2 = .ok app') :
    (initWindow env app).1 = [Op.create .glfw .VK_SUCCESS, Op.create .window .VK_SUCCESS] ∧ app' = app := by
  have e : initWindow env app = ([Op.create .glfw .VK_SUCCESS, Op.create .window .VK_SUCCESS], .ok app) := by
    simp [initWindow, Script.bind_eq, script_pure_eq, Script.bind, Script.pure, Script.create,
      Script.lift, hres, Script.call]
  rw [e] at h ⊢
  exact ⟨rfl, by simpa using h.symm⟩

theorem createInstance_of_ok {env : InitEnv} (hres : ∀ r, env.result r = .VK_SUCCESS)
    {app app' : App} (h : (createInstance env app).2 = .ok app') :
    (createInstance env app).1 = [Op.create .vkInstance .VK_SUCCESS] ∧ app' = app := by
  have e : createInstance env app = ([Op.create .vkInstance .VK_SUCCESS], .ok app) := by
    simp [createInstance, Script.bind_eq, script_pure_eq, Script.bind, Script.pure, Script.create,
      Script.lift, hres, checkValidationLayerSupport]
  rw [e] at h ⊢
  exact ⟨rfl, by simpa using h.symm⟩

theorem createSurface_of_ok {env : InitEnv} (hres : ∀ r, env.result r = .VK_SUCCESS)
    {app app' : App} (h : (createSurface env app).2 = .ok app') :
    (createSurface env app).1 = [Op.create .surface .VK_SUCCESS] ∧ app' = app := by
  have e : createSurface env app = ([Op.create .surface .VK_SUCCESS], .ok app) := by
    simp [createSurface, Script.bind_eq, script_pure_eq, Script.bind, Script.pure, Script.create,
      Script.lift, hres]
  rw [e] at h ⊢
  exact ⟨rfl, by simpa using h.symm⟩

theorem createLogicalDevice_of_ok {env : InitEnv} (hres : ∀ r, env.result r = .VK_SUCCESS)
    {app app' : App} (h : (createLogicalDevice env app).2 = .ok app') :
    (createLogicalDevice env app).1 = [Op.create .device .VK_SUCCESS] ∧ app' = app := by
  have e : createLogicalDevice env app = ([Op.create .device .VK_SUCCESS], .ok app) := by
    simp [createLogicalDevice, Script.bind_eq, script_pure_eq, Script.bind, Script.pure, Script.create,
      Script.lift, hres]
  rw [e] at h ⊢
  exact ⟨rfl, by simpa using h.symm⟩

theorem createDescriptorSetLayout_of_ok {env : InitEnv} (hres : ∀ r, env.result r = .VK_SUCCESS)
    {app app' : App} (h : (createDescriptorSetLayout env app).2 = .ok app') :
    (createDescriptorSetLayout env app).1 = [Op.create .descriptorSetLayout .VK_SUCCESS] ∧ app' = app := by
  have e : createDescriptorSetLayout env app = ([Op.create .descriptorSetLayout .VK_SUCCESS], .ok app) := by
    simp [createDescriptorSetLayout, Script.bind_eq, script_pure_eq, Script.bind, Script.pure, Script.create,
      Script.lift, hres]
  rw [e] at h ⊢
  exact ⟨rfl, by simpa using h.symm⟩

theorem createCommandPool_of_ok {env : InitEnv} (hres : ∀ r, env.result r = .VK_SUCCESS)
    {app app' : App} (h : (createCommandPool env app).2 = .ok app') :
    (createCommandPool env app).1 = [Op.create .commandPool .VK_SUCCESS] ∧ app' = app := by
  have e : createCommandPool env app = ([Op.create .commandPool .VK_SUCCESS], .ok app) := by
    simp [createCommandPool, Script.bind_eq, script_pure_eq, Script.bind, Script.pure, Script.create,
      Script.lift, hres, findQueueFamilies]
  rw [e] at h ⊢
  exact ⟨rfl, by simpa using h.symm⟩

theorem createDescriptorPool_of_ok {env : InitEnv} (hres : ∀ r, env.result r = .VK_SUCCESS)
    {app app' : App} (h : (createDescriptorPool env app).2 = .ok app') :
    (createDescriptorPool env app).1 = [Op.create .descriptorPool .VK_SUCCESS] ∧ app' = app := by
  have e : createDescriptorPool env app = ([Op.create .descriptorPool .VK_SUCCESS], .ok app) := by
    simp [createDescriptorPool, Script.bind_eq, script_pure_eq, Script.bind, Script.pure, Script.create,
      Script.lift, hres]
  rw [e] at h ⊢
  exact ⟨rfl, by simpa using h.symm⟩

theorem createDescriptorSets_of_ok {env : InitEnv} (hres : ∀ r, env.result r = .VK_SUCCESS)
    {app app' : App} (h : (createDescriptorSets env app).2 = .ok app') :
    (createDescriptorSets env app).1 = [Op.create .descriptorSets .VK_SUCCESS] ∧ app' = app := by
  have e : createDescriptorSets env app = ([Op.create .descriptorSets .VK_SUCCESS], .ok app) := by
    simp [createDescriptorSets, Script.bind_eq, script_pure_eq, Script.bind, Script.pure, Script.create,
      Script.lift, hres]
  rw [e] at h ⊢
  exact ⟨rfl, by simpa using h.symm⟩

theorem createCommandBuffers_of_ok {env : InitEnv} (hres : ∀ r, env.result r = .VK_SUCCESS)
    {app app' : App} (h : (createCommandBuffers env app).2 = .ok app') :
    (createCommandBuffers env app).1 = [Op.create .commandBuffers .VK_SUCCESS] ∧ app' = app := by
  have e : createCommandBuffers env app = ([Op.create .commandBuffers .VK_SUCCESS], .ok app) := by
    simp [createCommandBuffers, Script.bind_eq, script_pure_eq, Script.bind, Script.pure, Script.create,
      Script.lift, hres]
  rw [e] at h ⊢
  exact ⟨rfl, by simpa using h.symm⟩
theorem flatten_map_singleton {α β : Type} (f : α → β) (l : List α) :
    (l.map fun k => [f k]).flatten = l.map f := by
  induction l with
  | nil => rfl
  | cons a l ih => simp [ih]

theorem setupDebugMessenger_of_ok {env : InitEnv} (hres : ∀ r, env.result r = .VK_SUCCESS)
    {app app' : App} (h : (setupDebugMessenger env app).2 = .ok app') :
    (setupDebugMessenger env app).1 =
      (if env.enableValidationLayers then [Op.create .debugMessenger .VK_SUCCESS] else []) ∧
      app' = app := by
  have e : setupDebugMessenger env app =
      ((if env.enableValidationLayers then [Op.create .debugMessenger .VK_SUCCESS] else []),
        .ok app) := by
    cases hv : env.enableValidationLayers <;>
      simp [setupDebugMessenger, Script.bind_eq, script_pure_eq, Script.bind, Script.pure,
        Script.create, hres, hv]
  rw [e] at h ⊢
  exact ⟨rfl, by simpa using h.symm⟩

theorem loadTrigrams_step_of_ok {env : InitEnv} {app app' : App}
    (h : (app.loadTrigrams env).2 = .ok app') :
    (app.loadTrigrams env).1 = [] ∧ ∃ viewer, app' = { app with viewer := viewer } := by
  unfold App.loadTrigrams at h ⊢
  simp only [Script.bind_eq, script_pure_eq, Script.lift] at h ⊢
  cases hg : app.args_.get convert_value_string "--inputfile" with
  | error e => rw [hg] at h; simp [Script.bind] at h
  | ok ifile =>
    rw [hg] at h
    simp only [Script.bind_ok, List.nil_append] at h ⊢
    cases hl : FCube.loadTrigrams ifile (env.files ifile) app.viewer with
    | error e => rw [hl] at h; simp [Script.bind] at h
    | ok viewer =>
      rw [hl] at h
      simp only [Script.bind, Script.pure, List.append_nil, Except.ok.injEq] at h ⊢
      exact ⟨trivial, viewer, h.symm⟩

theorem pickPhysicalDevice_step_of_ok {env : InitEnv} {app app' : App}
    (h : (app.pickPhysicalDevice env).2 = .ok app') :
    (app.pickPhysicalDevice env).1 = [] ∧
      ∃ physicalDevice, app' = { app with physicalDevice := physicalDevice } := by
  unfold App.pickPhysicalDevice at h ⊢
  simp only [Script.bind_eq, script_pure_eq, Script.lift] at h ⊢
  cases hp : FCube.pickPhysicalDevice env.devices app.physicalDevice with
  | error e => rw [hp] at h; simp [Script.bind] at h
  | ok physicalDevice =>
    rw [hp] at h
    simp only [Script.bind, Script.pure, List.append_nil, Except.ok.injEq] at h ⊢
    exact ⟨trivial, physicalDevice, h.symm⟩

theorem createSwapChain_of_ok {env : InitEnv} (hres : ∀ r, env.result r = .VK_SUCCESS)
    {app app' : App} (h : (createSwapChain env app).2 = .ok app') :
    (createSwapChain env app).1 =
      [Op.createSwapchain (imageCount env.capabilities)
        { width := WINDOW_WIDTH, height := WINDOW_HEIGHT } .VK_SUCCESS] ∧
      app' = { app with
        swapChainImages := env.swapChainImages
        swapChainImageFormat := chooseSwapSurfaceFormat env.formats
        viewer := { app.viewer with
          swapChainExtent := { width := WINDOW_WIDTH, height := WINDOW_HEIGHT } } } := by
  have e : createSwapChain env app =
      ([Op.createSwapchain (imageCount env.capabilities)
        { width := WINDOW_WIDTH, height := WINDOW_HEIGHT } .VK_SUCCESS],
        .ok { app with
          swapChainImages := env.swapChainImages
          swapChainImageFormat := chooseSwapSurfaceFormat env.formats
          viewer := { app.viewer with
            swapChainExtent := { width := WINDOW_WIDTH, height := WINDOW_HEIGHT } } }) := by
    simp [createSwapChain, Script.bind_eq, script_pure_eq, Script.bind, Script.pure,
      Script.call, Script.lift, hres, chooseSwapExtent]
  rw [e] at h ⊢
  exact ⟨rfl, by simpa using h.symm⟩

theorem createImageViews_of_ok {env : InitEnv} (hres : ∀ r, env.result r = .VK_SUCCESS)
    {app app' : App} (h : (createImageViews env app).2 = .ok app') :
    (createImageViews env app).1 =
      (List.range app.swapChainImages).map
        (fun i => Op.create (.swapChainImageView i) .VK_SUCCESS) ∧
      app' = { app with swapChainImageViews := app.swapChainImages } := by
  have e : createImageViews env app =
      ((List.range app.swapChainImages).map
        (fun i => Op.create (.swapChainImageView i) .VK_SUCCESS),
        .ok { app with swapChainImageViews := app.swapChainImages }) := by
    unfold createImageViews
    simp only [Script.bind_eq, script_pure_eq, Script.create_of_success _ (hres _)]
    rw [Script.loop_of_ok (fun _ => rfl)]
    simp [Script.bind, Script.pure, flatten_map_singleton]
  rw [e] at h ⊢
  exact ⟨rfl, by simpa using h.symm⟩

theorem createFramebuffers_of_ok {env : InitEnv} (hres : ∀ r, env.result r = .VK_SUCCESS)
    {app app' : App} (h : (createFramebuffers env app).2 = .ok app') :
    (createFramebuffers env app).1 =
      (List.range app.swapChainImageViews).map
        (fun i => Op.create (.swapChainFramebuffer i) .VK_SUCCESS) ∧
      app' = { app with swapChainFramebuffers := app.swapChainImageViews } := by
  have e : createFramebuffers env app =
      ((List.range app.swapChainImageViews).map
        (fun i => Op.create (.swapChainFramebuffer i) .VK_SUCCESS),
        .ok { app with swapChainFramebuffers := app.swapChainImageViews }) := by
    unfold createFramebuffers
    simp only [Script.bind_eq, script_pure_eq, Script.create_of_success _ (hres _)]
    rw [Script.loop_of_ok (fun _ => rfl)]
    simp [Script.bind, Script.pure, flatten_map_singleton]
  rw [e] at h ⊢
  exact ⟨rfl, by simpa using h.symm⟩

theorem createRenderPass_of_ok {env : InitEnv} (hres : ∀ r, env.result r = .VK_SUCCESS)
    {app app' : App} (h : (createRenderPass env app).2 = .ok app') :
    (createRenderPass env app).1 = [Op.create .renderPass .VK_SUCCESS] ∧ app' = app := by
  unfold createRenderPass at h ⊢
  simp only [Script.bind_eq, script_pure_eq, Script.create_of_success _ (hres _),
    Script.lift] at h ⊢
  cases hf : findDepthFormat env.formatProperties with
  | error e => rw [hf] at h; simp [Script.bind] at h
  | ok format =>
    rw [hf] at h
    simp only [Script.bind, Script.pure, List.nil_append, List.append_nil,
      Except.ok.injEq] at h ⊢
    exact ⟨trivial, h.symm⟩

theorem createGraphicsPipeline_of_ok {env : InitEnv} (hres : ∀ r, env.result r = .VK_SUCCESS)
    {app app' : App} (h : (createGraphicsPipeline env app).2 = .ok app') :
    (createGraphicsPipeline env app).1 =
      [Op.create (.shaderModule .vert) .VK_SUCCESS, Op.create (.shaderModule .frag) .VK_SUCCESS,
        Op.create .pipelineLayout .VK_SUCCESS, Op.create .graphicsPipeline .VK_SUCCESS,
        Op.destroy (.shaderModule .frag), Op.destroy (.shaderModule .vert)] ∧ app' = app := by
  unfold createGraphicsPipeline at h ⊢
  simp only [Script.bind_eq, script_pure_eq, createShaderModule,
    Script.create_of_success _ (hres _), readFile] at h ⊢
  cases hv : env.shaderFiles .vert with
  | false => rw [hv] at h; simp [hv, Script.bind, Script.lift] at h
  | true =>
    rw [hv] at h
    cases hf : env.shaderFiles .frag with
    | false => rw [hf] at h; simp [hv, hf, Script.bind, Script.lift, Script.pure] at h
    | true =>
      rw [hf] at h
      simp only [hv, hf, if_true, Script.bind, Script.pure, Script.call, List.nil_append,
        List.cons_append, List.append_nil, Except.ok.injEq] at h ⊢
      exact ⟨trivial, h.symm⟩

theorem createDepthResources_of_ok {env : InitEnv} (hres : ∀ r, env.result r = .VK_SUCCESS)
    {app app' : App} (h : (createDepthResources env app).2 = .ok app') :
    (createDepthResources env app).1 =
      [Op.create .depthImage .VK_SUCCESS, Op.create .depthImageMemory .VK_SUCCESS,
        Op.create .depthImageView .VK_SUCCESS] ∧ app' = app := by
  unfold createDepthResources createImage at h ⊢
  simp only [Script.bind_eq, script_pure_eq, Script.create_of_success _ (hres _),
    Script.lift] at h ⊢
  cases hf : findDepthFormat env.formatProperties with
  | error e => rw [hf] at h; simp [Script.bind] at h
  | ok format =>
    rw [hf] at h
    cases hm : findMemoryType env.memoryTypes (env.memoryTypeBits .depthImage)
        VK_MEMORY_PROPERTY_DEVICE_LOCAL_BIT with
    | error e => rw [hm] at h; simp [Script.bind] at h
    | ok i =>
      rw [hm] at h
      simp only [Script.bind, Script.pure, List.nil_append, List.cons_append, List.append_nil,
        Except.ok.injEq] at h ⊢
      exact ⟨trivial, h.symm⟩

theorem createVertexBuffer_of_ok {env : InitEnv} (hres : ∀ r, env.result r = .VK_SUCCESS)
    {app app' : App} (h : (createVertexBuffer env app).2 = .ok app') :
    (createVertexBuffer env app).1 =
      [Op.create (.stagingBuffer .vertexBuffer) .VK_SUCCESS,
        Op.create (.stagingBufferMemory .vertexBuffer) .VK_SUCCESS,
        Op.create (.buffer .vertexBuffer) .VK_SUCCESS,
        Op.create (.bufferMemory .vertexBuffer) .VK_SUCCESS,
        Op.create (.copyCommandBuffer .vertexBuffer) .VK_SUCCESS,
        Op.destroy (.copyCommandBuffer .vertexBuffer),
        Op.destroy (.stagingBuffer .vertexBuffer),
        Op.destroy (.stagingBufferMemory .vertexBuffer)] ∧ app' = app := by
  unfold createVertexBuffer at h ⊢
  simp only [Script.bind_eq, script_pure_eq] at h ⊢
  obtain ⟨_, h1, h2, _⟩ := Script.bind_ok_inv h
  rw [createStagedBuffer_of_ok hres h1] at h ⊢
  simp only [Script.bind, Script.pure, List.append_nil, Except.ok.injEq] at h ⊢
  exact ⟨trivial, h.symm⟩

theorem createIndexBuffer_of_ok {env : InitEnv} (hres : ∀ r, env.result r = .VK_SUCCESS)
    {app app' : App} (h : (createIndexBuffer env app).2 = .ok app') :
    (createIndexBuffer env app).1 =
      [Op.create (.stagingBuffer .indexBuffer) .VK_SUCCESS,
        Op.create (.stagingBufferMemory .indexBuffer) .VK_SUCCESS,
        Op.create (.buffer .indexBuffer) .VK_SUCCESS,
        Op.create (.bufferMemory .indexBuffer) .VK_SUCCESS,
        Op.create (.copyCommandBuffer .indexBuffer) .VK_SUCCESS,
        Op.destroy (.copyCommandBuffer .indexBuffer),
        Op.destroy (.stagingBuffer .indexBuffer),
        Op.destroy (.stagingBufferMemory .indexBuffer)] ∧ app' = app := by
  unfold createIndexBuffer at h ⊢
  simp only [Script.bind_eq, script_pure_eq] at h ⊢
  obtain ⟨_, h1, h2, _⟩ := Script.bind_ok_inv h
  rw [createStagedBuffer_of_ok hres h1] at h ⊢
  simp only [Script.bind, Script.pure, List.append_nil, Except.ok.injEq] at h ⊢
  exact ⟨trivial, h.symm⟩

theorem createInstanceBuffer_of_ok {env : InitEnv} (hres : ∀ r, env.result r = .VK_SUCCESS)
    {app app' : App} (h : (createInstanceBuffer env app).2 = .ok app') :
    (createInstanceBuffer env app).1 =
      [Op.create (.buffer .instanceBuffer) .VK_SUCCESS,
        Op.create (.bufferMemory .instanceBuffer) .VK_SUCCESS] ∧ app' = app := by
  unfold createInstanceBuffer at h ⊢
  simp only [Script.bind_eq, script_pure_eq] at h ⊢
  obtain ⟨_, h1, h2, _⟩ := Script.bind_ok_inv h
  rw [createBuffer_of_ok hres h1] at h ⊢
  simp only [Script.bind, Script.pure, List.append_nil, Except.ok.injEq] at h ⊢
  exact ⟨trivial, h.symm⟩

theorem createUniformBuffers_of_ok {env : InitEnv} (hres : ∀ r, env.result r = .VK_SUCCESS)
    {app app' : App} (h : (createUniformBuffers env app).2 = .ok app') :
    (createUniformBuffers env app).1 =
      [Op.create (.uniformBuffer 0) .VK_SUCCESS, Op.create (.uniformBufferMemory 0) .VK_SUCCESS,
        Op.create (.uniformBuffer 1) .VK_SUCCESS,
        Op.create (.uniformBufferMemory 1) .VK_SUCCESS] ∧ app' = app := by
  unfold createUniformBuffers at h ⊢
  simp only [Script.bind_eq, script_pure_eq] at h ⊢
  obtain ⟨_, h1, h2, _⟩ := Script.bind_ok_inv h
  have hb := Script.loop_ok_inv _ _ h1
  have h0 := createBuffer_of_ok hres (hb 0 (by decide))
  have h1' := createBuffer_of_ok hres (hb 1 (by decide))
  simp only [Nat.zero_add] at h0 h1'
  have e : Script.loop (fun i => createBuffer env
      (VK_MEMORY_PROPERTY_HOST_VISIBLE_BIT ||| VK_MEMORY_PROPERTY_HOST_COHERENT_BIT)
      (.uniformBuffer i) (.uniformBufferMemory i)) MAX_FRAMES_IN_FLIGHT 0 =
      ([Op.create (.uniformBuffer 0) .VK_SUCCESS, Op.create (.uniformBufferMemory 0) .VK_SUCCESS,
        Op.create (.uniformBuffer 1) .VK_SUCCESS,
        Op.create (.uniformBufferMemory 1) .VK_SUCCESS], .ok ()) := by
    show Script.bind _ (fun _ => Script.bind _ (fun _ => Script.pure ())) = _
    simp only [Nat.zero_add]
    rw [h0, Script.bind_ok, h1']
    rfl
  rw [e] at h ⊢
  simp only [Script.bind, Script.pure, List.append_nil, Except.ok.injEq] at h ⊢
  exact ⟨trivial, h.symm⟩

theorem createSyncObjects_of_ok {env : InitEnv} (hres : ∀ r, env.result r = .VK_SUCCESS)
    {app app' : App} (h : (createSyncObjects env app).2 = .ok app') :
    (createSyncObjects env app).1 =
      [Op.create (.imageAvailableSemaphore 0) .VK_SUCCESS,
        Op.create (.renderFinishedSemaphore 0) .VK_SUCCESS,
        Op.create (.inFlightFence 0) .VK_SUCCESS,
        Op.create (.imageAvailableSemaphore 1) .VK_SUCCESS,
        Op.create (.renderFinishedSemaphore 1) .VK_SUCCESS,
        Op.create (.inFlightFence 1) .VK_SUCCESS] ∧ app' = app := by
  have e : createSyncObjects env app =
      ([Op.create (.imageAvailableSemaphore 0) .VK_SUCCESS,
        Op.create (.renderFinishedSemaphore 0) .VK_SUCCESS,
        Op.create (.inFlightFence 0) .VK_SUCCESS,
        Op.create (.imageAvailableSemaphore 1) .VK_SUCCESS,
        Op.create (.renderFinishedSemaphore 1) .VK_SUCCESS,
        Op.create (.inFlightFence 1) .VK_SUCCESS], .ok app) := by
    unfold createSyncObjects
    simp only [Script.bind_eq, script_pure_eq, Script.create_of_success _ (hres _)]
    rfl
  rw [e] at h ⊢
  exact ⟨rfl, by simpa using h.symm⟩

theorem setup_of_ok {env : InitEnv} (hres : ∀ r, env.result r = .VK_SUCCESS) {app app' : App}
    (h : (setup env app).2 = .ok app') :
    (setup env app).1 =
      setupOps env.enableValidationLayers (imageCount env.capabilities) env.swapChainImages ∧
    app'.swapChainImageViews = env.swapChainImages ∧
    app'.swapChainFramebuffers = env.swapChainImages ∧ app'.args_ = app.args_ := by
  unfold setup at h ⊢
  simp only [Script.bind_eq] at h ⊢
  obtain ⟨a0, ha, h0, t⟩ := Script.bind_ok_inv h
  rw [t]; clear t h
  obtain ⟨e, ea⟩ := initWindow_of_ok hres ha
  rw [e]; clear e ha
  rw [ea] at h0 ⊢; clear ea a0
  unfold initVulkan at h0 ⊢
  simp only [Script.bind_eq] at h0 ⊢
  obtain ⟨a1, ha, h1, t⟩ := Script.bind_ok_inv h0
  rw [t]; clear t h0
  obtain ⟨e, x0, ea⟩ := loadTrigrams_step_of_ok ha
  rw [e]; clear e ha
  rw [ea] at h1 ⊢; clear ea a1
  obtain ⟨a2, ha, h2, t⟩ := Script.bind_ok_inv h1
  rw [t]; clear t h1
  obtain ⟨e, ea⟩ := createInstance_of_ok hres ha
  rw [e]; clear e ha
  rw [ea] at h2 ⊢; clear ea a2
  obtain ⟨a3, ha, h3, t⟩ := Script.bind_ok_inv h2
  rw [t]; clear t h2
  obtain ⟨e, ea⟩ := setupDebugMessenger_of_ok hres ha
  rw [e]; clear e ha
  rw [ea] at h3 ⊢; clear ea a3
  obtain ⟨a4, ha, h4, t⟩ := Script.bind_ok_inv h3
  rw [t]; clear t h3
  obtain ⟨e, ea⟩ := createSurface_of_ok hres ha
  rw [e]; clear e ha
  rw [ea] at h4 ⊢; clear ea a4
  obtain ⟨a5, ha, h5, t⟩ := Script.bind_ok_inv h4
  rw [t]; clear t h4
  obtain ⟨e, x4, ea⟩ := pickPhysicalDevice_step_of_ok ha
  rw [e]; clear e ha
  rw [ea] at h5 ⊢; clear ea a5
  obtain ⟨a6, ha, h6, t⟩ := Script.bind_ok_inv h5
  rw [t]; clear t h5
  obtain ⟨e, ea⟩ := createLogicalDevice_of_ok hres ha
  rw [e]; clear e ha
  rw [ea] at h6 ⊢; clear ea a6
  obtain ⟨a7, ha, h7, t⟩ := Script.bind_ok_inv h6
  rw [t]; clear t h6
  obtain ⟨e, ea⟩ := createSwapChain_of_ok hres ha
  rw [e]; clear e ha
  rw [ea] at h7 ⊢; clear ea a7
  obtain ⟨a8, ha, h8, t⟩ := Script.bind_ok_inv h7
  rw [t]; clear t h7
  obtain ⟨e, ea⟩ := createImageViews_of_ok hres ha
  rw [e]; clear e ha
  rw [ea] at h8 ⊢; clear ea a8
  obtain ⟨a9, ha, h9, t⟩ := Script.bind_ok_inv h8
  rw [t]; clear t h8
  obtain ⟨e, ea⟩ := createRenderPass_of_ok hres ha
  rw [e]; clear e ha
  rw [ea] at h9 ⊢; clear ea a9
  obtain ⟨a10, ha, h10, t⟩ := Script.bind_ok_inv h9
  rw [t]; clear t h9
  obtain ⟨e, ea⟩ := createDescriptorSetLayout_of_ok hres ha
  rw [e]; clear e ha
  rw [ea] at h10 ⊢; clear ea a10
  obtain ⟨a11, ha, h11, t⟩ := Script.bind_ok_inv h10
  rw [t]; clear t h10
  obtain ⟨e, ea⟩ := createGraphicsPipeline_of_ok hres ha
  rw [e]; clear e ha
  rw [ea] at h11 ⊢; clear ea a11
  obtain ⟨a12, ha, h12, t⟩ := Script.bind_ok_inv h11
  rw [t]; clear t h11
  obtain ⟨e, ea⟩ := createDepthResources_of_ok hres ha
  rw [e]; clear e ha
  rw [ea] at h12 ⊢; clear ea a12
  obtain ⟨a13, ha, h13, t⟩ := Script.bind_ok_inv h12
  rw [t]; clear t h12
  obtain ⟨e, ea⟩ := createFramebuffers_of_ok hres ha
  rw [e]; clear e ha
  rw [ea] at h13 ⊢; clear ea a13
  obtain ⟨a14, ha, h14, t⟩ := Script.bind_ok_inv h13
  rw [t]; clear t h13
  obtain ⟨e, ea⟩ := createCommandPool_of_ok hres ha
  rw [e]; clear e ha
  rw [ea] at h14 ⊢; clear ea a14
  obtain ⟨a15, ha, h15, t⟩ := Script.bind_ok_inv h14
  rw [t]; clear t h14
  obtain ⟨e, ea⟩ := createVertexBuffer_of_ok hres ha
  rw [e]; clear e ha
  rw [ea] at h15 ⊢; clear ea a15
  obtain ⟨a16, ha, h16, t⟩ := Script.bind_ok_inv h15
  rw [t]; clear t h15
  obtain ⟨e, ea⟩ := createIndexBuffer_of_ok hres ha
  rw [e]; clear e ha
  rw [ea] at h16 ⊢; clear ea a16
  obtain ⟨a17, ha, h17, t⟩ := Script.bind_ok_inv h16
  rw [t]; clear t h16
  obtain ⟨e, ea⟩ := createInstanceBuffer_of_ok hres ha
  rw [e]; clear e ha
  rw [ea] at h17 ⊢; clear ea a17
  obtain ⟨a18, ha, h18, t⟩ := Script.bind_ok_inv h17
  rw [t]; clear t h17
  obtain ⟨e, ea⟩ := createUniformBuffers_of_ok hres ha
  rw [e]; clear e ha
  rw [ea] at h18 ⊢; clear ea a18
  obtain ⟨a19, ha, h19, t⟩ := Script.bind_ok_inv h18
  rw [t]; clear t h18
  obtain ⟨e, ea⟩ := createDescriptorPool_of_ok hres ha
  rw [e]; clear e ha
  rw [ea] at h19 ⊢; clear ea a19
  obtain ⟨a20, ha, h20, t⟩ := Script.bind_ok_inv h19
  rw [t]; clear t h19
  obtain ⟨e, ea⟩ := createDescriptorSets_of_ok hres ha
  rw [e]; clear e ha
  rw [ea] at h20 ⊢; clear ea a20
  obtain ⟨a21, ha, h21, t⟩ := Script.bind_ok_inv h20
  rw [t]; clear t h20
  obtain ⟨e, ea⟩ := createCommandBuffers_of_ok hres ha
  rw [e]; clear e ha
  rw [ea] at h21 ⊢; clear ea a21
  obtain ⟨e, ea⟩ := createSyncObjects_of_ok hres h21
  rw [e, ea]
  refine ⟨?_, rfl, rfl, rfl⟩
  simp [setupOps]

/-! ## Footprints: properties of every call of a piece of program -/

theorem Script.all_bind {α β : Type} {P : Op → Prop} {m : Script α} {f : α → Script β}
    (hm : Script.All P m) (hf : ∀ a, Script.All P (f a)) : Script.All P (Script.bind m f) := by
  intro op hop
  rcases Script.mem_bind hop with h | ⟨a, _, h⟩
  · exact hm op h
  · exact hf a op h

theorem Script.all_loop {P : Op → Prop} {body : ℕ → Script Unit}
    (h : ∀ i, Script.All P (body i)) (count start : ℕ) :
    Script.All P (Script.loop body count start) := by
  intro op hop
  obtain ⟨i, hi⟩ := Script.mem_loop count start hop
  exact h i op hi

theorem Script.all_pure {α : Type} {P : Op → Prop} (a : α) : Script.All P (Script.pure a) := by
  intro op hop
  simp [Script.pure] at hop

theorem Script.all_lift {α : Type} {P : Op → Prop} (x : Except String α) :
    Script.All P (Script.lift x) := by
  intro op hop
  simp [Script.lift] at hop

theorem Script.all_call {P : Op → Prop} {op : Op} (h : P op) : Script.All P (Script.call op) := by
  intro op' hop
  simp only [Script.call, List.mem_singleton] at hop
  rw [hop]; exact h

theorem Script.all_create {P : Op → Prop} {env : InitEnv} {r : Resource} (message : String)
    (h : P (Op.create r (env.result r))) : Script.All P (Script.create env r message) := by
  intro op' hop
  simp only [Script.create, List.mem_singleton] at hop
  rw [hop]; exact h

theorem Script.all_ite {α : Type} {P : Op → Prop} {c : Prop} [Decidable c] {m n : Script α}
    (hm : Script.All P m) (hn : Script.All P n) : Script.All P (if c then m else n) := by
  split
  · exact hm
  · exact hn

theorem initWindow_noRenderPass (env : InitEnv) (app : App) :
    Script.All (fun op => op.createsRenderPass = false) (initWindow env app) := by
  simp only [initWindow, readFile, createShaderModule, createImage, createBuffer,
    copyBuffer, createStagedBuffer, Script.bind_eq, script_pure_eq]
  repeat' first
    | exact Script.all_pure _
    | exact Script.all_lift _
    | exact Script.all_create _ rfl
    | exact Script.all_call rfl
    | apply Script.all_bind
    | apply Script.all_loop
    | apply Script.all_ite
    | intro _

theorem loadTrigrams_step_noRenderPass (env : InitEnv) (app : App) :
    Script.All (fun op => op.createsRenderPass = false) (App.loadTrigrams env app) := by
  simp only [App.loadTrigrams, readFile, createShaderModule, createImage, createBuffer,
    copyBuffer, createStagedBuffer, Script.bind_eq, script_pure_eq]
  repeat' first
    | exact Script.all_pure _
    | exact Script.all_lift _
    | exact Script.all_create _ rfl
    | exact Script.all_call rfl
    | apply Script.all_bind
    | apply Script.all_loop
    | apply Script.all_ite
    | intro _

theorem createInstance_noRenderPass (env : InitEnv) (app : App) :
    Script.All (fun op => op.createsRenderPass = false) (createInstance env app) := by
  simp only [createInstance, readFile, createShaderModule, createImage, createBuffer,
    copyBuffer, createStagedBuffer, Script.bind_eq, script_pure_eq]
  repeat' first
    | exact Script.all_pure _
    | exact Script.all_lift _
    | exact Script.all_create _ rfl
    | exact Script.all_call rfl
    | apply Script.all_bind
    | apply Script.all_loop
    | apply Script.all_ite
    | intro _

theorem setupDebugMessenger_noRenderPass (env : InitEnv) (app : App) :
    Script.All (fun op => op.createsRenderPass = false) (setupDebugMessenger env app) := by
  simp only [setupDebugMessenger, readFile, createShaderModule, createImage, createBuffer,
    copyBuffer, createStagedBuffer, Script.bind_eq, script_pure_eq]
  repeat' first
    | exact Script.all_pure _
    | exact Script.all_lift _
    | exact Script.all_create _ rfl
    | exact Script.all_call rfl
    | apply Script.all_bind
    | apply Script.all_loop
    | apply Script.all_ite
    | intro _

theorem createSurface_noRenderPass (env : InitEnv) (app : App) :
    Script.All (fun op => op.createsRenderPass = false) (createSurface env app) := by
  simp only [createSurface, readFile, createShaderModule, createImage, createBuffer,
    copyBuffer, createStagedBuffer, Script.bind_eq, script_pure_eq]
  repeat' first
    | exact Script.all_pure _
    | exact Script.all_lift _
    | exact Script.all_create _ rfl
    | exact Script.all_call rfl
    | apply Script.all_bind
    | apply Script.all_loop
    | apply Script.all_ite
    | intro _

theorem pickPhysicalDevice_step_noRenderPass (env : InitEnv) (app : App) :
    Script.All (fun op => op.createsRenderPass = false) (App.pickPhysicalDevice env app) := by
  simp only [App.pickPhysicalDevice, readFile, createShaderModule, createImage, createBuffer,
    copyBuffer, createStagedBuffer, Script.bind_eq, script_pure_eq]
  repeat' first
    | exact Script.all_pure _
    | exact Script.all_lift _
    | exact Script.all_create _ rfl
    | exact Script.all_call rfl
    | apply Script.all_bind
    | apply Script.all_loop
    | apply Script.all_ite
    | intro _

theorem createLogicalDevice_noRenderPass (env : InitEnv) (app : App) :
    Script.All (fun op => op.createsRenderPass = false) (createLogicalDevice env app) := by
  simp only [createLogicalDevice, readFile, createShaderModule, createImage, createBuffer,
    copyBuffer, createStagedBuffer, Script.bind_eq, script_pure_eq]
  repeat' first
    | exact Script.all_pure _
    | exact Script.all_lift _
    | exact Script.all_create _ rfl
    | exact Script.all_call rfl
    | apply Script.all_bind
    | apply Script.all_loop
    | apply Script.all_ite
    | intro _

theorem createSwapChain_noRenderPass (env : InitEnv) (app : App) :
    Script.All (fun op => op.createsRenderPass = false) (createSwapChain env app) := by
  simp only [createSwapChain, readFile, createShaderModule, createImage, createBuffer,
    copyBuffer, createStagedBuffer, Script.bind_eq, script_pure_eq]
  repeat' first
    | exact Script.all_pure _
    | exact Script.all_lift _
    | exact Script.all_create _ rfl
    | exact Script.all_call rfl
    | apply Script.all_bind
    | apply Script.all_loop
    | apply Script.all_ite
    | intro _

theorem createImageViews_noRenderPass (env : InitEnv) (app : App) :
    Script.All (fun op => op.createsRenderPass = false) (createImageViews env app) := by
  simp only [createImageViews, readFile, createShaderModule, createImage, createBuffer,
    copyBuffer, createStagedBuffer, Script.bind_eq, script_pure_eq]
  repeat' first
    | exact Script.all_pure _
    | exact Script.all_lift _
    | exact Script.all_create _ rfl
    | exact Script.all_call rfl
    | apply Script.all_bind
    | apply Script.all_loop
    | apply Script.all_ite
    | intro _


/-! ## The structure of `run` -/

theorem Script.bind_assoc {α β γ : Type} (m : Script α) (f : α → Script β) (g : β → Script γ) :
    Script.bind (Script.bind m f) g = Script.bind m fun a => Script.bind (f a) g := by
  obtain ⟨ops, r⟩ := m
  cases r with
  | error e => rfl
  | ok a =>
    simp only [Script.bind_ok]
    obtain ⟨ops', r'⟩ := f a
    cases r' with
    | error e => simp [Script.bind]
    | ok b => simp [Script.bind]

theorem Script.all_nil {α : Type} {P : Op → Prop} (x : Except String α) :
    Script.All P (([], x) : Script α) := by
  intro op hop
  simp at hop

theorem run_eq (env : InitEnv) (frames : List FrameEnv) (app : App) :
    run env frames app =
      Script.bind (setup env app) fun app1 =>
        Script.bind (app1.mainLoop frames) fun app2 =>
          Script.bind (Script.calls (cleanup env app2)) fun _ => Script.pure app2 := by
  simp only [run, setup, Script.bind_eq, script_pure_eq, Script.bind_assoc]

theorem run_of_setup_error {env : InitEnv} {app : App} {e : String} (frames : List FrameEnv)
    (h : (setup env app).2 = .error e) : run env frames app = ((setup env app).1, .error e) := by
  rw [run_eq, Script.bind_of_error h]

theorem run_of_mainLoop_ok {env : InitEnv} {frames : List FrameEnv} {app app1 app2 : App}
    (hs : (setup env app).2 = .ok app1) (hl : (app1.mainLoop frames).2 = .ok app2) :
    run env frames app =
      ((setup env app).1 ++ ((app1.mainLoop frames).1 ++ cleanup env app2), .ok app2) := by
  rw [run_eq, Script.bind_of_ok hs, Script.bind_of_ok hl]
  simp [Script.bind, Script.calls, Script.pure]

theorem setup_without_renderPass {env : InitEnv} {e : String}
    (hrp : ∀ app, createRenderPass env app = ([], .error e)) (app : App) :
    Script.All (fun op => op.createsRenderPass = false) (setup env app) ∧
      ∀ app1, (setup env app).2 ≠ .ok app1 := by
  simp only [setup, initVulkan, Script.bind_eq, script_pure_eq, hrp, Script.bind_error]
  constructor
  · refine Script.all_bind (initWindow_noRenderPass _ _) fun _ => ?_
    refine Script.all_bind (loadTrigrams_step_noRenderPass _ _) fun _ => ?_
    refine Script.all_bind (createInstance_noRenderPass _ _) fun _ => ?_
    refine Script.all_bind (setupDebugMessenger_noRenderPass _ _) fun _ => ?_
    refine Script.all_bind (createSurface_noRenderPass _ _) fun _ => ?_
    refine Script.all_bind (pickPhysicalDevice_step_noRenderPass _ _) fun _ => ?_
    refine Script.all_bind (createLogicalDevice_noRenderPass _ _) fun _ => ?_
    refine Script.all_bind (createSwapChain_noRenderPass _ _) fun _ => ?_
    refine Script.all_bind (createImageViews_noRenderPass _ _) fun _ => ?_
    exact Script.all_nil _
  · intro app1 h
    iterate 9 obtain ⟨_, _, h, _⟩ := Script.bind_ok_inv h
    simp at h

/-- C16: on a device that supports none of the three depth candidates `findDepthFormat`
throws "failed to find supported format!" and `createRenderPass` throws it without a call:
`vkCreateRenderPass` is not called.  In `run` as a whole no call of `vkCreateRenderPass` is
made, the render pass is not among the resources left alive, and `run` throws. -/
theorem createRenderPass_no_depth_format (env : InitEnv) (frames : List FrameEnv) (app : App)
    (h32 : depthSupported env.formatProperties .VK_FORMAT_D32_SFLOAT = false)
    (h32s8 : depthSupported env.formatProperties .VK_FORMAT_D32_SFLOAT_S8_UINT = false)
    (h24s8 : depthSupported env.formatProperties .VK_FORMAT_D24_UNORM_S8_UINT = false) :
    findDepthFormat env.formatProperties = .error "failed to find supported format!" ∧
    createRenderPass env app = ([], .error "failed to find supported format!") ∧
    (∀ result, Op.create .renderPass result ∉ (run env frames app).1) ∧
    Resource.renderPass ∉ live (run env frames app).1 ∧
    ∃ e, (run env frames app).2 = .error e := by
  have hfind : findDepthFormat env.formatProperties = .error "failed to find supported format!" := by
    rw [findDepthFormat_eq, h32, h32s8, h24s8]; simp
  have hrp : ∀ app, createRenderPass env app = ([], .error "failed to find supported format!") := by
    intro app
    simp only [createRenderPass, hfind, Script.bind_eq, Script.lift, Script.bind_error]
  obtain ⟨hall, hnot⟩ := setup_without_renderPass hrp app
  have hcalls : ∀ result, Op.create .renderPass result ∉ (run env frames app).1 := by
    intro result hmem
    cases hs : (setup env app).2 with
    | ok app1 => exact hnot app1 hs
    | error e =>
      rw [run_of_setup_error frames hs] at hmem
      simpa [Op.createsRenderPass] using hall _ hmem
  refine ⟨hfind, hrp app, hcalls, ?_, ?_⟩
  · intro hlive
    have hc : Resource.renderPass ∈ created (run env frames app).1 := (List.mem_filter.1 hlive).1
    obtain ⟨op, hop, hcr⟩ := List.mem_filterMap.1 hc
    cases op with
    | create r result =>
      cases result <;> simp only [Op.created, Option.some.injEq, reduceCtorEq] at hcr
      subst hcr
      exact hcalls _ hop
    | createSwapchain c x result => cases result <;> simp [Op.created] at hcr
    | destroy r => simp [Op.created] at hcr
    | frame c => simp [Op.created] at hcr
  · cases hs : (setup env app).2 with
    | ok app1 => exact absurd hs (hnot app1)
    | error e => exact ⟨e, by rw [run_of_setup_error frames hs]⟩

/-- Witness of `createRenderPass_no_depth_format`: a platform whose format table is empty. -/
theorem createRenderPass_no_depth_format_witness :
    createRenderPass InitEnv.noDepthFormat (App.parsed "t.json") =
        ([], .error "failed to find supported format!") ∧
      (∀ result, Op.create .renderPass result ∉
        (run InitEnv.noDepthFormat [] (App.parsed "t.json")).1) ∧
      Resource.renderPass ∉ live (run InitEnv.noDepthFormat [] (App.parsed "t.json")).1 ∧
      ∃ e, (run InitEnv.noDepthFormat [] (App.parsed "t.json")).2 = .error e :=
  (createRenderPass_no_depth_format InitEnv.noDepthFormat [] (App.parsed "t.json")
    rfl rfl rfl).2

/-! ## Creation and destruction: claims C11 and C12 -/

theorem filterMap_destroyed_create (f : ℕ → Resource) (result : VkResult) (l : List ℕ) :
    l.filterMap (Op.destroyed ∘ fun i => Op.create (f i) result) = [] := by
  induction l with
  | nil => rfl
  | cons a l ih => simp [Op.destroyed]

theorem filterMap_created_create (f : ℕ → Resource) (l : List ℕ) :
    l.filterMap (Op.created ∘ fun i => Op.create (f i) .VK_SUCCESS) = l.map f := by
  induction l with
  | nil => rfl
  | cons a l ih => simpa [Op.created] using ih

theorem filterMap_destroyed_destroy (f : ℕ → Resource) (l : List ℕ) :
    l.filterMap (Op.destroyed ∘ fun i => Op.destroy (f i)) = l.map f := by
  induction l with
  | nil => rfl
  | cons a l ih => simpa [Op.destroyed] using ih

theorem filter_map_of_forall (p : Resource → Bool) (f : ℕ → Resource) (l : List ℕ)
    (h : ∀ i, p (f i) = true) : (l.map f).filter p = l.map f := by
  induction l with
  | nil => rfl
  | cons a l ih => simp [List.filter_cons, h a, ih]

theorem destroyed_setupOps (v : Bool) (c n : ℕ) : destroyed (setupOps v c n) =
    [.shaderModule .frag, .shaderModule .vert, .copyCommandBuffer .vertexBuffer,
      .stagingBuffer .vertexBuffer, .stagingBufferMemory .vertexBuffer,
      .copyCommandBuffer .indexBuffer, .stagingBuffer .indexBuffer,
      .stagingBufferMemory .indexBuffer] := by
  cases v <;> simp [destroyed, setupOps, Op.destroyed, List.filterMap_append,
    filterMap_destroyed_create]

theorem live_setupOps (v : Bool) (c n : ℕ) : live (setupOps v c n) = liveResources v n := by
  rw [live, destroyed_setupOps]
  cases v <;> simp [created, setupOps, Op.created, List.filterMap_append,
    filterMap_created_create, liveResources, filter_map_of_forall]

theorem destroyed_cleanup (env : InitEnv) (app : App) :
    destroyed (cleanup env app) =
      [.renderFinishedSemaphore 0, .imageAvailableSemaphore 0, .inFlightFence 0,
        .renderFinishedSemaphore 1, .imageAvailableSemaphore 1, .inFlightFence 1, .commandPool]
      ++ (List.range app.swapChainFramebuffers).map Resource.swapChainFramebuffer
      ++ [.graphicsPipeline, .pipelineLayout, .renderPass]
      ++ (List.range app.swapChainImageViews).map Resource.swapChainImageView
      ++ [.swapChain, .uniformBuffer 0, .uniformBufferMemory 0, .uniformBuffer 1,
          .uniformBufferMemory 1, .descriptorPool, .descriptorSetLayout,
          .buffer .instanceBuffer, .bufferMemory .instanceBuffer, .buffer .indexBuffer,
          .bufferMemory .indexBuffer, .buffer .vertexBuffer, .bufferMemory .vertexBuffer,
          .depthImageView, .depthImage, .depthImageMemory, .device]
      ++ (if env.enableValidationLayers then [.debugMessenger] else [])
      ++ [.surface, .vkInstance, .window, .glfw] := by
  cases h : env.enableValidationLayers <;>
    simp [destroyed, cleanup, Op.destroyed, List.filterMap_append, filterMap_destroyed_destroy,
      MAX_FRAMES_IN_FLIGHT, List.range_succ, h]

theorem filter_liveResources (v : Bool) (n : ℕ) :
    (liveResources v n).filter (fun r => !r.poolAllocated) =
      [.glfw, .window, .vkInstance] ++ (if v then [.debugMessenger] else [])
      ++ [.surface, .device, .swapChain]
      ++ (List.range n).map Resource.swapChainImageView
      ++ [.renderPass, .descriptorSetLayout, .pipelineLayout, .graphicsPipeline, .depthImage,
          .depthImageMemory, .depthImageView]
      ++ (List.range n).map Resource.swapChainFramebuffer
      ++ [.commandPool, .buffer .vertexBuffer, .bufferMemory .vertexBuffer, .buffer .indexBuffer,
          .bufferMemory .indexBuffer, .buffer .instanceBuffer, .bufferMemory .instanceBuffer,
          .uniformBuffer 0, .uniformBufferMemory 0, .uniformBuffer 1, .uniformBufferMemory 1,
          .descriptorPool,
          .imageAvailableSemaphore 0, .renderFinishedSemaphore 0, .inFlightFence 0,
          .imageAvailableSemaphore 1, .renderFinishedSemaphore 1, .inFlightFence 1] := by
  have hiv : ∀ l : List ℕ,
      (l.map Resource.swapChainImageView).filter (fun r => !r.poolAllocated) =
        l.map Resource.swapChainImageView := fun l => filter_map_of_forall _ _ l fun _ => rfl
  have hfb : ∀ l : List ℕ,
      (l.map Resource.swapChainFramebuffer).filter (fun r => !r.poolAllocated) =
        l.map Resource.swapChainFramebuffer := fun l => filter_map_of_forall _ _ l fun _ => rfl
  cases v <;>
    simp only [liveResources, List.filter_append, hiv, hfb, if_true, if_false,
      List.append_nil, Bool.false_eq_true] <;> rfl

theorem cleanup_perm_core (v : Bool) (iv fb : List Resource) :
    List.Perm
      ([.renderFinishedSemaphore 0, .imageAvailableSemaphore 0, .inFlightFence 0,
        .renderFinishedSemaphore 1, .imageAvailableSemaphore 1, .inFlightFence 1, .commandPool]
      ++ fb
      ++ [.graphicsPipeline, .pipelineLayout, .renderPass]
      ++ iv
      ++ [.swapChain, .uniformBuffer 0, .uniformBufferMemory 0, .uniformBuffer 1,
          .uniformBufferMemory 1, .descriptorPool, .descriptorSetLayout,
          .buffer .instanceBuffer, .bufferMemory .instanceBuffer, .buffer .indexBuffer,
          .bufferMemory .indexBuffer, .buffer .vertexBuffer, .bufferMemory .vertexBuffer,
          .depthImageView, .depthImage, .depthImageMemory, .device]
      ++ (if v then [.debugMessenger] else [])
      ++ [.surface, .vkInstance, .window, .glfw])
      ([.glfw, .window, .vkInstance] ++ (if v then [.debugMessenger] else [])
      ++ [.surface, .device, .swapChain]
      ++ iv
      ++ [.renderPass, .descriptorSetLayout, .pipelineLayout, .graphicsPipeline, .depthImage,
          .depthImageMemory, .depthImageView]
      ++ fb
      ++ [.commandPool, .buffer .vertexBuffer, .bufferMemory .vertexBuffer, .buffer .indexBuffer,
          .bufferMemory .indexBuffer, .buffer .instanceBuffer, .bufferMemory .instanceBuffer,
          .uniformBuffer 0, .uniformBufferMemory 0, .uniformBuffer 1, .uniformBufferMemory 1,
          .descriptorPool,
          .imageAvailableSemaphore 0, .renderFinishedSemaphore 0, .inFlightFence 0,
          .imageAvailableSemaphore 1, .renderFinishedSemaphore 1, .inFlightFence 1]) := by
  rw [List.perm_iff_count]
  intro r
  simp only [List.count_append, List.count_cons, List.count_nil]
  omega

theorem cleanup_perm (env : InitEnv) (app : App) (n : ℕ) (hv : app.swapChainImageViews = n)
    (hf : app.swapChainFramebuffers = n) :
    List.Perm (destroyed (cleanup env app))
      ((liveResources env.enableValidationLayers n).filter fun r => !r.poolAllocated) := by
  rw [destroyed_cleanup, hv, hf, filter_liveResources]
  exact cleanup_perm_core _ _ _

theorem mainLoop_step_of_ok {frames : List FrameEnv} {app app' : App}
    (h : (app.mainLoop frames).2 = .ok app') :
    (app.mainLoop frames).1 = (FCube.mainLoop frames app.viewer).1.map Op.frame ∧
      ∃ viewer, app' = { app with viewer := viewer } := by
  unfold App.mainLoop at h ⊢
  rcases hm : FCube.mainLoop frames app.viewer with ⟨calls, r⟩
  rw [hm] at h
  cases r with
  | error e => simp at h
  | ok viewer =>
    simp only [Except.ok.injEq] at h
    exact ⟨rfl, viewer, h.symm⟩

theorem run_ok_inv {env : InitEnv} {frames : List FrameEnv} {app app' : App}
    (h : (run env frames app).2 = .ok app') :
    ∃ app1, (setup env app).2 = .ok app1 ∧ (app1.mainLoop frames).2 = .ok app' := by
  rw [run_eq] at h
  obtain ⟨app1, hs, h, _⟩ := Script.bind_ok_inv h
  obtain ⟨app2, hl, h, _⟩ := Script.bind_ok_inv h
  simp only [Script.bind, Script.calls, Script.pure, Except.ok.injEq] at h
  subst h
  exact ⟨app1, hs, hl⟩

/-- C12, as the claim states it, fails: on a platform where every call succeeds (two swapchain
images, no validation layers) `run` returns, and the sequence of resource kinds `cleanup`
destroys is not the reverse of the sequence of kinds set-up created, whether the temporaries
set-up destroyed itself are counted or not.  The command pool, for one, is created before
the vertex buffer and is also destroyed before it. -/
theorem cleanup_order_counterexample :
    ∃ app', (run (InitEnv.allSuccess false 2 []) [] (App.parsed "t.json")).2 = .ok app' ∧
      kinds (destroyed (cleanup (InitEnv.allSuccess false 2 []) app')) ≠
        (kinds (created (setup (InitEnv.allSuccess false 2 []) (App.parsed "t.json")).1)).reverse ∧
      kinds (destroyed (cleanup (InitEnv.allSuccess false 2 []) app')) ≠
        (kinds (live (setup (InitEnv.allSuccess false 2 []) (App.parsed "t.json")).1)).reverse ∧
      (created (setup (InitEnv.allSuccess false 2 []) (App.parsed "t.json")).1).indexOf
          Resource.commandPool <
        (created (setup (InitEnv.allSuccess false 2 []) (App.parsed "t.json")).1).indexOf
          (Resource.buffer .vertexBuffer) ∧
      (destroyed (cleanup (InitEnv.allSuccess false 2 []) app')).indexOf Resource.commandPool <
        (destroyed (cleanup (InitEnv.allSuccess false 2 []) app')).indexOf
          (Resource.buffer .vertexBuffer) :=
  ⟨_, rfl, by decide, by decide, by decide, by decide⟩

/-- C12, amended: when every call of set-up succeeds and `run` returns, the calls of `run` are
those of set-up, those of the frame loop and those of `cleanup`, and `cleanup` destroys
exactly the resources that `initWindow` and `initVulkan` left alive, each once, except the
descriptor sets and the command buffers, which are released with their pools: the sequence
destroyed is a permutation of the sequence left alive, not its reverse.  The objects made
from the device come first, then the device, the debug messenger if there is one, the
surface, the instance, the window and GLFW. -/
theorem cleanup_destroys_live (env : InitEnv) (frames : List FrameEnv) (app app' : App)
    (hres : ∀ r, env.result r = .VK_SUCCESS) (hrun : (run env frames app).2 = .ok app') :
    (∃ calls : List Call, (run env frames app).1 =
      (setup env app).1 ++ (calls.map Op.frame ++ cleanup env app')) ∧
    List.Perm (destroyed (cleanup env app'))
      ((live (setup env app).1).filter fun r => !r.poolAllocated) ∧
    (destroyed (cleanup env app')).Nodup ∧
    ∃ deviceObjects, destroyed (cleanup env app') =
      deviceObjects ++ [.device]
        ++ (if env.enableValidationLayers then [.debugMessenger] else [])
        ++ [.surface, .vkInstance, .window, .glfw] := by
  obtain ⟨app1, hs, hl⟩ := run_ok_inv hrun
  obtain ⟨hops, hviews, hframebuffers, _⟩ := setup_of_ok hres hs
  obtain ⟨hcalls, viewer, happ⟩ := mainLoop_step_of_ok hl
  have hv : app'.swapChainImageViews = env.swapChainImages := by rw [happ]; exact hviews
  have hf : app'.swapChainFramebuffers = env.swapChainImages := by rw [happ]; exact hframebuffers
  have hperm := cleanup_perm env app' env.swapChainImages hv hf
  refine ⟨⟨(FCube.mainLoop frames app1.viewer).1, ?_⟩, ?_, ?_, ?_⟩
  · rw [run_of_mainLoop_ok hs hl, hcalls]
  · rw [hops, live_setupOps]; exact hperm
  · rw [destroyed_cleanup, hv, hf]
    have hfb : Function.Injective Resource.swapChainFramebuffer := fun a b h => by cases h; rfl
    have hiv : Function.Injective Resource.swapChainImageView := fun a b h => by cases h; rfl
    cases env.enableValidationLayers <;>
      simp [List.nodup_append, List.nodup_cons, List.nodup_map_iff hfb,
        List.nodup_map_iff hiv, List.nodup_range, List.disjoint_left]
  · rw [destroyed_cleanup]
    refine ⟨[.renderFinishedSemaphore 0, .imageAvailableSemaphore 0, .inFlightFence 0,
        .renderFinishedSemaphore 1, .imageAvailableSemaphore 1, .inFlightFence 1, .commandPool]
      ++ (List.range app'.swapChainFramebuffers).map Resource.swapChainFramebuffer
      ++ [.graphicsPipeline, .pipelineLayout, .renderPass]
      ++ (List.range app'.swapChainImageViews).map Resource.swapChainImageView
      ++ [.swapChain, .uniformBuffer 0, .uniformBufferMemory 0, .uniformBuffer 1,
          .uniformBufferMemory 1, .descriptorPool, .descriptorSetLayout,
          .buffer .instanceBuffer, .bufferMemory .instanceBuffer, .buffer .indexBuffer,
          .bufferMemory .indexBuffer, .buffer .vertexBuffer, .bufferMemory .vertexBuffer,
          .depthImageView, .depthImage, .depthImageMemory], ?_⟩
    simp

/-- Witness of `cleanup_destroys_live`: a run without frames on a platform where every call
succeeds. -/
theorem cleanup_destroys_live_witness :
    List.Perm (destroyed (cleanup (InitEnv.allSuccess true 2 []) (App.afterSetup "t.json" 2)))
      ((live (setup (InitEnv.allSuccess true 2 []) (App.parsed "t.json")).1).filter
        fun r => !r.poolAllocated) :=
  (cleanup_destroys_live (InitEnv.allSuccess true 2 []) [] (App.parsed "t.json")
    (App.afterSetup "t.json" 2) (fun _ => rfl) rfl).2.1

/-! ## The command line of `main` and the recorded commands: claims C18 and C19 -/

theorem mem_assign {p : ArgParser} {name n : String} {v o : ArgParser.option}
    (h : (n, o) ∈ (p.assign name v).options_) : n = name ∨ (n, o) ∈ p.options_ := by
  unfold ArgParser.assign at h
  split at h
  · simp only [List.mem_map] at h
    obtain ⟨e, he, heq⟩ := h
    by_cases hk : e.1 = name
    · rw [if_pos hk] at heq
      left; exact (congrArg Prod.fst heq).symm
    · rw [if_neg hk] at heq
      right; rw [← heq]; exact he
  · simp only [List.mem_append, List.mem_singleton] at h
    rcases h with h | h
    · right; exact h
    · left; exact congrArg Prod.fst h

theorem parseArgs_unknown (tokens : List String) :
    ∀ (p : ArgParser) (t : String), t ∈ tokens → t.toList.head? = some '-' → t.length > 1 →
      (∀ o, (t, o) ∉ p.options_) → ∃ e, ArgParser.parseArgs tokens p = .error e := by
  obtain ⟨n, hn⟩ : ∃ n, tokens.length = n := ⟨_, rfl⟩
  induction n using Nat.strong_induction_on generalizing tokens with
  | _ n ih =>
    intro p t hmem hhead hlen hunknown
    cases tokens with
    | nil => cases hmem
    | cons arg rest =>
      rw [ArgParser.parseArgs]
      by_cases hdash : arg.toList.take 2 = ['-', '-']
      · rw [if_pos hdash]
        cases hf : p.find arg with
        | none => exact ⟨_, rfl⟩
        | some opt =>
          cases rest with
          | nil => exact ⟨_, rfl⟩
          | cons next rest' =>
            simp only
            by_cases hv : next.toList.head? ≠ some '-'
            · rw [if_pos hv]
              have hne : t ≠ arg := by
                rintro rfl
                exact hunknown opt (mem_of_find hf)
              have hin : t ∈ rest' := by
                rcases List.mem_cons.1 hmem with h | h
                · exact absurd h hne
                · rcases List.mem_cons.1 h with h | h
                  · subst h; exact absurd hhead hv
                  · exact h
              refine ih rest'.length (by rw [← hn]; simp; omega) rest' rfl _ t hin hhead hlen ?_
              intro o ho
              rcases mem_assign ho with h | h
              · exact hne h
              · exact hunknown o h
            · rw [if_neg hv]; exact ⟨_, rfl⟩
      · rw [if_neg hdash]
        by_cases hshort : arg.toList.head? = some '-' ∧ arg.length > 1
        · rw [if_pos hshort]; exact ⟨_, rfl⟩
        · rw [if_neg hshort]
          have hin : t ∈ rest := by
            rcases List.mem_cons.1 hmem with h | h
            · subst h; exact absurd ⟨hhead, hlen⟩ hshort
            · exact h
          exact ih rest.length (by rw [← hn]; simp) rest rfl _ t hin hhead hlen hunknown

theorem parse_inputfile_missing (argv : List String) (h : "--inputfile" ∉ argv.drop 1) :
    ∃ e, (ArgParser.empty.add_option "--inputfile" "JSON file with trigram data" true).parse
      argv = .error e := by
  unfold ArgParser.parse
  cases hscan : ArgParser.parseArgs (argv.drop 1)
      (ArgParser.empty.add_option "--inputfile" "JSON file with trigram data" true) with
  | error e => exact ⟨e, rfl⟩
  | ok p' =>
    have hkeep := parseArgs_keeps (argv.drop 1) _ p' "--inputfile"
      { description := "JSON file with trigram data", value := "", has_value := false,
        required := true } hscan (by simp [ArgParser.add_option, ArgParser.assign,
          ArgParser.empty]) (fun hsup => h hsup.1)
    obtain ⟨missing, hm⟩ := checkRequired_missing p'.options_ _ _ hkeep rfl rfl
    exact ⟨"Required option missing: " ++ missing, by simp only [hm]⟩

theorem parse_unknown_option (argv : List String) (t : String) (hmem : t ∈ argv.drop 1)
    (hhead : t.toList.head? = some '-') (hlen : t.length > 1) (hne : t ≠ "--inputfile") :
    ∃ e, (ArgParser.empty.add_option "--inputfile" "JSON file with trigram data" true).parse
      argv = .error e := by
  obtain ⟨e, he⟩ := parseArgs_unknown (argv.drop 1)
    (ArgParser.empty.add_option "--inputfile" "JSON file with trigram data" true) t hmem hhead
    hlen (by
      intro o ho
      simp [ArgParser.add_option, ArgParser.assign, ArgParser.empty] at ho
      exact hne ho.1)
  exact ⟨e, by rw [ArgParser.parse, he]⟩

theorem main_of_run_error {env : InitEnv} {frames : List FrameEnv} {argv : List String}
    {args_ : ArgParser} {e : String}
    (hparse : (ArgParser.empty.add_option "--inputfile" "JSON file with trigram data" true).parse
      argv = .ok args_)
    (hrun : (run env frames { App.initial with args_ := args_ }).2 = .error e) :
    main env frames argv =
      ((run env frames { App.initial with args_ := args_ }).1, .exit EXIT_FAILURE [e]) := by
  unfold main
  simp only [hparse]
  rcases hr : run env frames { App.initial with args_ := args_ } with ⟨ops, r⟩
  rw [hr] at hrun
  simp only at hrun
  subst hrun
  rfl

/-- C19: evaluation of `main` on a command line that holds an unknown option (a token after
the program name that begins with a dash, has more than one character and is not
`--inputfile`) or does not hold the required option `--inputfile`.  `parse` throws before
`run` is entered, so no call of window or graphics set-up is made; but `parse` is called
outside the `try` block, so the exception leaves `main`: `main` returns no exit status,
neither `EXIT_FAILURE` nor another, and writes no diagnostic to `std::cerr`, where an exit
with a non-zero status and a diagnostic is asked for.  An exception of `run`, by contrast, is
caught: its message is written to `std::cerr` and `EXIT_FAILURE` is returned. -/
theorem main_rejects_command_line (env : InitEnv) (frames : List FrameEnv) (argv : List String)
    (h : (∃ t ∈ argv.drop 1, t.toList.head? = some '-' ∧ t.length > 1 ∧ t ≠ "--inputfile") ∨
      "--inputfile" ∉ argv.drop 1) :
    (∃ e, (ArgParser.empty.add_option "--inputfile" "JSON file with trigram data" true).parse
        argv = .error e ∧
      main env frames argv = ([], .uncaught e)) ∧
    (main env frames argv).1 = [] ∧
    (∀ status cerr, (main env frames argv).2 ≠ .exit status cerr) ∧
    (∀ (argv' : List String) (args_ : ArgParser) (e : String),
      (ArgParser.empty.add_option "--inputfile" "JSON file with trigram data" true).parse
        argv' = .ok args_ →
      (run env frames { App.initial with args_ := args_ }).2 = .error e →
      (main env frames argv').2 = .exit EXIT_FAILURE [e]) := by
  have hparse : ∃ e,
      (ArgParser.empty.add_option "--inputfile" "JSON file with trigram data" true).parse argv =
        .error e := by
    rcases h with ⟨t, hmem, hhead, hlen, hne⟩ | h
    · exact parse_unknown_option argv t hmem hhead hlen hne
    · exact parse_inputfile_missing argv h
  obtain ⟨e, he⟩ := hparse
  have hmain : main env frames argv = ([], .uncaught e) := by
    unfold main
    simp only [he]
  refine ⟨⟨e, he, hmain⟩, by rw [hmain], fun status cerr => by rw [hmain]; simp,
    fun argv' args_ e' hp hr => by rw [main_of_run_error hp hr]⟩

/-- Witness of `main_rejects_command_line`: a command line that names the input file and
then holds the unknown option `--verbose`; the exception "Unknown option: --verbose" leaves
`main`. -/
theorem main_rejects_command_line_witness :
    main (InitEnv.allSuccess false 2 []) [] ["fcube", "--inputfile", "t.json", "--verbose"] =
        ([], .uncaught "Unknown option: --verbose") ∧
    ∀ status cerr, (main (InitEnv.allSuccess false 2 []) [] ["fcube", "--inputfile", "t.json",
      "--verbose"]).2 ≠ .exit status cerr :=
  ⟨rfl, (main_rejects_command_line (InitEnv.allSuccess false 2 []) []
    ["fcube", "--inputfile", "t.json", "--verbose"]
    (Or.inl ⟨"--verbose", by decide, by decide, by decide, by decide⟩)).2.2.1⟩

/-- C18: for every image index and every command buffer, in a viewer whose voxels were loaded
by `loadTrigrams` (fewer than `2 ^ 32` of them, the count being passed as a `uint32_t`) and
whose extent was chosen by `chooseSwapExtent`, a `recordCommandBuffer` whose
`vkBeginCommandBuffer` succeeds records exactly: begin render pass on framebuffer
`imageIndex` over the 800 x 600 extent with clear colour `(0, 0, 0, 1)` and clear depth `1.0`,
bind pipeline, set viewport and scissor to that extent, bind the vertex and the instance
buffer in one call, bind the index buffer, bind the descriptor set of the current frame, one
indexed draw with index count `36` and instance count the number of loaded voxels, end
render pass; then `vkEndCommandBuffer` is called.  When `vkBeginCommandBuffer` fails nothing
is recorded and `recordCommandBuffer` throws. -/
theorem recordCommandBuffer_sequence (env : FrameEnv) (filename : String)
    (records : List Voxel) (s0 s1 : Viewer) (capabilities : SurfaceCapabilities)
    (currentFrame commandBuffer imageIndex : ℕ)
    (hload : loadTrigrams filename (some records) s0 = .ok s1)
    (hcount : records.length < 2 ^ 32) :
    (env.beginCommandBuffer = .VK_SUCCESS →
      (recordCommandBuffer env
        { s1 with
          currentFrame := currentFrame
          swapChainExtent := chooseSwapExtent capabilities } commandBuffer imageIndex).1 =
        [Call.beginCommandBuffer commandBuffer .VK_SUCCESS,
          Call.cmd commandBuffer
            (.beginRenderPass imageIndex { width := 800, height := 600 } [0, 0, 0, 1] 1 0),
          Call.cmd commandBuffer .bindPipeline,
          Call.cmd commandBuffer (.setViewport 0 0 800 600 0 1),
          Call.cmd commandBuffer (.setScissor 0 0 { width := 800, height := 600 }),
          Call.cmd commandBuffer (.bindVertexBuffers 0 [.vertexBuffer, .instanceBuffer] [0, 0]),
          Call.cmd commandBuffer (.bindIndexBuffer .indexBuffer 0),
          Call.cmd commandBuffer (.bindDescriptorSets 0 currentFrame),
          Call.cmd commandBuffer (.drawIndexed 36 records.length 0 0 0),
          Call.cmd commandBuffer .endRenderPass,
          Call.endCommandBuffer commandBuffer env.endCommandBuffer]) ∧
    (env.beginCommandBuffer ≠ .VK_SUCCESS →
      recordCommandBuffer env
        { s1 with
          currentFrame := currentFrame
          swapChainExtent := chooseSwapExtent capabilities } commandBuffer imageIndex =
        ([Call.beginCommandBuffer commandBuffer env.beginCommandBuffer],
          .error "failed to begin recording command buffer!")) := by
  rw [loadTrigrams_some] at hload
  simp only [Except.ok.injEq] at hload
  subst hload
  have hw : f32ofInt ((800 : ℕ) : ℤ) = 800 := by
    rw [f32ofInt_exact _ (by norm_num)]; norm_num
  have hh : f32ofInt ((600 : ℕ) : ℤ) = 600 := by
    rw [f32ofInt_exact _ (by norm_num)]; norm_num
  constructor
  · intro hbegin
    simp only [recordCommandBuffer, recordedCommands, hbegin, chooseSwapExtent, WINDOW_WIDTH,
      WINDOW_HEIGHT, hw, hh, cubeIndices, List.length_map, Nat.mod_eq_of_lt hcount]
    split
    · rename_i h; exact absurd rfl h
    · split <;> rfl
  · intro hbegin
    simp only [recordCommandBuffer, if_pos hbegin]

/-- Witness of `recordCommandBuffer_sequence`: two voxels loaded, frame slot 1, image 1. -/
theorem recordCommandBuffer_sequence_witness :
    (recordCommandBuffer (FrameEnv.allSuccess 1)
      { ({ Viewer.initial with
            voxels := [⟨0, 0, 0, 1⟩, ⟨1, 0, 0, 2⟩]
            instanceData := [(⟨0, 0, 0, 1⟩ : Voxel), ⟨1, 0, 0, 2⟩].map
              (mkInstance (maxCount [⟨0, 0, 0, 1⟩, ⟨1, 0, 0, 2⟩])) } : Viewer) with
        currentFrame := 1
        swapChainExtent := chooseSwapExtent { minImageCount := 2, maxImageCount := 3 } } 1 1).1 =
      [Call.beginCommandBuffer 1 .VK_SUCCESS,
        Call.cmd 1 (.beginRenderPass 1 { width := 800, height := 600 } [0, 0, 0, 1] 1 0),
        Call.cmd 1 .bindPipeline,
        Call.cmd 1 (.setViewport 0 0 800 600 0 1),
        Call.cmd 1 (.setScissor 0 0 { width := 800, height := 600 }),
        Call.cmd 1 (.bindVertexBuffers 0 [.vertexBuffer, .instanceBuffer] [0, 0]),
        Call.cmd 1 (.bindIndexBuffer .indexBuffer 0),
        Call.cmd 1 (.bindDescriptorSets 0 1),
        Call.cmd 1 (.drawIndexed 36 2 0 0 0),
        Call.cmd 1 .endRenderPass,
        Call.endCommandBuffer 1 .VK_SUCCESS] :=
  (recordCommandBuffer_sequence (FrameEnv.allSuccess 1) "t.json"
    [⟨0, 0, 0, 1⟩, ⟨1, 0, 0, 2⟩] Viewer.initial _ { minImageCount := 2, maxImageCount := 3 }
    1 1 1 (loadTrigrams_some _ _ _) (by decide)).1 rfl

/-! ## The option parser: lemmas on the table and on the scan -/

theorem lookup_replace_ne (l : List (String × ArgParser.option)) {k t : String}
    (v : ArgParser.option) (h : t ≠ k) :
    (l.map fun e => if e.1 = k then (k, v) else e).lookup t = l.lookup t := by
  induction l with
  | nil => rfl
  | cons e rest ih =>
    obtain ⟨a, b⟩ := e
    by_cases hak : a = k
    · have hta : (t == k) = false := by simpa using h
      simp only [List.map_cons, hak, if_true, List.lookup_cons, hta, ih]
    · by_cases hta : t = a
      · simp [List.lookup_cons, hak, hta]
      · have hb : (t == a) = false := by simpa using hta
        simp only [List.map_cons, hak, if_false, List.lookup_cons, hb, ih]

theorem lookup_replace_self (l : List (String × ArgParser.option)) {k : String}
    (v : ArgParser.option) (h : (l.lookup k).isSome) :
    (l.map fun e => if e.1 = k then (k, v) else e).lookup k = some v := by
  induction l with
  | nil => simp at h
  | cons e rest ih =>
    obtain ⟨a, b⟩ := e
    by_cases hak : a = k
    · simp [List.lookup_cons, hak]
    · have hb : (k == a) = false := by simpa using fun h' : k = a => hak h'.symm
      rw [List.lookup_cons, hb] at h
      simp only [List.map_cons, hak, if_false, List.lookup_cons, hb]
      exact ih h

theorem lookup_append_singleton (l : List (String × ArgParser.option)) (k t : String)
    (v : ArgParser.option) (h : l.lookup k = none) :
    (l ++ [(k, v)]).lookup t = if t = k then some v else l.lookup t := by
  induction l with
  | nil =>
    by_cases htk : t = k
    · simp [List.lookup_cons, htk]
    · have hb : (t == k) = false := by simpa using htk
      simp [List.lookup_cons, htk, hb]
  | cons e rest ih =>
    obtain ⟨a, b⟩ := e
    have hka : (k == a) = false := by
      cases hc : (k == a) with
      | false => rfl
      | true => rw [List.lookup_cons, hc] at h; cases h
    rw [List.lookup_cons, hka] at h
    have hne : k ≠ a := by simpa using hka
    by_cases hta : t = a
    · have htk : t ≠ k := fun h' => hne (h'.symm.trans hta)
      simp [List.lookup_cons, hta, htk, Ne.symm hne]
    · have hb : (t == a) = false := by simpa using hta
      simp only [List.cons_append, List.lookup_cons, hb]
      exact ih h

theorem find_assign (p : ArgParser) (k t : String) (v : ArgParser.option) :
    (p.assign k v).find t = if t = k then some v else p.find t := by
  unfold ArgParser.assign ArgParser.find
  by_cases hk : (p.options_.lookup k).isSome
  · rw [if_pos hk]
    by_cases htk : t = k
    · subst htk
      rw [if_pos rfl]
      exact lookup_replace_self _ v hk
    · rw [if_neg htk]
      exact lookup_replace_ne _ v htk
  · rw [if_neg hk]
    exact lookup_append_singleton _ k t v (Option.not_isSome_iff_eq_none.1 hk)

theorem find_empty (name : String) : ArgParser.empty.find name = none := rfl

theorem assign_positional (p : ArgParser) (k : String) (v : ArgParser.option) :
    (p.assign k v).positional_args_ = p.positional_args_ := by
  unfold ArgParser.assign
  split <;> rfl

theorem head_of_doubleDash {t : String} (h : t.toList.take 2 = ['-', '-']) :
    t.toList.head? = some '-' := by
  cases ht : t.toList with
  | nil => rw [ht] at h; cases h
  | cons a rest =>
    rw [ht] at h
    cases rest with
    | nil => cases h
    | cons b rest' =>
      simp only [List.take_succ_cons, List.take_zero, List.cons.injEq, and_true] at h
      simp [h.1]

theorem parseArgs_ok_induction {motive : List String → ArgParser → ArgParser → Prop}
    (hnil : ∀ p, motive [] p p)
    (hopt : ∀ (arg next : String) (rest : List String) (p p' : ArgParser)
      (opt : ArgParser.option), arg.toList.take 2 = ['-', '-'] → p.find arg = some opt →
      next.toList.head? ≠ some '-' →
      ArgParser.parseArgs rest (p.assign arg { opt with value := next, has_value := true }) =
        .ok p' →
      motive rest (p.assign arg { opt with value := next, has_value := true }) p' →
      motive (arg :: next :: rest) p p')
    (hpos : ∀ (arg : String) (rest : List String) (p p' : ArgParser),
      arg.toList.take 2 ≠ ['-', '-'] → ¬ (arg.toList.head? = some '-' ∧ arg.length > 1) →
      ArgParser.parseArgs rest { p with positional_args_ := p.positional_args_ ++ [arg] } =
        .ok p' →
      motive rest { p with positional_args_ := p.positional_args_ ++ [arg] } p' →
      motive (arg :: rest) p p')
    (tokens : List String) :
    ∀ p p', ArgParser.parseArgs tokens p = .ok p' → motive tokens p p' := by
  obtain ⟨n, hn⟩ : ∃ n, tokens.length = n := ⟨_, rfl⟩
  induction n using Nat.strong_induction_on generalizing tokens with
  | _ n ih =>
    intro p p' hscan
    cases tokens with
    | nil =>
      simp only [ArgParser.parseArgs, Except.ok.injEq] at hscan
      subst hscan; exact hnil p
    | cons arg rest =>
      rw [ArgParser.parseArgs] at hscan
      by_cases hdash : arg.toList.take 2 = ['-', '-']
      · rw [if_pos hdash] at hscan
        cases hf : p.find arg with
        | none => rw [hf] at hscan; cases hscan
        | some opt =>
          rw [hf] at hscan
          cases rest with
          | nil => cases hscan
          | cons next rest' =>
            simp only at hscan
            by_cases hv : next.toList.head? ≠ some '-'
            · rw [if_pos hv] at hscan
              exact hopt arg next rest' p p' opt hdash hf hv hscan
                (ih rest'.length (by rw [← hn]; simp; omega) rest' rfl _ p' hscan)
            · rw [if_neg hv] at hscan; cases hscan
      · rw [if_neg hdash] at hscan
        by_cases hshort : arg.toList.head? = some '-' ∧ arg.length > 1
        · rw [if_pos hshort] at hscan; cases hscan
        · rw [if_neg hshort] at hscan
          exact hpos arg rest p p' hdash hshort hscan
            (ih rest.length (by rw [← hn]; simp) rest rfl _ p' hscan)

theorem parseArgs_append {pre : List String} {p p1 : ArgParser}
    (h : ArgParser.parseArgs pre p = .ok p1) (more : List String) :
    ArgParser.parseArgs (pre ++ more) p = ArgParser.parseArgs more p1 := by
  revert h
  refine parseArgs_ok_induction (motive := fun pre p p1 =>
    ArgParser.parseArgs (pre ++ more) p = ArgParser.parseArgs more p1) ?_ ?_ ?_ pre p p1
  · intro p; rfl
  · intro arg next rest p p' opt hdash hf hv _ ih
    rw [List.cons_append, List.cons_append, ArgParser.parseArgs, if_pos hdash, hf]
    simp only
    rw [if_pos hv]; exact ih
  · intro arg rest p p' hdash hshort _ ih
    rw [List.cons_append, ArgParser.parseArgs, if_neg hdash, if_neg hshort]; exact ih

theorem parseArgs_find_none {tokens : List String} {p p' : ArgParser}
    (h : ArgParser.parseArgs tokens p = .ok p') (t : String) :
    p'.find t = none ↔ p.find t = none := by
  revert h
  refine parseArgs_ok_induction (motive := fun _ p p' => p'.find t = none ↔ p.find t = none)
    ?_ ?_ ?_ tokens p p'
  · intro p; rfl
  · intro arg next rest p p' opt _ hf _ _ ih
    rw [ih, find_assign]
    by_cases hta : t = arg
    · subst hta; simp [hf]
    · rw [if_neg hta]
  · intro arg rest p p' _ _ _ ih
    exact ih

theorem parseArgs_find_of_absent {tokens : List String} {p p' : ArgParser}
    (h : ArgParser.parseArgs tokens p = .ok p') {n : String}
    (hn : ¬ (n ∈ tokens ∧ n.toList.take 2 = ['-', '-'])) : p'.find n = p.find n := by
  revert h hn
  refine parseArgs_ok_induction (motive := fun tokens p p' =>
    ¬ (n ∈ tokens ∧ n.toList.take 2 = ['-', '-']) → p'.find n = p.find n) ?_ ?_ ?_ tokens p p'
  · intro p _; rfl
  · intro arg next rest p p' opt hdash _ _ _ ih hn
    have hne : n ≠ arg := by
      rintro rfl
      exact hn ⟨List.mem_cons_self _ _, hdash⟩
    rw [ih fun h => hn ⟨List.mem_cons_of_mem _ (List.mem_cons_of_mem _ h.1), h.2⟩,
      find_assign, if_neg hne]
  · intro arg rest p p' _ _ _ ih hn
    exact ih fun h => hn ⟨List.mem_cons_of_mem _ h.1, h.2⟩

theorem parseArgs_find_supplied {tokens : List String} {p p' : ArgParser}
    (h : ArgParser.parseArgs tokens p = .ok p') {n : String} (hmem : n ∈ tokens)
    (hdd : n.toList.take 2 = ['-', '-']) :
    ∃ before value after o o', tokens = before ++ n :: value :: after ∧ n ∉ after ∧
      p.find n = some o ∧ p'.find n = some o' ∧ o'.value = value ∧ o'.has_value = true ∧
      o'.description = o.description ∧ o'.required = o.required := by
  revert h hmem
  refine parseArgs_ok_induction (motive := fun tokens p p' => n ∈ tokens →
    ∃ before value after o o', tokens = before ++ n :: value :: after ∧ n ∉ after ∧
      p.find n = some o ∧ p'.find n = some o' ∧ o'.value = value ∧ o'.has_value = true ∧
      o'.description = o.description ∧ o'.required = o.required) ?_ ?_ ?_ tokens p p'
  · intro p hmem; cases hmem
  · intro arg next rest p p' opt hdash hf hv hscan ih hmem
    by_cases hin : n ∈ rest
    · obtain ⟨before, value, after, o, o', ht, hna, ho, ho', h1, h2, h3, h4⟩ := ih hin
      rw [find_assign] at ho
      by_cases hna' : n = arg
      · subst hna'
        rw [if_pos rfl] at ho
        simp only [Option.some.injEq] at ho
        subst ho
        exact ⟨n :: next :: before, value, after, opt, o', by rw [ht]; rfl, hna, hf, ho', h1,
          h2, h3, h4⟩
      · rw [if_neg hna'] at ho
        exact ⟨arg :: next :: before, value, after, o, o', by rw [ht]; rfl, hna, ho, ho', h1,
          h2, h3, h4⟩
    · have hna' : n = arg := by
        rcases List.mem_cons.1 hmem with h | h
        · exact h
        · rcases List.mem_cons.1 h with h | h
          · subst h; exact absurd (head_of_doubleDash hdd) hv
          · exact absurd h hin
      subst hna'
      have hkeep := parseArgs_find_of_absent hscan (n := n) fun h => hin h.1
      rw [find_assign, if_pos rfl] at hkeep
      exact ⟨[], next, rest, opt, _, rfl, hin, hf, hkeep, rfl, rfl, rfl, rfl⟩
  · intro arg rest p p' hdash _ _ ih hmem
    have hin : n ∈ rest := by
      rcases List.mem_cons.1 hmem with h | h
      · subst h; exact absurd hdd hdash
      · exact h
    obtain ⟨before, value, after, o, o', ht, hna, ho, ho', h1, h2, h3, h4⟩ := ih hin
    exact ⟨arg :: before, value, after, o, o', by rw [ht]; rfl, hna, ho, ho', h1, h2, h3, h4⟩

theorem parseArgs_ok_next {tokens : List String} {p p' : ArgParser}
    (h : ArgParser.parseArgs tokens p = .ok p') :
    ∀ before n next after, tokens = before ++ n :: next :: after →
      n.toList.take 2 = ['-', '-'] → p.find n ≠ none ∧ next.toList.head? ≠ some '-' := by
  revert h
  refine parseArgs_ok_induction (motive := fun tokens p p' =>
    ∀ before n next after, tokens = before ++ n :: next :: after →
      n.toList.take 2 = ['-', '-'] → p.find n ≠ none ∧ next.toList.head? ≠ some '-')
    ?_ ?_ ?_ tokens p p'
  · intro p before n next after ht
    cases before <;> cases ht
  · intro arg nx rest p p' opt hdash hf hv hscan ih before n next after ht hdd
    cases before with
    | nil =>
      simp only [List.nil_append, List.cons.injEq] at ht
      obtain ⟨h1, h2, _⟩ := ht
      subst h1; subst h2
      exact ⟨by rw [hf]; simp, hv⟩
    | cons b before' =>
      cases before' with
      | nil =>
        simp only [List.cons_append, List.nil_append, List.cons.injEq] at ht
        obtain ⟨_, h2, _⟩ := ht
        subst h2
        exact absurd (head_of_doubleDash hdd) hv
      | cons b' before'' =>
        simp only [List.cons_append, List.cons.injEq] at ht
        obtain ⟨_, _, h3⟩ := ht
        obtain ⟨h1, h2⟩ := ih before'' n next after h3 hdd
        refine ⟨?_, h2⟩
        rw [find_assign] at h1
        by_cases hna : n = arg
        · rw [hna, hf]; simp
        · rwa [if_neg hna] at h1
  · intro arg rest p p' hdash _ _ ih before n next after ht hdd
    cases before with
    | nil =>
      simp only [List.nil_append, List.cons.injEq] at ht
      exact absurd (ht.1 ▸ hdd) hdash
    | cons b before' =>
      simp only [List.cons_append, List.cons.injEq] at ht
      exact ih before' n next after ht.2 hdd

theorem parseArgs_ok_last {tokens : List String} {p p' : ArgParser}
    (h : ArgParser.parseArgs tokens p = .ok p') :
    ∀ before n, tokens = before ++ [n] → n.toList.take 2 ≠ ['-', '-'] := by
  revert h
  refine parseArgs_ok_induction (motive := fun tokens _ _ =>
    ∀ before n, tokens = before ++ [n] → n.toList.take 2 ≠ ['-', '-']) ?_ ?_ ?_ tokens p p'
  · intro p before n ht
    cases before <;> cases ht
  · intro arg nx rest p p' opt hdash hf hv hscan ih before n ht hdd
    cases before with
    | nil => cases ht
    | cons b before' =>
      cases before' with
      | nil =>
        simp only [List.cons_append, List.nil_append, List.cons.injEq] at ht
        obtain ⟨_, h2, _⟩ := ht
        subst h2
        exact absurd (head_of_doubleDash hdd) hv
      | cons b' before'' =>
        simp only [List.cons_append, List.cons.injEq] at ht
        exact ih before'' n ht.2.2 hdd
  · intro arg rest p p' hdash _ _ ih before n ht hdd
    cases before with
    | nil =>
      simp only [List.nil_append, List.cons.injEq] at ht
      exact absurd (ht.1 ▸ hdd) hdash
    | cons b before' =>
      simp only [List.cons_append, List.cons.injEq] at ht
      exact ih before' n ht.2 hdd

theorem parse_ok_inv {argv : List String} {p p' : ArgParser}
    (h : ArgParser.parse argv p = .ok p') :
    ArgParser.parseArgs (argv.drop 1) p = .ok p' ∧ ArgParser.checkRequired p'.options_ = .ok () := by
  unfold ArgParser.parse at h
  cases hscan : ArgParser.parseArgs (argv.drop 1) p with
  | error e => rw [hscan] at h; cases h
  | ok p1 =>
    rw [hscan] at h
    simp only at h
    cases hreq : ArgParser.checkRequired p1.options_ with
    | error e => rw [hreq] at h; cases h
    | ok u =>
      rw [hreq] at h
      simp only [Except.ok.injEq] at h
      subst h
      exact ⟨rfl, hreq⟩

theorem parse_of_scan_error {argv : List String} {p : ArgParser} {e : String}
    (h : ArgParser.parseArgs (argv.drop 1) p = .error e) : ArgParser.parse argv p = .error e := by
  rw [ArgParser.parse, h]

/-! ## The option parser: claims C21, C22 and C29 -/

/-- C21: for every parser state and every argument vector, a token that begins with `--`, is
reached by the scan (the tokens between the program name and it are scanned without an error,
so that it is not taken as the value of an option before it) and is not a registered option
name makes `parse` throw "Unknown option: " followed by the token. -/
theorem parse_raises_unknown_option (p p1 : ArgParser) (argv before after : List String)
    (t : String) (hargv : argv.drop 1 = before ++ t :: after)
    (hreach : ArgParser.parseArgs before p = .ok p1)
    (hdd : t.toList.take 2 = ['-', '-']) (hunreg : p.find t = none) :
    ArgParser.parse argv p = .error ("Unknown option: " ++ t) := by
  apply parse_of_scan_error
  rw [hargv, parseArgs_append hreach, ArgParser.parseArgs, if_pos hdd,
    (parseArgs_find_none hreach t).2 hunreg]

/-- Witness of `parse_raises_unknown_option`: `--unknown` after the option `--file` and its
value. -/
theorem parse_raises_unknown_option_witness :
    ArgParser.parse ["program", "--file", "a.txt", "--unknown", "value"]
        (ArgParser.empty.add_option "--file" "Input file" false) =
      .error "Unknown option: --unknown" :=
  parse_raises_unknown_option (ArgParser.empty.add_option "--file" "Input file" false) _
    ["program", "--file", "a.txt", "--unknown", "value"] ["--file", "a.txt"] ["value"]
    "--unknown" rfl rfl rfl rfl

/-- C22, as the claim states it, fails: with `--file` registered, on the command line
`program --bogus --file` the registered option is the last token and `parse` throws
"Unknown option: --bogus"; and with an option registered under the name `file`, which does
not begin with `--`, on the command line `program file` the registered name is the last
token and `parse` returns, the token being positional. -/
theorem parse_last_option_counterexample :
    (ArgParser.empty.add_option "--file" "Input file" false).find "--file" =
      some { description := "Input file", value := "", has_value := false, required := false } ∧
    ArgParser.parse ["program", "--bogus", "--file"]
        (ArgParser.empty.add_option "--file" "Input file" false) =
      .error "Unknown option: --bogus" ∧
    (ArgParser.empty.add_option "file" "Input file" false).find "file" =
      some { description := "Input file", value := "", has_value := false, required := false } ∧
    ArgParser.parse ["program", "file"] (ArgParser.empty.add_option "file" "Input file" false) =
      .ok
        { options_ :=
            [("file",
              { description := "Input file", value := "", has_value := false,
                required := false })]
          positional_args_ := ["file"] } :=
  ⟨rfl, rfl, rfl, rfl⟩

/-- C22, amended: for every option name that begins with `--`, an argument vector whose last
token is that name makes `parse` throw; when the name is registered and the last token is
reached by the scan (the tokens before it are scanned without an error) the message is
"Option " followed by the name and " expects a value". -/
theorem parse_last_option_expects_value (p : ArgParser) (argv before : List String) (n : String)
    (hargv : argv.drop 1 = before ++ [n]) (hdd : n.toList.take 2 = ['-', '-']) :
    (∃ e, ArgParser.parse argv p = .error e) ∧
    ∀ p1 o, ArgParser.parseArgs before p = .ok p1 → p.find n = some o →
      ArgParser.parse argv p = .error ("Option " ++ n ++ " expects a value") := by
  constructor
  · cases hscan : ArgParser.parseArgs (argv.drop 1) p with
    | error e => exact ⟨e, parse_of_scan_error hscan⟩
    | ok p' => exact absurd hdd (parseArgs_ok_last hscan before n hargv)
  · intro p1 o hreach hreg
    apply parse_of_scan_error
    have hreg1 : p1.find n ≠ none := by
      rw [Ne, parseArgs_find_none hreach n, hreg]; simp
    rw [hargv, parseArgs_append hreach, ArgParser.parseArgs, if_pos hdd]
    cases hf : p1.find n with
    | none => exact absurd hf hreg1
    | some o1 => rfl

/-- Witness of `parse_last_option_expects_value`: the command line `program --file`. -/
theorem parse_last_option_expects_value_witness :
    ArgParser.parse ["program", "--file"]
        (ArgParser.empty.add_option "--file" "Input file" false) =
      .error "Option --file expects a value" :=
  (parse_last_option_expects_value (ArgParser.empty.add_option "--file" "Input file" false)
    ["program", "--file"] [] "--file" rfl rfl).2 _ _ rfl rfl

/-- C29, as the claim states it, fails: with `--count` registered, on the command line
`program --bogus --count -5` the registered option is followed by a token that begins with
`-` and `parse` throws "Unknown option: --bogus", not "expects a value"; and with an option
registered under the name `count`, on the command line `program count -5` it throws
"Short options not supported: -5". -/
theorem parse_dash_value_counterexample :
    ArgParser.parse ["program", "--bogus", "--count", "-5"]
        (ArgParser.empty.add_option "--count" "Number of items" false) =
      .error "Unknown option: --bogus" ∧
    ArgParser.parse ["program", "count", "-5"]
        (ArgParser.empty.add_option "count" "Number of items" false) =
      .error "Short options not supported: -5" :=
  ⟨rfl, rfl⟩

/-- C29, amended: for every option name that begins with `--` and is followed on the command
line by a token whose first character is `-`, `parse` throws; when the name is registered and
reached by the scan (the tokens before it are scanned without an error) the message is
"Option " followed by the name and " expects a value".  So a value that begins with `-` is
never stored: in a scan that succeeds no token that begins with `--` is followed by a token
that begins with `-`.  The empty string is accepted as a value: after a registered option
that is reached, the scan stores it and goes on with the tokens that follow. -/
theorem parse_dash_value (p : ArgParser) (argv before after : List String) (n value : String)
    (hargv : argv.drop 1 = before ++ n :: value :: after)
    (hdd : n.toList.take 2 = ['-', '-']) :
    (value.toList.head? = some '-' →
      (∃ e, ArgParser.parse argv p = .error e) ∧
      ∀ p1 o, ArgParser.parseArgs before p = .ok p1 → p.find n = some o →
        ArgParser.parse argv p = .error ("Option " ++ n ++ " expects a value")) ∧
    (∀ p', ArgParser.parse argv p = .ok p' → value.toList.head? ≠ some '-') ∧
    (value = "" → ∀ p1 o1, ArgParser.parseArgs before p = .ok p1 → p1.find n = some o1 →
      ArgParser.parseArgs (argv.drop 1) p =
        ArgParser.parseArgs after (p1.assign n { o1 with value := "", has_value := true })) := by
  have hnever : ∀ p', ArgParser.parseArgs (argv.drop 1) p = .ok p' →
      value.toList.head? ≠ some '-' :=
    fun p' hscan => (parseArgs_ok_next hscan before n value after hargv hdd).2
  refine ⟨fun hv => ⟨?_, ?_⟩, fun p' hparse => hnever p' (parse_ok_inv hparse).1, ?_⟩
  · cases hscan : ArgParser.parseArgs (argv.drop 1) p with
    | error e => exact ⟨e, parse_of_scan_error hscan⟩
    | ok p' => exact absurd hv (hnever p' hscan)
  · intro p1 o hreach hreg
    apply parse_of_scan_error
    have hreg1 : p1.find n ≠ none := by
      rw [Ne, parseArgs_find_none hreach n, hreg]; simp
    rw [hargv, parseArgs_append hreach, ArgParser.parseArgs, if_pos hdd]
    cases hf : p1.find n with
    | none => exact absurd hf hreg1
    | some o1 =>
      simp only
      rw [if_neg (by simpa using hv)]
  · intro hempty p1 o1 hreach hreg
    subst hempty
    rw [hargv, parseArgs_append hreach, ArgParser.parseArgs, if_pos hdd, hreg]
    simp only
    rw [if_pos (by decide)]

/-- Witness of `parse_dash_value`: the command line `program --count -5`. -/
theorem parse_dash_value_witness :
    ArgParser.parse ["program", "--count", "-5"]
        (ArgParser.empty.add_option "--count" "Number of items" false) =
      .error "Option --count expects a value" :=
  ((parse_dash_value (ArgParser.empty.add_option "--count" "Number of items" false)
    ["program", "--count", "-5"] [] [] "--count" "-5" rfl rfl).1 rfl).2 _ _ rfl rfl

/-! ## The option parser: claims C23, C27 and C30 -/

theorem has_eq_true_iff (p : ArgParser) (n : String) :
    p.has n = true ↔ ∃ o, p.find n = some o ∧ o.has_value = true := by
  unfold ArgParser.has
  cases p.find n with
  | none => simp
  | some o => simp

theorem get_of_value {α : Type} (convert_value : String → Except String α) {p : ArgParser}
    {n : String} {o : ArgParser.option} (hf : p.find n = some o) (hv : o.has_value = true) :
    p.get convert_value n = convert_value o.value := by
  unfold ArgParser.get
  rw [hf]
  simp [hv]

/-- C23: after a successful `parse`, for every option name `n`: if `n` was supplied on the
command line, `has(n)` is true and `get<std::string>(n)` returns the token that follows the
last occurrence of `n`, whatever value the option held before; if `n` was not supplied but
was registered with a value (a default), `has(n)` is true and `get<std::string>(n)` returns
that text; if `n` was not supplied and is not registered or holds no value, `has(n)` is
false. -/
theorem parse_values (p p' : ArgParser) (argv : List String) (n : String)
    (hparse : ArgParser.parse argv p = .ok p') :
    (ArgParser.supplied n argv →
      ∃ before value after, argv.drop 1 = before ++ n :: value :: after ∧ n ∉ after ∧
        p'.has n = true ∧ p'.get convert_value_string n = .ok value) ∧
    (¬ ArgParser.supplied n argv → ∀ o, p.find n = some o → o.has_value = true →
      p'.has n = true ∧ p'.get convert_value_string n = .ok o.value) ∧
    (¬ ArgParser.supplied n argv →
      (p.find n = none ∨ ∃ o, p.find n = some o ∧ o.has_value = false) → p'.has n = false) := by
  obtain ⟨hscan, _⟩ := parse_ok_inv hparse
  refine ⟨fun hsup => ?_, fun hsup o hf hv => ?_, fun hsup hreg => ?_⟩
  · obtain ⟨before, value, after, o, o', ht, hna, _, ho', h1, h2, _, _⟩ :=
      parseArgs_find_supplied hscan hsup.1 hsup.2
    refine ⟨before, value, after, ht, hna, (has_eq_true_iff p' n).2 ⟨o', ho', h2⟩, ?_⟩
    rw [get_of_value convert_value_string ho' h2, convert_value_string, h1]
  · have hkeep : p'.find n = some o := by
      rw [parseArgs_find_of_absent hscan hsup, hf]
    exact ⟨(has_eq_true_iff p' n).2 ⟨o, hkeep, hv⟩,
      by rw [get_of_value convert_value_string hkeep hv, convert_value_string]⟩
  · have hkeep : p'.find n = p.find n := parseArgs_find_of_absent hscan hsup
    unfold ArgParser.has
    rw [hkeep]
    rcases hreg with h | ⟨o, h, hv⟩
    · rw [h]
    · rw [h]; exact hv

/-- Witness of `parse_values`: `--name` is supplied twice and `--mode` has a default. -/
theorem parse_values_witness :
    (∃ before value after,
      List.drop 1 ["program", "--name", "a", "x", "--name", "b"] =
        before ++ "--name" :: value :: after ∧ "--name" ∉ after ∧
      ArgParser.has
        { options_ :=
            [("--name",
                { description := "Name", value := "b", has_value := true, required := false }),
              ("--mode",
                { description := "Mode", value := "fast", has_value := true,
                  required := false })]
          positional_args_ := ["x"] } "--name" = true ∧
      ArgParser.get convert_value_string
        { options_ :=
            [("--name",
                { description := "Name", value := "b", has_value := true, required := false }),
              ("--mode",
                { description := "Mode", value := "fast", has_value := true,
                  required := false })]
          positional_args_ := ["x"] } "--name" = .ok value) :=
  (parse_values
    ((ArgParser.empty.add_option "--name" "Name" false).add_option_default "--mode" "Mode"
      "fast" false) _ ["program", "--name", "a", "x", "--name", "b"] "--name" rfl).1
    ⟨by decide, by decide⟩

theorem doubleDashed_dashed {t : String} (h : t.toList.take 2 = ['-', '-']) :
    dashed t = true := by
  have hlen : t.length > 1 := by
    have := congrArg List.length h
    simp only [List.length_take, List.length_cons, List.length_nil] at this
    have hl : t.length = t.toList.length := rfl
    omega
  simpa [dashed, hlen] using head_of_doubleDash h

theorem positionalTokens_cons (afterOption : Bool) (t : String) (ts : List String) :
    positionalTokens afterOption (t :: ts) =
      (if !afterOption && !dashed t then [t] else []) ++ positionalTokens (doubleDashed t) ts := by
  unfold positionalTokens
  simp only [List.map_cons, List.zip_cons_cons, List.filter_cons]
  split <;> simp

theorem positionalTokens_sublist (afterOption : Bool) (tokens : List String) :
    List.Sublist (positionalTokens afterOption tokens) tokens := by
  induction tokens generalizing afterOption with
  | nil => simp [positionalTokens]
  | cons t ts ih =>
    rw [positionalTokens_cons]
    split
    · exact List.Sublist.cons₂ t (ih _)
    · exact List.Sublist.cons t (ih _)

theorem parseArgs_positional {tokens : List String} {p p' : ArgParser}
    (h : ArgParser.parseArgs tokens p = .ok p') :
    p'.positional_args_ = p.positional_args_ ++ positionalTokens false tokens := by
  revert h
  refine parseArgs_ok_induction (motive := fun tokens p p' =>
    p'.positional_args_ = p.positional_args_ ++ positionalTokens false tokens) ?_ ?_ ?_
    tokens p p'
  · intro p; simp [positionalTokens]
  · intro arg next rest p p' opt hdash hf hv hscan ih
    have hnext : doubleDashed next = false := by
      unfold doubleDashed
      simp only [decide_eq_false_iff_not]
      exact fun h => hv (head_of_doubleDash h)
    have hdd : doubleDashed arg = true := by simpa [doubleDashed] using hdash
    rw [ih, assign_positional, positionalTokens_cons, positionalTokens_cons,
      doubleDashed_dashed hdash, hdd, hnext]
    simp
  · intro arg rest p p' hdash hshort hscan ih
    have hdd : doubleDashed arg = false := by simpa [doubleDashed] using hdash
    have hd : dashed arg = false := by simpa [dashed] using hshort
    rw [ih, positionalTokens_cons, hdd, hd]
    simp

theorem parseArgs_ok_dashed {tokens : List String} {p p' : ArgParser}
    (h : ArgParser.parseArgs tokens p = .ok p') :
    ∀ t ∈ tokens, dashed t = true → t.toList.take 2 = ['-', '-'] := by
  revert h
  refine parseArgs_ok_induction (motive := fun tokens _ _ =>
    ∀ t ∈ tokens, dashed t = true → t.toList.take 2 = ['-', '-']) ?_ ?_ ?_ tokens p p'
  · intro p t ht; cases ht
  · intro arg next rest p p' opt hdash hf hv hscan ih t ht hd
    rcases List.mem_cons.1 ht with h | h
    · rw [h]; exact hdash
    · rcases List.mem_cons.1 h with h | h
      · subst h
        have hhead : t.toList.head? = some '-' ∧ t.length > 1 := by simpa [dashed] using hd
        exact absurd hhead.1 hv
      · exact ih t h hd
  · intro arg rest p p' hdash hshort hscan ih t ht hd
    rcases List.mem_cons.1 ht with h | h
    · subst h
      have hhead : t.toList.head? = some '-' ∧ t.length > 1 := by simpa [dashed] using hd
      exact absurd hhead hshort
    · exact ih t h hd

/-- C27: after a successful `parse`, `positional()` is what it was before the call (nothing
for a parser that has not parsed yet) followed by the tokens of `argv[1..]`, in command-line
order, that neither begin with `-` followed by another character nor come right after a
token that begins with `--`; in a successful parse every token that begins with `--` is a
registered option and the token after it is the one taken as its value.  The sequence is a
subsequence of `argv[1..]`, so that `argv[0]` is never included. -/
theorem parse_positional (p p' : ArgParser) (argv : List String)
    (hparse : ArgParser.parse argv p = .ok p') :
    p'.positional = p.positional ++ positionalTokens false (argv.drop 1) ∧
    (p.positional = [] → p'.positional = positionalTokens false (argv.drop 1)) ∧
    List.Sublist (positionalTokens false (argv.drop 1)) (argv.drop 1) ∧
    (∀ before n value after, argv.drop 1 = before ++ n :: value :: after →
      n.toList.take 2 = ['-', '-'] → p.find n ≠ none ∧ value.toList.head? ≠ some '-') ∧
    (∀ t ∈ argv.drop 1, dashed t = true → t.toList.take 2 = ['-', '-']) := by
  obtain ⟨hscan, _⟩ := parse_ok_inv hparse
  have hpos := parseArgs_positional hscan
  refine ⟨hpos, fun h => ?_, positionalTokens_sublist _ _, parseArgs_ok_next hscan, ?_⟩
  · unfold ArgParser.positional at h ⊢
    rw [hpos, h, List.nil_append]
  · exact parseArgs_ok_dashed hscan

/-- Witness of `parse_positional`: two positional tokens around an option and its value. -/
theorem parse_positional_witness :
    ArgParser.positional
        { options_ :=
            [("--name",
                { description := "Name", value := "a", has_value := true, required := false })]
          positional_args_ := ["x", "-", "y"] } =
      ArgParser.positional (ArgParser.empty.add_option "--name" "Name" false) ++
        positionalTokens false (List.drop 1 ["program", "x", "--name", "a", "-", "y"]) :=
  (parse_positional (ArgParser.empty.add_option "--name" "Name" false) _
    ["program", "x", "--name", "a", "-", "y"] rfl).1

/-! ## The option parser: conversions and queries, claims C24, C25, C26 and C28 -/

theorem digitChar_isdigit {d : ℕ} (h : d < 10) :
    isdigit (Nat.digitChar d) = true ∧ (Nat.digitChar d).toNat - 48 = d := by
  interval_cases d <;> exact ⟨by decide, by decide⟩

theorem toDigitsCore_spec (fuel : ℕ) :
    ∀ (n : ℕ) (ds : List Char), n < fuel → (∀ c ∈ ds, isdigit c = true) →
      (∀ c ∈ Nat.toDigitsCore 10 fuel n ds, isdigit c = true) ∧
      Nat.toDigitsCore 10 fuel n ds ≠ [] ∧
      (Nat.toDigitsCore 10 fuel n ds).foldl (fun value c => 10 * value + (c.toNat - 48)) 0 =
        ds.foldl (fun value c => 10 * value + (c.toNat - 48)) n := by
  induction fuel with
  | zero => intro n ds h; omega
  | succ fuel ih =>
    intro n ds hn hds
    have hd := digitChar_isdigit (Nat.mod_lt n (by norm_num : 10 > 0))
    have hall : ∀ c ∈ Nat.digitChar (n % 10) :: ds, isdigit c = true := by
      intro c hc
      rcases List.mem_cons.1 hc with h | h
      · rw [h]; exact hd.1
      · exact hds c h
    rw [Nat.toDigitsCore]
    by_cases h0 : n / 10 = 0
    · simp only [h0, if_true]
      refine ⟨hall, by simp, ?_⟩
      simp only [List.foldl_cons, hd.2, Nat.mul_zero, Nat.zero_add]
      rw [Nat.mod_eq_of_lt (by omega)]
    · simp only [h0, if_false]
      obtain ⟨h1, h2, h3⟩ := ih (n / 10) (Nat.digitChar (n % 10) :: ds) (by omega) hall
      refine ⟨h1, h2, ?_⟩
      rw [h3, List.foldl_cons, hd.2]
      congr 1
      omega

theorem toDigits_spec (n : ℕ) :
    (∀ c ∈ Nat.toDigits 10 n, isdigit c = true) ∧ Nat.toDigits 10 n ≠ [] ∧
      (Nat.toDigits 10 n).foldl (fun value c => 10 * value + (c.toNat - 48)) 0 = n := by
  obtain ⟨h1, h2, h3⟩ := toDigitsCore_spec (n + 1) n [] (by omega) (by simp)
  exact ⟨h1, h2, by simpa [Nat.toDigits] using h3⟩

theorem takeWhile_of_forall {p : Char → Bool} {l : List Char} (h : ∀ c ∈ l, p c = true) :
    l.takeWhile p = l ∧ l.dropWhile p = [] := by
  induction l with
  | nil => exact ⟨rfl, rfl⟩
  | cons a l ih =>
    have ha := h a (List.mem_cons_self _ _)
    obtain ⟨h1, h2⟩ := ih fun c hc => h c (List.mem_cons_of_mem _ hc)
    simp [List.takeWhile_cons, List.dropWhile_cons, ha, h1, h2]

theorem isdigit_not_special {c : Char} (h : isdigit c = true) :
    isspace c = false ∧ c ≠ '-' ∧ c ≠ '+' := by
  have hd : '0' ≤ c ∧ c ≤ '9' := by simpa [isdigit] using h
  have h0 : (48 : ℕ) ≤ c.toNat := hd.1
  have h9 : c.toNat ≤ 57 := hd.2
  refine ⟨?_, ?_, ?_⟩
  · simp only [isspace, decide_eq_false_iff_not, not_or]
    refine ⟨?_, ?_, ?_, ?_, ?_, ?_⟩ <;> (rintro rfl; revert h0; decide)
  · rintro rfl; revert h0; decide
  · rintro rfl; revert h0; decide

theorem extractInt_digits {ds : List Char} (hds : ∀ c ∈ ds, isdigit c = true) (hne : ds ≠ [])
    (hmax : ((ds.foldl (fun value c => 10 * value + (c.toNat - 48)) 0 : ℕ) : ℤ) ≤ INT_MAX) :
    extractInt ds =
      { result := ((ds.foldl (fun value c => 10 * value + (c.toNat - 48)) 0 : ℕ) : ℤ),
        fail := false, eof := true } := by
  obtain ⟨a, l, rfl⟩ := List.exists_cons_of_ne_nil hne
  obtain ⟨hsp, hm, hp⟩ := isdigit_not_special (hds a (List.mem_cons_self _ _))
  obtain ⟨ht, hdr⟩ := takeWhile_of_forall hds
  have hmin : ¬ ((((a :: l).foldl (fun value c => 10 * value + (c.toNat - 48)) 0 : ℕ) : ℤ) <
      INT_MIN) := by
    have : INT_MIN < 0 := by decide
    omega
  unfold extractInt
  have hdw : (a :: l).dropWhile isspace = a :: l := by simp [List.dropWhile_cons, hsp]
  simp only [hdw, List.head?_cons, Option.some.injEq, hm, hp, or_self, if_false, ht, hdr,
    decide_False, Bool.false_eq_true, reduceCtorEq, hmin, not_lt.2 hmax, decide_True]

theorem extractInt_negative {ds : List Char} (hds : ∀ c ∈ ds, isdigit c = true) (hne : ds ≠ [])
    (hmin : INT_MIN ≤ -((ds.foldl (fun value c => 10 * value + (c.toNat - 48)) 0 : ℕ) : ℤ)) :
    extractInt ('-' :: ds) =
      { result := -((ds.foldl (fun value c => 10 * value + (c.toNat - 48)) 0 : ℕ) : ℤ),
        fail := false, eof := true } := by
  obtain ⟨ht, hdr⟩ := takeWhile_of_forall hds
  have hmax : ¬ (INT_MAX <
      -(((ds.foldl (fun value c => 10 * value + (c.toNat - 48)) 0 : ℕ) : ℤ))) := by
    have : (0 : ℤ) < INT_MAX := by decide
    omega
  unfold extractInt
  have hdw : ('-' :: ds).dropWhile isspace = '-' :: ds := by
    simp [List.dropWhile_cons, isspace]
  simp only [hdw, List.head?_cons, true_or, if_true, List.drop_succ_cons, List.drop_zero, ht,
    hdr, decide_True, hne, not_lt.2 hmin, hmax, if_false]

theorem convert_value_int_toString (k : ℤ) (hmin : INT_MIN ≤ k) (hmax : k ≤ INT_MAX) :
    convert_value_int (toString k) = .ok k := by
  cases k with
  | ofNat m =>
    obtain ⟨h1, h2, h3⟩ := toDigits_spec m
    have hs : (toString (Int.ofNat m)).toList = Nat.toDigits 10 m := rfl
    unfold convert_value_int
    rw [hs, extractInt_digits h1 h2 (by rw [h3]; exact hmax), h3]
    simp
  | negSucc m =>
    obtain ⟨h1, h2, h3⟩ := toDigits_spec (m + 1)
    have hs : (toString (Int.negSucc m)).toList = '-' :: Nat.toDigits 10 (m + 1) := rfl
    have hk : Int.negSucc m = -((m + 1 : ℕ) : ℤ) := rfl
    unfold convert_value_int
    rw [hs, extractInt_negative h1 h2 (by rw [h3, ← hk]; exact hmin), h3]
    simp [hk]

theorem convert_value_int_cases (value : String) :
    (∃ k, convert_value_int value = .ok k) ∨
      convert_value_int value = .error ("Cannot convert '" ++ value ++ "' to requested type") := by
  unfold convert_value_int
  by_cases h : (extractInt value.toList).fail = true ∨ ¬ (extractInt value.toList).eof = true
  · right; simp only [h, if_true]
  · left; exact ⟨(extractInt value.toList).result, by simp only [h, if_false]⟩

theorem extraction_ok_inv {digits rest : List Char} {value : ℤ} {e : Extraction}
    (h : (if digits = [] then
        ({ result := 0, fail := true, eof := rest = [] } : Extraction)
      else if value < INT_MIN then
        { result := INT_MIN, fail := true, eof := rest = [] }
      else if INT_MAX < value then
        { result := INT_MAX, fail := true, eof := rest = [] }
      else
        { result := value, fail := false, eof := rest = [] }) = e)
    (hfail : e.fail = false) (heof : e.eof = true) :
    digits ≠ [] ∧ rest = [] ∧ INT_MIN ≤ value ∧ value ≤ INT_MAX ∧ e.result = value := by
  subst h
  by_cases hd : digits = []
  · rw [if_pos hd] at hfail; cases hfail
  · by_cases hmin : value < INT_MIN
    · rw [if_neg hd, if_pos hmin] at hfail; cases hfail
    · by_cases hmax : INT_MAX < value
      · rw [if_neg hd, if_neg hmin, if_pos hmax] at hfail; cases hfail
      · rw [if_neg hd, if_neg hmin, if_neg hmax] at heof ⊢
        exact ⟨hd, by simpa using heof, not_lt.1 hmin, not_lt.1 hmax, rfl⟩

theorem digits_of_rest_nil {input : List Char} (h : input.dropWhile isdigit = []) :
    input.takeWhile isdigit = input ∧ ∀ c ∈ input, isdigit c = true := by
  have hall : input.takeWhile isdigit = input := by
    have := List.takeWhile_append_dropWhile isdigit input
    rw [h, List.append_nil] at this
    exact this
  refine ⟨hall, fun c hc => ?_⟩
  rw [← hall] at hc
  exact List.mem_takeWhile_imp hc

theorem extractInt_ok_inv {input : List Char} (hfail : (extractInt input).fail = false)
    (heof : (extractInt input).eof = true) :
    ∃ ws sign digits, input = ws ++ sign ++ digits ∧ (∀ c ∈ ws, isspace c = true) ∧
      (sign = [] ∨ sign = ['+'] ∨ sign = ['-']) ∧ digits ≠ [] ∧
      (∀ c ∈ digits, isdigit c = true) ∧ INT_MIN ≤ (extractInt input).result ∧
      (extractInt input).result ≤ INT_MAX ∧
      (extractInt input).result = if sign = ['-'] then
          -((digits.foldl (fun value c => 10 * value + (c.toNat - 48)) 0 : ℕ) : ℤ)
        else ((digits.foldl (fun value c => 10 * value + (c.toNat - 48)) 0 : ℕ) : ℤ) := by
  have hws : input = input.takeWhile isspace ++ input.dropWhile isspace :=
    (List.takeWhile_append_dropWhile _ _).symm
  have hwsall : ∀ c ∈ input.takeWhile isspace, isspace c = true :=
    fun c hc => List.mem_takeWhile_imp hc
  obtain ⟨hd, hr, hmin, hmax, hres⟩ := extraction_ok_inv (e := extractInt input) rfl hfail heof
  obtain ⟨hall, hdig⟩ := digits_of_rest_nil hr
  rw [← hres] at hmin hmax
  rw [hall] at hd hres
  rcases hl1 : input.dropWhile isspace with _ | ⟨c, t⟩
  · rw [hl1] at hd; simp at hd
  · rw [hl1] at hws hd hdig hres
    by_cases hm : c = '-'
    · subst hm
      simp only [List.head?_cons, true_or, if_true, List.drop_succ_cons, List.drop_zero,
        decide_True] at hd hdig hres
      exact ⟨_, ['-'], t, hws.trans (List.append_assoc _ ['-'] t).symm, hwsall,
        Or.inr (Or.inr rfl), hd, hdig, hmin, hmax, by rw [hres]; simp⟩
    · by_cases hp : c = '+'
      · subst hp
        simp only [List.head?_cons, Option.some.injEq, or_true, if_true, List.drop_succ_cons,
          List.drop_zero, hm, if_false] at hd hdig hres
        exact ⟨_, ['+'], t, hws.trans (List.append_assoc _ ['+'] t).symm, hwsall,
          Or.inr (Or.inl rfl), hd, hdig, hmin, hmax, by rw [hres]; simp⟩
      · simp only [List.head?_cons, Option.some.injEq, hm, hp, or_self, if_false,
          decide_False] at hd hdig hres
        exact ⟨_, [], c :: t, hws.trans (by rw [List.append_nil]), hwsall, Or.inl rfl, hd,
          hdig, hmin, hmax, by rw [hres]; simp⟩

/-- C24: for an option that holds a value, `get<int>` returns `k` when the value is the
decimal representation of an `int` `k`; whenever it returns `k`, the value is white space, an
optional sign and a non-empty run of decimal digits, with nothing after them, that denote `k`,
and `k` fits an `int`; in every other case, so for every value that is not consumed in full as
one integer, it throws "Cannot convert '", the value and "' to requested type". -/
theorem get_int (p : ArgParser) (n : String) (o : ArgParser.option) (hf : p.find n = some o)
    (hv : o.has_value = true) :
    (∀ k : ℤ, INT_MIN ≤ k → k ≤ INT_MAX → o.value = toString k →
      p.get convert_value_int n = .ok k) ∧
    (∀ k : ℤ, p.get convert_value_int n = .ok k →
      ∃ ws sign digits, o.value.toList = ws ++ sign ++ digits ∧
        (∀ c ∈ ws, isspace c = true) ∧ (sign = [] ∨ sign = ['+'] ∨ sign = ['-']) ∧
        digits ≠ [] ∧ (∀ c ∈ digits, isdigit c = true) ∧ INT_MIN ≤ k ∧ k ≤ INT_MAX ∧
        k = if sign = ['-'] then
            -((digits.foldl (fun value c => 10 * value + (c.toNat - 48)) 0 : ℕ) : ℤ)
          else ((digits.foldl (fun value c => 10 * value + (c.toNat - 48)) 0 : ℕ) : ℤ)) ∧
    ((∃ k, p.get convert_value_int n = .ok k) ∨
      p.get convert_value_int n =
        .error ("Cannot convert '" ++ o.value ++ "' to requested type")) ∧
    (o.value = "not_a_number" ∨ o.value = "42abc" ∨ o.value = "" →
      p.get convert_value_int n =
        .error ("Cannot convert '" ++ o.value ++ "' to requested type")) := by
  rw [get_of_value convert_value_int hf hv]
  refine ⟨fun k hmin hmax hk => ?_, fun k hk => ?_, convert_value_int_cases _, ?_⟩
  · rw [hk]; exact convert_value_int_toString k hmin hmax
  · unfold convert_value_int at hk
    by_cases hc : (extractInt o.value.toList).fail = true ∨
        ¬ (extractInt o.value.toList).eof = true
    · simp only [hc, if_true] at hk
      cases hk
    · simp only [hc, if_false, Except.ok.injEq] at hk
      rw [not_or, not_not, Bool.not_eq_true] at hc
      rw [← hk]
      exact extractInt_ok_inv hc.1 hc.2
  · rintro (h | h | h) <;> rw [h] <;> rfl

/-- Witness of `get_int`: the option `--count` holds the text of `42`. -/
theorem get_int_witness :
    ArgParser.get convert_value_int
        (ArgParser.empty.add_option_default "--count" "Number of items" "42" false) "--count" =
      .ok 42 :=
  (get_int (ArgParser.empty.add_option_default "--count" "Number of items" "42" false)
    "--count" _ rfl rfl).1 42 (by decide) (by decide) rfl

/-- C25: for an option that holds the value `v`, `get<bool>` returns `true` when `v` with the
letters `A` to `Z` lower-cased is "true", "1" or "yes", returns `false` when it is "false",
"0" or "no", and throws "Cannot convert '", `v` and "' to bool" for every other `v`. -/
theorem get_bool (p : ArgParser) (n : String) (o : ArgParser.option) (hf : p.find n = some o)
    (hv : o.has_value = true) :
    (String.mk (o.value.toList.map tolower) ∈ ["true", "1", "yes"] →
      p.get convert_value_bool n = .ok true) ∧
    (String.mk (o.value.toList.map tolower) ∈ ["false", "0", "no"] →
      p.get convert_value_bool n = .ok false) ∧
    (String.mk (o.value.toList.map tolower) ∉ ["true", "1", "yes", "false", "0", "no"] →
      p.get convert_value_bool n = .error ("Cannot convert '" ++ o.value ++ "' to bool")) ∧
    (∀ c : Char, tolower c = if 'A' ≤ c ∧ c ≤ 'Z' then Char.ofNat (c.toNat + 32) else c) := by
  rw [get_of_value convert_value_bool hf hv]
  unfold convert_value_bool
  refine ⟨fun h => ?_, fun h => ?_, fun h => ?_, fun c => rfl⟩
  · simp only [List.mem_cons, List.mem_singleton, List.not_mem_nil, or_false] at h
    simp only [h, if_true]
  · simp only [List.mem_cons, List.mem_singleton, List.not_mem_nil, or_false] at h
    rcases h with h | h | h <;> rw [h] <;> rfl
  · simp only [List.mem_cons, List.mem_singleton, List.not_mem_nil, or_false, not_or] at h
    obtain ⟨h1, h2, h3, h4, h5, h6⟩ := h
    simp only [h1, h2, h3, h4, h5, h6, or_self, if_false]

/-- Witness of `get_bool`: the values "YES", "False" and "maybe". -/
theorem get_bool_witness :
    ArgParser.get convert_value_bool
        (ArgParser.empty.add_option_default "--flag" "Flag" "YES" false) "--flag" = .ok true ∧
    ArgParser.get convert_value_bool
        (ArgParser.empty.add_option_default "--flag" "Flag" "False" false) "--flag" =
      .ok false ∧
    ArgParser.get convert_value_bool
        (ArgParser.empty.add_option_default "--flag" "Flag" "maybe" false) "--flag" =
      .error "Cannot convert 'maybe' to bool" :=
  ⟨(get_bool (ArgParser.empty.add_option_default "--flag" "Flag" "YES" false) "--flag" _ rfl
      rfl).1 (by decide),
    (get_bool (ArgParser.empty.add_option_default "--flag" "Flag" "False" false) "--flag" _ rfl
      rfl).2.1 (by decide),
    (get_bool (ArgParser.empty.add_option_default "--flag" "Flag" "maybe" false) "--flag" _ rfl
      rfl).2.2.1 (by decide)⟩

/-- C26: for every name `n`, every fallback `d` and every conversion, `get_or<T>(n, d)`
returns `d` whenever `has(n)` is false, which is the case exactly when `n` is not registered
or is registered without a value, and otherwise is `get<T>(n)`: in particular it throws what
the conversion throws when the value held cannot be converted, and does not return `d`. -/
theorem get_or_spec {α : Type} (convert_value : String → Except String α) (p : ArgParser)
    (n : String) (d : α) :
    (p.has n = false → p.get_or convert_value n d = .ok d) ∧
    (p.has n = true → p.get_or convert_value n d = p.get convert_value n) ∧
    (p.has n = false ↔ p.find n = none ∨ ∃ o, p.find n = some o ∧ o.has_value = false) ∧
    (∀ o e, p.find n = some o → o.has_value = true → convert_value o.value = .error e →
      p.get_or convert_value n d = .error e) := by
  refine ⟨fun h => ?_, fun h => ?_, ?_, fun o e hf hv he => ?_⟩
  · simp [ArgParser.get_or, h]
  · simp [ArgParser.get_or, h]
  · unfold ArgParser.has
    cases p.find n with
    | none => simp
    | some o => simp
  · have hhas : p.has n = true := (has_eq_true_iff p n).2 ⟨o, hf, hv⟩
    simp only [ArgParser.get_or, hhas, if_true]
    rw [get_of_value convert_value hf hv, he]

/-- Witness of `get_or_spec`: the fallback `7` is not returned for the value "abc", which is
not an integer. -/
theorem get_or_spec_witness :
    ArgParser.get_or convert_value_int
        (ArgParser.empty.add_option_default "--count" "Number of items" "abc" false)
        "--count" 7 =
      .error "Cannot convert 'abc' to requested type" :=
  (get_or_spec convert_value_int
    (ArgParser.empty.add_option_default "--count" "Number of items" "abc" false) "--count"
    7).2.2.2 _ _ rfl rfl rfl

/-- C28: for every name `n` and every conversion, `get<T>(n)` throws "Unknown option: "
followed by `n` when `n` is not registered, throws "Option ", `n` and " has no value" when
`n` is registered without a value, and is the conversion of the value held in the remaining
case.  A name is not registered in a new parser, is registered without a value by
`add_option(name, description, required)`, with a value by the overload that takes a default,
and a successful `parse` registers nothing. -/
theorem get_errors {α : Type} (convert_value : String → Except String α) (p : ArgParser)
    (n : String) :
    (p.find n = none → p.get convert_value n = .error ("Unknown option: " ++ n)) ∧
    (∀ o, p.find n = some o → o.has_value = false →
      p.get convert_value n = .error ("Option " ++ n ++ " has no value")) ∧
    (∀ o, p.find n = some o → o.has_value = true →
      p.get convert_value n = convert_value o.value) ∧
    ArgParser.empty.find n = none ∧
    (∀ description required,
      (p.add_option n description required).find n =
        some { description := description, value := "", has_value := false,
               required := required }) ∧
    (∀ description default_value required,
      (p.add_option_default n description default_value required).find n =
        some { description := description, value := default_value, has_value := true,
               required := required }) ∧
    (∀ m description required, m ≠ n → (p.add_option m description required).find n = p.find n) ∧
    (∀ argv p', ArgParser.parse argv p = .ok p' → (p'.find n = none ↔ p.find n = none)) := by
  refine ⟨fun h => ?_, fun o hf hv => ?_, fun o hf hv => get_of_value convert_value hf hv, rfl,
    fun description required => ?_, fun description default_value required => ?_,
    fun m description required hm => ?_, fun argv p' hparse => ?_⟩
  · simp [ArgParser.get, h]
  · simp [ArgParser.get, hf, hv]
  · rw [ArgParser.add_option, find_assign, if_pos rfl]
  · rw [ArgParser.add_option_default, find_assign, if_pos rfl]
  · rw [ArgParser.add_option, find_assign, if_neg (Ne.symm hm)]
  · exact parseArgs_find_none (parse_ok_inv hparse).1 n

/-- Witness of `get_errors`: a name that is not registered, and one registered without a
value. -/
theorem get_errors_witness :
    ArgParser.get convert_value_string (ArgParser.empty.add_option "--file" "Input file" false)
        "--nonexistent" = .error "Unknown option: --nonexistent" ∧
    ArgParser.get convert_value_string (ArgParser.empty.add_option "--file" "Input file" false)
        "--file" = .error "Option --file has no value" :=
  ⟨(get_errors convert_value_string (ArgParser.empty.add_option "--file" "Input file" false)
      "--nonexistent").1 rfl,
    (get_errors convert_value_string (ArgParser.empty.add_option "--file" "Input file" false)
      "--file").2.1 _ rfl rfl⟩

theorem mem_assign_cases {p : ArgParser} {name n : String} {v o : ArgParser.option}
    (h : (n, o) ∈ (p.assign name v).options_) : (n = name ∧ o = v) ∨ (n, o) ∈ p.options_ := by
  unfold ArgParser.assign at h
  split at h
  · simp only [List.mem_map] at h
    obtain ⟨e, he, heq⟩ := h
    by_cases hk : e.1 = name
    · rw [if_pos hk] at heq
      left
      exact ⟨(congrArg Prod.fst heq).symm, (congrArg Prod.snd heq).symm⟩
    · rw [if_neg hk] at heq
      right; rw [← heq]; exact he
  · simp only [List.mem_append, List.mem_singleton] at h
    rcases h with h | h
    · right; exact h
    · left; exact ⟨congrArg Prod.fst h, congrArg Prod.snd h⟩

theorem lookup_of_mem_nodup (l : List (String × ArgParser.option))
    (hl : (l.map Prod.fst).Nodup) {n : String} {o : ArgParser.option} (h : (n, o) ∈ l) :
    l.lookup n = some o := by
  induction l with
  | nil => cases h
  | cons e rest ih =>
    obtain ⟨a, b⟩ := e
    simp only [List.map_cons, List.nodup_cons] at hl
    rcases List.mem_cons.1 h with h' | h'
    · cases h'
      simp [List.lookup_cons]
    · have hne : n ≠ a := by
        rintro rfl
        exact hl.1 (List.mem_map.2 ⟨(n, o), h', rfl⟩)
      have hb : (n == a) = false := by simpa using hne
      rw [List.lookup_cons, hb]
      exact ih hl.2 h'

theorem parseArgs_holds_value {tokens : List String} {p p' : ArgParser}
    (h : ArgParser.parseArgs tokens p = .ok p') (n : String)
    (hp : ∀ o, (n, o) ∈ p.options_ → o.has_value = true) :
    ∀ o, (n, o) ∈ p'.options_ → o.has_value = true := by
  revert h hp
  refine parseArgs_ok_induction (motive := fun _ p p' =>
    (∀ o, (n, o) ∈ p.options_ → o.has_value = true) →
      ∀ o, (n, o) ∈ p'.options_ → o.has_value = true) ?_ ?_ ?_ tokens p p'
  · intro p hp; exact hp
  · intro arg next rest p p' opt _ _ _ _ ih hp
    apply ih
    intro o ho
    rcases mem_assign_cases ho with ⟨_, h⟩ | h
    · rw [h]
    · exact hp o h
  · intro arg rest p p' _ _ _ ih hp
    exact ih hp

theorem checkRequired_error_inv (l : List (String × ArgParser.option)) {e : String}
    (h : ArgParser.checkRequired l = .error e) :
    ∃ m o, (m, o) ∈ l ∧ o.required = true ∧ o.has_value = false ∧
      e = "Required option missing: " ++ m := by
  induction l with
  | nil => cases h
  | cons x rest ih =>
    obtain ⟨k, v⟩ := x
    rw [ArgParser.checkRequired] at h
    by_cases hc : v.required = true ∧ ¬ v.has_value = true
    · rw [if_pos hc] at h
      simp only [Except.error.injEq] at h
      exact ⟨k, v, List.mem_cons_self _ _, hc.1, by simpa using hc.2, h.symm⟩
    · rw [if_neg hc] at h
      obtain ⟨m, o, hm, h1, h2, h3⟩ := ih h
      exact ⟨m, o, List.mem_cons_of_mem _ hm, h1, h2, h3⟩

theorem checkRequired_ok (l : List (String × ArgParser.option))
    (h : ∀ m o, (m, o) ∈ l → o.required = true → o.has_value = true) :
    ArgParser.checkRequired l = .ok () := by
  induction l with
  | nil => rfl
  | cons x rest ih =>
    obtain ⟨k, v⟩ := x
    rw [ArgParser.checkRequired]
    have hc : ¬ (v.required = true ∧ ¬ v.has_value = true) :=
      fun hc => hc.2 (h k v (List.mem_cons_self _ _) hc.1)
    rw [if_neg hc]
    exact ih fun m o hm => h m o (List.mem_cons_of_mem _ hm)

theorem lookup_eq_none_of_not_mem (l : List (String × ArgParser.option)) {k : String}
    (h : l.lookup k = none) : k ∉ l.map Prod.fst := by
  induction l with
  | nil => simp
  | cons e rest ih =>
    obtain ⟨a, b⟩ := e
    cases hc : (k == a) with
    | true => rw [List.lookup_cons, hc] at h; cases h
    | false =>
      rw [List.lookup_cons, hc] at h
      have hne : k ≠ a := by simpa using hc
      simp only [List.map_cons, List.mem_cons, not_or]
      exact ⟨hne, ih h⟩

theorem distinct_empty : ArgParser.empty.distinct := by
  simp [ArgParser.distinct, ArgParser.empty]

theorem distinct_assign {p : ArgParser} (h : p.distinct) (k : String) (v : ArgParser.option) :
    (p.assign k v).distinct := by
  unfold ArgParser.distinct ArgParser.assign at *
  split
  · have hkeys : (p.options_.map fun e => if e.1 = k then (k, v) else e).map Prod.fst =
        p.options_.map Prod.fst := by
      rw [List.map_map]
      apply List.map_congr_left
      intro e _
      by_cases he : e.1 = k
      · simp [he]
      · simp [he]
    rw [hkeys]; exact h
  · rename_i hk
    have hnone : p.options_.lookup k = none := Option.not_isSome_iff_eq_none.1 hk
    simp only [List.map_append, List.map_cons, List.map_nil]
    rw [List.nodup_append]
    refine ⟨h, List.nodup_singleton k, ?_⟩
    intro a ha hb
    rw [List.mem_singleton] at hb
    subst hb
    exact lookup_eq_none_of_not_mem _ hnone ha

theorem parseArgs_distinct {tokens : List String} {p p' : ArgParser}
    (h : ArgParser.parseArgs tokens p = .ok p') (hp : p.distinct) : p'.distinct := by
  revert h hp
  refine parseArgs_ok_induction (motive := fun _ p p' => p.distinct → p'.distinct) ?_ ?_ ?_
    tokens p p'
  · intro p hp; exact hp
  · intro arg next rest p p' opt _ _ _ _ ih hp
    exact ih (distinct_assign hp _ _)
  · intro arg rest p p' _ _ _ ih hp
    exact ih hp

theorem string_append_cancel {a m n : String} (h : a ++ m = a ++ n) : m = n := by
  have hl := congrArg String.toList h
  simp only [String.toList, String.data_append] at hl
  exact String.ext (List.append_cancel_left hl)

/-- C30: an option that is registered with a value (a default) is never reported missing,
required or not, because the required check tests only whether the option holds a value: for
every argument vector, an error of `parse` is an error of the scan or the message "Required
option missing: " for another option, and `parse` succeeds as soon as the scan raises nothing
and every other required option holds a value, whether or not the option is on the command
line. -/
theorem parse_required_default (p : ArgParser) (argv : List String) (n : String)
    (o : ArgParser.option) (hmap : p.distinct) (hreg : p.find n = some o)
    (hdef : o.has_value = true) :
    (∀ e, ArgParser.parse argv p = .error e →
      ArgParser.parseArgs (argv.drop 1) p = .error e ∨
        ∃ m, m ≠ n ∧ e = "Required option missing: " ++ m) ∧
    (∀ p1, ArgParser.parseArgs (argv.drop 1) p = .ok p1 →
      ArgParser.checkRequired p1.options_ ≠ .error ("Required option missing: " ++ n)) ∧
    (∀ p1, ArgParser.parseArgs (argv.drop 1) p = .ok p1 →
      (∀ m om, (m, om) ∈ p1.options_ → m ≠ n → om.required = true → om.has_value = true) →
      ArgParser.parse argv p = .ok p1) := by
  have hp : ∀ o', (n, o') ∈ p.options_ → o'.has_value = true := by
    intro o' ho'
    have := lookup_of_mem_nodup p.options_ hmap ho'
    rw [ArgParser.find] at hreg
    rw [hreg] at this
    cases this
    exact hdef
  have hmissing : ∀ p1 e, ArgParser.parseArgs (argv.drop 1) p = .ok p1 →
      ArgParser.checkRequired p1.options_ = .error e →
      ∃ m, m ≠ n ∧ e = "Required option missing: " ++ m := by
    intro p1 e hscan he
    obtain ⟨m, om, hm, _, h2, h3⟩ := checkRequired_error_inv _ he
    refine ⟨m, ?_, h3⟩
    rintro rfl
    have := parseArgs_holds_value hscan m hp om hm
    rw [h2] at this
    cases this
  refine ⟨fun e he => ?_, fun p1 hscan he => ?_, fun p1 hscan hother => ?_⟩
  · unfold ArgParser.parse at he
    cases hscan : ArgParser.parseArgs (argv.drop 1) p with
    | error e' =>
      rw [hscan] at he
      left; exact he
    | ok p1 =>
      rw [hscan] at he
      simp only at he
      cases hc : ArgParser.checkRequired p1.options_ with
      | error e' =>
        rw [hc] at he
        simp only [Except.error.injEq] at he
        subst he
        right; exact hmissing p1 e' hscan hc
      | ok u => rw [hc] at he; cases he
  · obtain ⟨m, hne, hm⟩ := hmissing p1 _ hscan he
    exact hne (string_append_cancel hm).symm
  · have hall : ∀ m om, (m, om) ∈ p1.options_ → om.required = true → om.has_value = true := by
      intro m om hm hr
      by_cases hmn : m = n
      · subst hmn
        exact parseArgs_holds_value hscan m hp om hm
      · exact hother m om hm hmn hr
    rw [ArgParser.parse, hscan]
    simp only [checkRequired_ok _ hall]

/-- Witness of `parse_required_default`: the option `--mode` is required, has the default
"fast" and is absent from the command line `program x`; `parse` returns. -/
theorem parse_required_default_witness :
    ArgParser.parse ["program", "x"]
        (ArgParser.empty.add_option_default "--mode" "Mode" "fast" true) =
      .ok
        { options_ :=
            [("--mode",
              { description := "Mode", value := "fast", has_value := true, required := true })]
          positional_args_ := ["x"] } :=
  (parse_required_default (ArgParser.empty.add_option_default "--mode" "Mode" "fast" true)
    ["program", "x"] "--mode" _ (by unfold ArgParser.distinct; decide) rfl rfl).2.2 _ rfl
    fun _ _ hm hne _ => absurd (congrArg Prod.fst (List.mem_singleton.1 hm)) hne

end FCube
